import Mathlib

/-!
# The transient executioner of MOOSE

A shallow embedding of `framework/src/executioners/Transient.C`, with the residual and the
Jacobian of `test/src/interfacekernels/PenaltyInterfaceDiffusion.C`.

Conventions of the embedding.

* `Real` (a C++ `double`) is embedded as `ℚ`.  The functions of the section *Operations*
  compute in exact arithmetic.  Where a property of the clock depends on the rounding of a
  sum or a difference (`_time = _time_old + _dt` at lines 499 and 661, the target time limit
  of lines 732-734), the section *The clock in `double` arithmetic* gives these functions a
  second time with a rounding `fl` of every result: `fl = id` is the exact arithmetic and
  `fl = roundReal` the rounding to the nearest `double`.  The properties of the clock name
  the sum or the difference that the code computes (`_time_old + _dt`, `_target_time - _time`),
  so that they read the same in both arithmetics.
* The one place where the totality of C++ arithmetic matters is division: a quotient is
  embedded as a `DivReal`, which keeps the IEEE outcome of dividing by zero (an infinity or a
  NaN) apart from the finite quotients.
* `int` members are embedded as `Int` (signed overflow is undefined in C++ and is not
  represented); `unsigned int` members are embedded as `Nat`, increments wrap at `2 ^ 32`,
  and a conversion of an `int` to `unsigned int` is `toUnsigned`.
* The collaborators of the executioner (the problem, the time stepper, the nonlinear system)
  are not part of the file.  Every call the executioner makes on them is recorded, most recent
  first, in the field `calls` of the state; every answer they give is a field of `Env`, a
  function of the whole state at the moment of the call (the record of calls included), so an
  answer may depend on everything that happened before.
* The solution vector of the nonlinear system is the field `solution`, a function from the
  degree-of-freedom index to the value; it is written by the solve (`_time_stepper->step()`)
  and by the relaxation loop of `solveStep`.
-/

namespace Moose

/-! ## Data model -/

/-- Execution flags handed to the problem. -/
inductive ExecFlagType
  | EXEC_INITIAL
  | EXEC_TIMESTEP_BEGIN
  | EXEC_TIMESTEP_END
  | EXEC_FAILED
  | EXEC_FINAL
  deriving DecidableEq, Repr

/-- The values of the `scheme` parameter (`Moose::TimeIntegratorType`). -/
inductive TimeIntegratorType
  | TI_IMPLICIT_EULER
  | TI_EXPLICIT_EULER
  | TI_CRANK_NICOLSON
  | TI_BDF2
  | TI_EXPLICIT_MIDPOINT
  | TI_LSTABLE_DIRK2
  | TI_EXPLICIT_TVD_RK_2
  deriving DecidableEq, Repr

/-- The calls the executioner makes on its collaborators (`_problem`, `_time_stepper`, `_nl`,
the time integrator and its own virtual hooks).  Constant getters (`haveXFEM`, `converged`,
`getCurrentDT`, `isSolveTerminationRequested`, `solutionOld`, `l2_norm`) are not recorded. -/
inductive Call
  | initialSetup
  | outputStep (flag : ExecFlagType)
  | advanceState
  | adaptMesh
  | finishMultiAppStep (flag : ExecFlagType)
  | incrementMultiAppTStep (flag : ExecFlagType)
  | restoreMultiApps (flag : ExecFlagType) (force : Bool)
  | backupMultiApps (flag : ExecFlagType)
  | onTimestepBegin
  | onTimestepEnd
  | computeResidualL2Norm
  | execTransfers (flag : ExecFlagType)
  | execMultiApps (flag : ExecFlagType) (auto_advance : Bool)
  | updateMeshXFEM
  | timestepSetup
  | problemExecute (flag : ExecFlagType)
  | updateActiveObjects
  | computeMultiAppsDT (flag : ExecFlagType)
  | computeIndicators
  | computeMarkers
  | problemPostExecute
  | nlUpdate
  | allLocalDofIndices
  | timeIntegratorInit
  | timeIntegratorPostStep
  | stepperInit
  | stepperPreExecute
  | stepperPostExecute
  | stepperPreStep
  | stepperPostStep
  | computeStep
  | constrainStep
  | stepperPreSolve
  | step
  | stepperPostSolve
  | acceptStep
  | rejectStep
  | preSolve
  | postSolve
  deriving DecidableEq, Repr

/-- The fatal errors (`mooseError`) raised in the file. -/
inductive FatalError
  | schemeAndTimeIntegrator
  | relaxationFactor
  | tStepZeroWhileRecovering
  | tStepNonZeroWithoutRecovering
  | zeroInitialDt
  deriving DecidableEq, Repr

/-- The outcome of a division of two `Real`s: the exact quotient when the divisor is not
zero, and the IEEE outcome (an infinity or a NaN) when it is. -/
inductive DivReal
  | fin (q : ℚ)
  | posInf
  | negInf
  | nan
  deriving DecidableEq

/-- `a / b` on `Real`s (the zero divisors of the file are norms and step sizes, taken as `+0`). -/
def realDiv (a b : ℚ) : DivReal :=
  if b = 0 then
    (if 0 < a then DivReal.posInf else if a < 0 then DivReal.negInf else DivReal.nan)
  else DivReal.fin (a / b)

/-- `x < t` for a quotient `x` and a finite `t`: a NaN compares false with everything. -/
def DivReal.lt (x : DivReal) (t : ℚ) : Bool :=
  match x with
  | DivReal.fin q => decide (q < t)
  | DivReal.posInf => false
  | DivReal.negInf => true
  | DivReal.nan => false

/-- `x / d` for a quotient `x` and a `Real` `d`. -/
def DivReal.divReal (x : DivReal) (d : ℚ) : DivReal :=
  match x with
  | DivReal.fin q => realDiv q d
  | DivReal.posInf => if d < 0 then DivReal.negInf else DivReal.posInf
  | DivReal.negInf => if d < 0 then DivReal.posInf else DivReal.negInf
  | DivReal.nan => DivReal.nan

/-- Conversion of an `int` to `unsigned int`. -/
def toUnsigned (i : Int) : Nat := (i % 2 ^ 32).toNat

/-- A `NumericVector<Number>`: the value of every degree of freedom. -/
abbrev NumericVector := ℕ → ℚ

/-- The members of `Transient` that only the constructor writes: the parameters of the
time loop. -/
structure TimeParameters where
  _max_xfem_update : ℕ
  _update_xfem_at_timestep_begin : Bool
  _end_time : ℚ
  _dtmin : ℚ
  _dtmax : ℚ
  _num_steps : ℕ
  _n_startup_steps : Int
  _abort : Bool
  _start_time : ℚ
  _timestep_tolerance : ℚ
  _use_multiapp_dt : Bool
  _verbose : Bool
  _time_scheme : TimeIntegratorType
  timeIntegrator : Option String

/-- The members of `Transient` that only the constructor writes: the parameters of the
steady state detection and of the Picard iteration. -/
structure PicardParameters where
  _steady_state_detection : Bool
  _steady_state_tolerance : ℚ
  _steady_state_start_time : ℚ
  _picard_max_its : ℕ
  _picard_rel_tol : ℚ
  _picard_abs_tol : ℚ
  _relax_factor : ℚ
  _relaxed_vars : List String

/-- The members of `Transient` that refer to the clock of the problem.  The `Real` members are
rationals: the sums of lines 499 and 661 are exact in `Transient.solveStep_setTime` and
`Transient.endStep`, and rounded in `Transient.solveStep_setTime_with` and
`Transient.endStep_with`. -/
structure Clock where
  _t_step : Int
  _time : ℚ
  _time_old : ℚ
  _dt : ℚ
  _dt_old : ℚ

/-- The members of `Transient` that `computeConstrainedDT` and `endStep` use to limit the
step. -/
structure StepLimits where
  _unconstrained_dt : ℚ
  _at_sync_point : Bool
  _time_interval : Bool
  _next_interval_output_time : ℚ
  _time_interval_output_interval : ℚ
  _target_time : ℚ

/-- The members of `Transient` that keep the outcome of the solves, with the converged flag
of the time stepper (`_time_stepper->converged()`). -/
structure SolveStatus where
  _first : Bool
  _multiapps_converged : Bool
  _last_solve_converged : Bool
  stepper_converged : Bool
  _xfem_repeat_step : Bool
  _xfem_update_count : ℕ
  _steps_taken : ℕ

/-- The members of `Transient` that keep the state of the Picard iteration. -/
structure PicardStatus where
  _picard_it : Int
  _picard_converged : Bool
  _picard_initial_norm : ℚ
  _picard_timestep_begin_norm : ℚ
  _picard_timestep_end_norm : ℚ
  _prev_time : ℚ

/-- The members of `Transient` that are computed from the solution, with the solution vector
and the vector `relax_previous` of `_nl`. -/
structure SolutionData where
  solution : NumericVector
  relax_previous : NumericVector
  _relaxed_dofs : Finset ℕ
  _sln_diff : NumericVector
  _sln_diff_norm : DivReal
  _old_time_solution_norm : ℚ
  _solution_change_norm : DivReal

/-- The members of `Transient`, in groups, with the state of its collaborators that the file
reads back (the solution vector and the vector `relax_previous` of `_nl`, the converged flag
of the time stepper) and the record of the calls made (most recent first). -/
structure Transient extends TimeParameters, PicardParameters, Clock, StepLimits, SolveStatus,
    PicardStatus, SolutionData where
  calls : List Call

/-- The answers of the collaborators.  Each is a function of the state at the moment of the
call. -/
structure Env where
  /-- Whether libMesh was built with `LIBMESH_ENABLE_AMR`. -/
  LIBMESH_ENABLE_AMR : Bool
  /-- The answer of `_problem.haveXFEM()`. -/
  haveXFEM : Transient → Bool
  /-- The answer of `_problem.updateMeshXFEM()`. -/
  updateMeshXFEM : Transient → Bool
  /-- The answer of `_problem.execMultiApps(flag, auto_advance)`. -/
  execMultiApps : Transient → ExecFlagType → Bool → Bool
  /-- The answer of `_problem.computeMultiAppsDT(flag)`. -/
  computeMultiAppsDT : Transient → ExecFlagType → ℚ
  /-- The answer of `_problem.computeResidualL2Norm()`. -/
  computeResidualL2Norm : Transient → ℚ
  /-- The answer of `_problem.isSolveTerminationRequested()`. -/
  isSolveTerminationRequested : Transient → Bool
  /-- The answer of `_time_stepper->getCurrentDT()`. -/
  getCurrentDT : Transient → ℚ
  /-- The effect of `_time_stepper->constrainStep(dt)` on a trial step: whether the step
  ends at a sync point, and the constrained step (`dt` is passed by reference). -/
  constrainStep : Transient → ℚ → Bool × ℚ
  /-- The effect of `_time_stepper->step()`: the converged flag of the stepper, the solution
  of the solve, and the value `_dt` is left with. -/
  step : Transient → Bool × NumericVector × ℚ
  /-- The degrees of freedom collected by `AllLocalDofIndicesThread` for `_relaxed_vars`
  (a `std::set`). -/
  allLocalDofIndices : Transient → Finset ℕ
  /-- The vector `_nl.solutionOld()`. -/
  solutionOld : Transient → NumericVector
  /-- The norm `NumericVector::l2_norm()`. -/
  l2_norm : NumericVector → ℚ

/-- The parameters of `validParams<Transient>()` read by the constructor, with the two
queries `isParamSetByAddParam` / `isParamSetByUser` where the constructor asks them. -/
structure InputParameters where
  start_time : ℚ
  start_time_setByUser : Bool
  end_time : ℚ
  dtmin : ℚ
  dtmax : ℚ
  num_steps : ℕ
  n_startup_steps : Int
  trans_ss_check : Bool
  trans_ss_check_setByAddParam : Bool
  ss_check_tol : ℚ
  ss_check_tol_setByAddParam : Bool
  ss_tmin : ℚ
  ss_tmin_setByAddParam : Bool
  steady_state_detection : Bool
  steady_state_tolerance : ℚ
  steady_state_start_time : ℚ
  abort_on_solve_fail : Bool
  scheme : TimeIntegratorType
  scheme_setByUser : Bool
  timestep_tolerance : ℚ
  use_multiapp_dt : Bool
  picard_max_its : ℕ
  picard_rel_tol : ℚ
  picard_abs_tol : ℚ
  relaxation_factor : ℚ
  relaxed_variables : List String
  verbose : Bool
  max_xfem_update : ℕ
  update_xfem_at_timestep_begin : Bool

/-- What the constructor reads from the application and the problem, and the values of the
members it leaves as it finds them. -/
structure App where
  hasStartTime : Bool
  getStartTime : ℚ
  halfTransient : Bool
  isRecovering : Bool
  isRestarting : Bool
  hasTimeIntegrator : Bool
  /-- The value of `_problem.dtOld()` at construction. -/
  dtOld : ℚ
  /-- The indeterminate value of `_time_interval_output_interval`, which the constructor
  does not set. -/
  time_interval_output_interval : ℚ
  /-- The indeterminate value of `_solution_change_norm`, which the constructor does not
  set. -/
  solution_change_norm : DivReal
  /-- The solution vector of `_nl` at construction. -/
  solution : NumericVector
  /-- The converged flag of the time stepper before the first solve. -/
  stepper_converged : Bool

/-- The defaults of `validParams<Transient>()` (lines 57-160). -/
def validParams : InputParameters where
  start_time := 0
  start_time_setByUser := false
  end_time := 1.0e30
  dtmin := 2.0e-14
  dtmax := 1.0e30
  num_steps := 2 ^ 32 - 1
  n_startup_steps := 0
  trans_ss_check := false
  trans_ss_check_setByAddParam := true
  ss_check_tol := 1.0e-08
  ss_check_tol_setByAddParam := true
  ss_tmin := 0
  ss_tmin_setByAddParam := true
  steady_state_detection := false
  steady_state_tolerance := 1.0e-08
  steady_state_start_time := 0
  abort_on_solve_fail := false
  scheme := TimeIntegratorType.TI_IMPLICIT_EULER
  scheme_setByUser := false
  timestep_tolerance := 2.0e-14
  use_multiapp_dt := false
  picard_max_its := 1
  picard_rel_tol := 1e-8
  picard_abs_tol := 1e-50
  relaxation_factor := 1
  relaxed_variables := []
  verbose := false
  max_xfem_update := 2 ^ 32 - 1
  update_xfem_at_timestep_begin := false

/-! ## Operations -/

/-- Records a call on a collaborator. -/
def record (c : Call) (s : Transient) : Transient :=
  { s with calls := c :: s.calls }

/-- The calls recorded in `s2` since `s1`, most recent first. -/
def callsSince (s1 s2 : Transient) : List Call :=
  s2.calls.take (s2.calls.length - s1.calls.length)

/-- `Transient::lastSolveConverged` (lines 819-823). -/
def Transient.lastSolveConverged (s : Transient) : Bool :=
  s._multiapps_converged && s.stepper_converged

/-- `Transient::getDT` (lines 767-771). -/
def Transient.getDT (env : Env) (s : Transient) : ℚ :=
  env.getCurrentDT s

/-- `Transient::setTargetTime` (lines 837-841). -/
def Transient.setTargetTime (s : Transient) (target_time : ℚ) : Transient :=
  { s with _target_time := target_time }

/-- `Transient::computeDT` (lines 397-401). -/
def Transient.computeDT (s : Transient) : Transient :=
  record Call.computeStep s

/-- `Transient::preStep` (lines 334-338). -/
def Transient.preStep (s : Transient) : Transient :=
  record Call.stepperPreStep s

/-- `Transient::postStep` (lines 340-344). -/
def Transient.postStep (s : Transient) : Transient :=
  record Call.stepperPostStep s

/-- `Transient::preExecute` (lines 825-829). -/
def Transient.preExecute (s : Transient) : Transient :=
  record Call.stepperPreExecute s

/-- `Transient::postExecute` (lines 831-835). -/
def Transient.postExecute (s : Transient) : Transient :=
  record Call.stepperPostExecute s

/-- `Transient::picardConverged` (lines 647-655). -/
def Transient.picardConverged (s : Transient) : Bool :=
  let max_norm := max s._picard_timestep_begin_norm s._picard_timestep_end_norm
  let max_relative_drop := realDiv max_norm s._picard_initial_norm
  decide (max_norm < s._picard_abs_tol) || max_relative_drop.lt s._picard_rel_tol

/-- `Transient::relativeSolutionDifferenceNorm` (lines 907-917): the value returned and the
state, in which `_sln_diff` holds the difference of the current and the old solution. -/
def Transient.relativeSolutionDifferenceNorm (env : Env) (s : Transient) : DivReal × Transient :=
  let current_solution := s.solution
  let old_solution := env.solutionOld s
  let s := { s with _sln_diff := current_solution }
  let s := { s with _sln_diff := fun i => s._sln_diff i - old_solution i }
  (realDiv (env.l2_norm s._sln_diff) (env.l2_norm current_solution), s)

/-- `Transient::incrementStepOrReject` (lines 403-452). -/
def Transient.incrementStepOrReject (env : Env) (s : Transient) : Transient :=
  let s : Transient :=
    if s.lastSolveConverged then
      if s._xfem_repeat_step then
        { s with _time := s._time_old }
      else
        let s := if env.LIBMESH_ENABLE_AMR then record Call.adaptMesh s else s
        let s := { s with _time_old := s._time }
        let s := { s with _t_step := s._t_step + 1 }
        let s := record Call.advanceState s
        let s : Transient :=
          if s._picard_max_its > 1 then
            record (Call.finishMultiAppStep ExecFlagType.EXEC_TIMESTEP_END)
              (record (Call.finishMultiAppStep ExecFlagType.EXEC_TIMESTEP_BEGIN) s)
          else s
        let s := record (Call.incrementMultiAppTStep ExecFlagType.EXEC_TIMESTEP_BEGIN) s
        record (Call.incrementMultiAppTStep ExecFlagType.EXEC_TIMESTEP_END) s
    else
      let s := record (Call.restoreMultiApps ExecFlagType.EXEC_TIMESTEP_BEGIN true) s
      let s := record (Call.restoreMultiApps ExecFlagType.EXEC_TIMESTEP_END true) s
      let s := record Call.rejectStep s
      { s with _time := s._time_old }
  { s with _first := false }

/-- Lines 695-717 of `Transient::computeConstrainedDT`: the unconstrained trial step
(`_dt` during the start-up steps, the step of the time stepper afterwards), recorded in
`_unconstrained_dt`, and then limited by the time stepper. -/
def Transient.computeConstrainedDT_trial (env : Env) (s : Transient) : ℚ × Transient :=
  let dt_cur := s._dt
  let dt_cur := if s._t_step > s._n_startup_steps then s.getDT env else dt_cur
  let s := { s with _unconstrained_dt := dt_cur }
  let r := env.constrainStep s dt_cur
  (r.2, { record Call.constrainStep s with _at_sync_point := r.1 })

/-- Lines 719-729 of `Transient::computeConstrainedDT`: the time interval output limit. -/
def Transient.computeConstrainedDT_interval (r : ℚ × Transient) : ℚ × Transient :=
  let dt_cur := r.1
  let s := r.2
  if s._time_interval &&
      decide (s._time + dt_cur + s._timestep_tolerance ≥ s._next_interval_output_time) then
    (s._next_interval_output_time - s._time, { s with _at_sync_point := true })
  else (dt_cur, s)

/-- Lines 731-741 of `Transient::computeConstrainedDT`: the target time limit, in exact
arithmetic (`Transient.computeConstrainedDT_target_with` has the rounding). -/
def Transient.computeConstrainedDT_target (r : ℚ × Transient) : ℚ × Transient :=
  let dt_cur := r.1
  let s := r.2
  if decide (s._target_time > 0) &&
      decide (s._time + dt_cur + s._timestep_tolerance ≥ s._target_time) then
    (s._target_time - s._time, { s with _at_sync_point := true })
  else (dt_cur, s)

/-- Lines 743-751 of `Transient::computeConstrainedDT`: the limit of the MultiApps executed
on timestep begin. -/
def Transient.computeConstrainedDT_multiAppBegin (env : Env) (r : ℚ × Transient) :
    ℚ × Transient :=
  let dt_cur := r.1
  let s := r.2
  let multi_app_dt := env.computeMultiAppsDT s ExecFlagType.EXEC_TIMESTEP_BEGIN
  let s := record (Call.computeMultiAppsDT ExecFlagType.EXEC_TIMESTEP_BEGIN) s
  if s._use_multiapp_dt || decide (multi_app_dt < dt_cur) then
    (multi_app_dt, { s with _at_sync_point := false })
  else (dt_cur, s)

/-- Lines 752-759 of `Transient::computeConstrainedDT`: the limit of the MultiApps executed
on timestep end. -/
def Transient.computeConstrainedDT_multiAppEnd (env : Env) (r : ℚ × Transient) :
    ℚ × Transient :=
  let dt_cur := r.1
  let s := r.2
  let multi_app_dt := env.computeMultiAppsDT s ExecFlagType.EXEC_TIMESTEP_END
  let s := record (Call.computeMultiAppsDT ExecFlagType.EXEC_TIMESTEP_END) s
  if decide (multi_app_dt < dt_cur) then
    (multi_app_dt, { s with _at_sync_point := false })
  else (dt_cur, s)

/-- `Transient::computeConstrainedDT` (lines 686-765): the step returned and the state. -/
def Transient.computeConstrainedDT (env : Env) (s : Transient) : ℚ × Transient :=
  Transient.computeConstrainedDT_multiAppEnd env
    (Transient.computeConstrainedDT_multiAppBegin env
      (Transient.computeConstrainedDT_target
        (Transient.computeConstrainedDT_interval
          (Transient.computeConstrainedDT_trial env s))))

/-- The loop of lines 569-571 of `Transient::solveStep` over the relaxed degrees of freedom,
in the order of the `std::set`. -/
def relaxLoop (relax_factor : ℚ) (relax_previous : NumericVector) :
    List ℕ → NumericVector → NumericVector
  | [], solution => solution
  | dof :: dofs, solution =>
      relaxLoop relax_factor relax_previous dofs
        (Function.update solution dof
          ((relax_previous dof * (1 - relax_factor)) + (solution dof * relax_factor)))

/-- Lines 486-499 of `Transient::solveStep`: the step size of the solve and the increment
of the time. -/
def Transient.solveStep_setTime (env : Env) (s : Transient) (input_dt : ℚ) : Transient :=
  let s := { s with _dt_old := s._dt }
  let s : Transient :=
    if input_dt = -1 then
      let r := s.computeConstrainedDT env
      { r.2 with _dt := r.1 }
    else { s with _dt := input_dt }
  let s := if s._picard_it = 0 then record Call.onTimestepBegin s else s
  { s with _time := s._time_old + s._dt }

/-- Lines 501-513 of `Transient::solveStep`: the initial Picard norm and the MultiApps
executed on timestep begin. -/
def Transient.solveStep_multiAppsBegin (env : Env) (s : Transient) : Transient :=
  let s : Transient :=
    if s._picard_max_its > 1 then
      if s._picard_it = 0 then
        { record Call.computeResidualL2Norm s with
          _picard_initial_norm := env.computeResidualL2Norm s }
      else s
    else s
  let s := record (Call.execTransfers ExecFlagType.EXEC_TIMESTEP_BEGIN) s
  { record (Call.execMultiApps ExecFlagType.EXEC_TIMESTEP_BEGIN (s._picard_max_its == 1)) s with
    _multiapps_converged :=
      env.execMultiApps s ExecFlagType.EXEC_TIMESTEP_BEGIN (s._picard_max_its == 1) }

/-- Lines 518-559 of `Transient::solveStep`: the set-up of the solve, and the copy of the
solution kept for the relaxation. -/
def Transient.solveStep_setup (env : Env) (s : Transient) : Transient :=
  let s : Transient :=
    if env.haveXFEM s && s._update_xfem_at_timestep_begin then record Call.updateMeshXFEM s
    else s
  let s := record Call.preSolve s
  let s := record Call.stepperPreSolve s
  let s := record Call.timestepSetup s
  let s := record (Call.problemExecute ExecFlagType.EXEC_TIMESTEP_BEGIN) s
  let s : Transient :=
    if s._picard_max_its > 1 then
      { record Call.computeResidualL2Norm s with
        _picard_timestep_begin_norm := env.computeResidualL2Norm s }
    else s
  let s := record (Call.outputStep ExecFlagType.EXEC_TIMESTEP_BEGIN) s
  let s := record Call.updateActiveObjects s
  if decide (s._prev_time = s._time) && decide (s._relax_factor ≠ 1) then
    let s := { s with relax_previous := s.solution }
    { record Call.allLocalDofIndices s with _relaxed_dofs := env.allLocalDofIndices s }
  else s

/-- Line 561 of `Transient::solveStep`: the solve. -/
def Transient.solveStep_step (env : Env) (s : Transient) : Transient :=
  let r : Bool × NumericVector × ℚ := env.step s
  { record Call.step s with stepper_converged := r.1, solution := r.2.1, _dt := r.2.2 }

/-- Lines 563-577 of `Transient::solveStep`: the relaxation of the relaxed variables. -/
def Transient.solveStep_relax (s : Transient) : Transient :=
  let s : Transient :=
    if decide (s._prev_time = s._time) && decide (s._relax_factor ≠ 1) then
      let s : Transient :=
        { s with
          solution :=
            relaxLoop s._relax_factor s.relax_previous (s._relaxed_dofs.sort (· ≤ ·))
              s.solution }
      record Call.nlUpdate s
    else s
  { s with _prev_time := s._time }

/-- Lines 581-622 of `Transient::solveStep`: what follows the solve.  The flag returned
is true when the function returns at line 613. -/
def Transient.solveStep_converged (env : Env) (s : Transient) : Bool × Transient :=
  if s.lastSolveConverged then
    if env.haveXFEM s && decide (s._xfem_update_count < s._max_xfem_update) &&
        env.updateMeshXFEM s then
      let s := record Call.updateMeshXFEM s
      let s := { s with _xfem_repeat_step := true }
      (false, { s with _xfem_update_count := (s._xfem_update_count + 1) % 2 ^ 32 })
    else
      let s : Transient :=
        if env.haveXFEM s && decide (s._xfem_update_count < s._max_xfem_update) then
          record Call.updateMeshXFEM s
        else s
      let s : Transient :=
        if env.haveXFEM s then
          let s := { s with _xfem_repeat_step := false }
          { s with _xfem_update_count := 0 }
        else s
      let s := if s._picard_max_its ≤ 1 then record Call.acceptStep s else s
      let r := s.relativeSolutionDifferenceNorm env
      let s := { r.2 with _sln_diff_norm := r.1 }
      let s := { s with _solution_change_norm := s._sln_diff_norm.divReal s._dt }
      let s := record Call.onTimestepEnd s
      let s := record (Call.problemExecute ExecFlagType.EXEC_TIMESTEP_END) s
      let s := record (Call.execTransfers ExecFlagType.EXEC_TIMESTEP_END) s
      let s : Transient :=
        { record (Call.execMultiApps ExecFlagType.EXEC_TIMESTEP_END (s._picard_max_its == 1)) s
          with
          _multiapps_converged :=
            env.execMultiApps s ExecFlagType.EXEC_TIMESTEP_END (s._picard_max_its == 1) }
      (!s._multiapps_converged, s)
  else
    (false, record (Call.outputStep ExecFlagType.EXEC_FAILED) s)

/-- Lines 624-645 of `Transient::solveStep`: the Picard convergence test and the reset of
`_dt` and `_time`. -/
def Transient.solveStep_picard (env : Env) (s : Transient) (current_dt : ℚ) : Transient :=
  let s := record Call.postSolve s
  let s := record Call.stepperPostSolve s
  if decide (s._picard_max_its > 1) && s.lastSolveConverged then
    let s : Transient :=
      { record Call.computeResidualL2Norm s with
        _picard_timestep_end_norm := env.computeResidualL2Norm s }
    if s.picardConverged then
      let s := { s with _picard_converged := true }
      record Call.acceptStep s
    else
      let s := { s with _dt := current_dt }
      { s with _time := s._time_old }
  else
    let s := { s with _dt := current_dt }
    { s with _time := s._time_old }

/-- `Transient::solveStep` (lines 483-645). -/
def Transient.solveStep (env : Env) (s : Transient) (input_dt : ℚ) : Transient :=
  let s := s.solveStep_setTime env input_dt
  let current_dt := s._dt
  let s := s.solveStep_multiAppsBegin env
  if !s._multiapps_converged then s
  else
    let s := s.solveStep_setup env
    let s := s.solveStep_step env
    let s := s.solveStep_relax
    let r := s.solveStep_converged env
    if r.1 then r.2
    else r.2.solveStep_picard env current_dt

/-- The loop of `Transient::takeStep` (lines 462-480); `fuel` bounds the number of passes. -/
def Transient.takeStep_loop (env : Env) (input_dt : ℚ) : ℕ → Transient → Transient
  | 0, s => s
  | fuel + 1, s =>
      if decide (toUnsigned s._picard_it < s._picard_max_its) && (s._picard_converged == false)
      then
        let s : Transient :=
          if s._picard_it > 0 then
            record (Call.restoreMultiApps ExecFlagType.EXEC_TIMESTEP_END false)
              (record (Call.restoreMultiApps ExecFlagType.EXEC_TIMESTEP_BEGIN false) s)
          else s
        let s := s.solveStep env input_dt
        if !s.lastSolveConverged then s
        else Transient.takeStep_loop env input_dt fuel { s with _picard_it := s._picard_it + 1 }
      else s

/-- `Transient::takeStep` (lines 454-481).  The loop makes at most `_picard_max_its` passes:
`_picard_it` starts at 0 and grows by one in every pass that does not return. -/
def Transient.takeStep (env : Env) (s : Transient) (input_dt : ℚ) : Transient :=
  let s := { s with _picard_it := 0 }
  let s := record (Call.backupMultiApps ExecFlagType.EXEC_TIMESTEP_BEGIN) s
  let s := record (Call.backupMultiApps ExecFlagType.EXEC_TIMESTEP_END) s
  Transient.takeStep_loop env input_dt s._picard_max_its s

/-- `Transient::endStep` (lines 657-684). -/
def Transient.endStep (s : Transient) (input_time : ℚ) : Transient :=
  let s : Transient :=
    if input_time = -1 then { s with _time := s._time_old + s._dt }
    else { s with _time := input_time }
  let s := { s with _picard_converged := false }
  let s := { s with _last_solve_converged := s.lastSolveConverged }
  if s._last_solve_converged && !s._xfem_repeat_step then
    let s := record Call.timeIntegratorPostStep s
    let s := record Call.computeIndicators s
    let s := record Call.computeMarkers s
    let s := record (Call.outputStep ExecFlagType.EXEC_TIMESTEP_END) s
    if s._time_interval &&
        decide (s._time + s._timestep_tolerance ≥ s._next_interval_output_time) then
      { s with
        _next_interval_output_time :=
          s._next_interval_output_time + s._time_interval_output_interval }
    else s
  else s

/-- `Transient::keepGoing` (lines 773-812): the value returned and the state. -/
def Transient.keepGoing (env : Env) (s : Transient) : Bool × Transient :=
  let keep_going := !env.isSolveTerminationRequested s
  let r :=
    if s.lastSolveConverged && !s._xfem_repeat_step && (s._steady_state_detection == true) &&
        decide (s._time > s._steady_state_start_time) then
      if s._sln_diff_norm.lt s._steady_state_tolerance then (false, s)
      else (keep_going, { s with _old_time_solution_norm := env.l2_norm s.solution })
    else (keep_going, s)
  let keep_going := r.1
  let s := r.2
  let keep_going := if toUnsigned s._t_step > s._num_steps then false else keep_going
  let keep_going :=
    if decide (s._time > s._end_time) ||
        decide (|s._time - s._end_time| ≤ s._timestep_tolerance) then false
    else keep_going
  let keep_going := if !s.lastSolveConverged && s._abort then false else keep_going
  (keep_going, s)

/-- `Transient::setupTimeIntegrator` (lines 849-893): the error it raises, or the name of
the time integrator it adds to the problem, if it adds one.  The `default` case of the
`switch` has no value of `TimeIntegratorType` to take it. -/
def setupTimeIntegrator (scheme_setByUser hasTimeIntegrator : Bool)
    (time_scheme : TimeIntegratorType) : Except FatalError (Option String) :=
  if scheme_setByUser && hasTimeIntegrator then Except.error FatalError.schemeAndTimeIntegrator
  else if !hasTimeIntegrator then
    let ti_str : String :=
      match time_scheme with
      | TimeIntegratorType.TI_IMPLICIT_EULER => "ImplicitEuler"
      | TimeIntegratorType.TI_EXPLICIT_EULER => "ExplicitEuler"
      | TimeIntegratorType.TI_CRANK_NICOLSON => "CrankNicolson"
      | TimeIntegratorType.TI_BDF2 => "BDF2"
      | TimeIntegratorType.TI_EXPLICIT_MIDPOINT => "ExplicitMidpoint"
      | TimeIntegratorType.TI_LSTABLE_DIRK2 => "LStableDirk2"
      | TimeIntegratorType.TI_EXPLICIT_TVD_RK_2 => "ExplicitTVDRK2"
    Except.ok (some ti_str)
  else Except.ok none

/-- The member initialisers of `Transient::Transient` (lines 165-214). -/
def Transient.initializers (parameters : InputParameters) (app : App) : Transient where
  _t_step := 0
  _time := 0
  _time_old := 0
  _dt := 0
  _dt_old := app.dtOld
  _unconstrained_dt := -1
  _at_sync_point := false
  _first := true
  _multiapps_converged := true
  _last_solve_converged := true
  _xfem_repeat_step := false
  _xfem_update_count := 0
  _max_xfem_update := parameters.max_xfem_update
  _update_xfem_at_timestep_begin := parameters.update_xfem_at_timestep_begin
  _end_time := parameters.end_time
  _dtmin := parameters.dtmin
  _dtmax := parameters.dtmax
  _num_steps := parameters.num_steps
  _n_startup_steps := parameters.n_startup_steps
  _steps_taken := 0
  _steady_state_detection := parameters.steady_state_detection
  _steady_state_tolerance := parameters.steady_state_tolerance
  _steady_state_start_time := parameters.steady_state_start_time
  _sln_diff_norm := DivReal.fin 0
  _old_time_solution_norm := 0
  _abort := parameters.abort_on_solve_fail
  _time_interval := false
  _next_interval_output_time := 0
  _time_interval_output_interval := app.time_interval_output_interval
  _start_time := parameters.start_time
  _timestep_tolerance := parameters.timestep_tolerance
  _target_time := -1
  _use_multiapp_dt := parameters.use_multiapp_dt
  _picard_it := 0
  _picard_max_its := parameters.picard_max_its
  _picard_converged := false
  _picard_initial_norm := 0
  _picard_timestep_begin_norm := 0
  _picard_timestep_end_norm := 0
  _picard_rel_tol := parameters.picard_rel_tol
  _picard_abs_tol := parameters.picard_abs_tol
  _verbose := parameters.verbose
  _sln_diff := fun _ => 0
  _relax_factor := parameters.relaxation_factor
  _relaxed_vars := parameters.relaxed_variables
  _relaxed_dofs := ∅
  _prev_time := 0
  _solution_change_norm := app.solution_change_norm
  _time_scheme := parameters.scheme
  solution := app.solution
  relax_previous := fun _ => 0
  stepper_converged := app.stepper_converged
  timeIntegrator := none
  calls := []

/-- `Transient::Transient` (lines 165-267): the fatal error it raises, or the executioner
it constructs. -/
def Transient.construct (parameters : InputParameters) (app : App) :
    Except FatalError Transient :=
  let s : Transient := Transient.initializers parameters app
  let s : Transient :=
    if !parameters.trans_ss_check_setByAddParam then
      { s with _steady_state_detection := parameters.trans_ss_check }
    else s
  let s : Transient :=
    if !parameters.ss_check_tol_setByAddParam then
      { s with _steady_state_tolerance := parameters.ss_check_tol }
    else s
  let s : Transient :=
    if !parameters.ss_tmin_setByAddParam then
      { s with _steady_state_start_time := parameters.ss_tmin }
    else s
  let s : Transient := { s with _t_step := 0 }
  let s : Transient := { s with _dt := 0 }
  let s : Transient := { s with _next_interval_output_time := 0 }
  let s : Transient := if app.hasStartTime then { s with _start_time := app.getStartTime } else s
  let s : Transient := { s with _time_old := s._start_time }
  let s : Transient := { s with _time := s._time_old }
  match setupTimeIntegrator parameters.scheme_setByUser app.hasTimeIntegrator s._time_scheme with
  | Except.error e => Except.error e
  | Except.ok ti =>
    let s : Transient := { s with timeIntegrator := ti }
    let s : Transient :=
      if app.halfTransient then
        let s : Transient := { s with _end_time := s._end_time / 2 }
        let s : Transient := { s with _num_steps := s._num_steps / 2 }
        if s._num_steps = 0 then { s with _num_steps := 1 } else s
      else s
    if s._relax_factor ≠ 1 ∧ (s._relax_factor ≥ 2 ∨ s._relax_factor ≤ 0) then
      Except.error FatalError.relaxationFactor
    else
      Except.ok { s with _prev_time := s._time - 1 }

/-- Lines 296-303 of `Transient::init`: the set-up of the problem and of the time stepper, the
clock of a restart and the initial output. -/
def Transient.init_setup (app : App) (s : Transient) : Transient :=
  let s : Transient := record Call.initialSetup s
  let s : Transient := record Call.stepperInit s
  let s : Transient := if app.isRestarting then { s with _time_old := s._time } else s
  record (Call.outputStep ExecFlagType.EXEC_INITIAL) s

/-- Lines 319-320 of `Transient::init`: the initial step size of a cold start,
`computeDT(); _dt = getDT();`. -/
def Transient.init_computeDT (env : Env) (s : Transient) : Transient :=
  let s : Transient := s.computeDT
  { s with _dt := s.getDT env }

/-- `Transient::init` (lines 296-332; lines 272-294 create the default time stepper, whose
answers are those of `Env`). -/
def Transient.init (env : Env) (app : App) (s : Transient) : Except FatalError Transient :=
  let s : Transient := s.init_setup app
  if app.isRecovering then
    if s._t_step = 0 then Except.error FatalError.tStepZeroWhileRecovering
    else Except.ok { s with _dt_old := s._dt }
  else
    if s._t_step ≠ 0 then Except.error FatalError.tStepNonZeroWithoutRecovering
    else
      let s : Transient := s.init_computeDT env
      if s._dt = 0 then Except.error FatalError.zeroInitialDt
      else
        let s : Transient := record Call.timeIntegratorInit s
        Except.ok { s with _t_step := s._t_step + 1 }

/-- Lines 365-368 of `Transient::execute`: the acceptance or rejection of the previous step
at the head of a pass of the time loop. -/
def Transient.execute_increment (env : Env) (s : Transient) : Transient :=
  let s : Transient := if s._first != true then s.incrementStepOrReject env else s
  { s with _first := false }

/-- Lines 365-371 of `Transient::execute`: the head of a pass of the time loop, up to the
test of `keepGoing`. -/
def Transient.execute_head (env : Env) (s : Transient) : Bool × Transient :=
  (s.execute_increment env).keepGoing env

/-- Lines 373-379 of `Transient::execute`: the body of a pass of the time loop after the
test of `keepGoing`.  `takeStep()` and `endStep()` are called with their default argument,
the value -1.0 that both compare their argument with. -/
def Transient.execute_body (env : Env) (s : Transient) : Transient :=
  let s : Transient := s.preStep
  let s : Transient := s.computeDT
  let s : Transient := s.takeStep env (-1)
  let s : Transient := s.endStep (-1)
  let s : Transient := s.postStep
  { s with _steps_taken := (s._steps_taken + 1) % 2 ^ 32 }

/-- The time loop of `Transient::execute` (lines 363-380).  The loop of the source has no
bound; `fuel` bounds the number of passes, and the result is `none` when the loop has not
left within `fuel` passes. -/
def Transient.execute_loop (env : Env) : ℕ → Transient → Option Transient
  | 0, _ => none
  | fuel + 1, s =>
      let r := s.execute_head env
      if !r.1 then some r.2
      else Transient.execute_loop env fuel (r.2.execute_body env)

/-- `Transient::execute` (lines 346-395), with the bound `fuel` on the passes of the time
loop. -/
def Transient.execute (env : Env) (app : App) (fuel : ℕ) (s : Transient) : Option Transient :=
  let s : Transient := s.preExecute
  let s : Transient := if !app.isRecovering then record Call.advanceState s else s
  match Transient.execute_loop env fuel s with
  | none => none
  | some s =>
    let s : Transient :=
      if !app.halfTransient then
        record (Call.problemExecute ExecFlagType.EXEC_FINAL)
          (record (Call.outputStep ExecFlagType.EXEC_FINAL) s)
      else s
    let s : Transient := record Call.problemPostExecute s
    some s.postExecute

/-- The frame of the functions that make up a step attempt before its acceptance or
rejection: `s2` has the `_time_old` and the `_t_step` of `s1`, its record of calls extends
that of `s1`, and no `rejectStep` was added. -/
def StepFrame (s1 s2 : Transient) : Prop :=
  s2._time_old = s1._time_old ∧ s2._t_step = s1._t_step ∧ s1.calls <:+ s2.calls ∧
    s2.calls.count Call.rejectStep = s1.calls.count Call.rejectStep

/-! ## The clock in `double` arithmetic

The sums and differences of the clock (lines 499, 661, 681-682, 720-722 and 732-734) are given
a second time with the result of every operation passed through a rounding `fl`.  With
`fl = id` these are the functions above, in exact arithmetic; with `fl = roundReal`, the
rounding to the nearest `double`, they are the arithmetic of the machine, evaluated on states
whose members are `double`s (values of `roundReal`). -/

/-- The power `2 ^ e` of an integer exponent. -/
def pow2 (e : Int) : ℚ :=
  if 0 ≤ e then ((2 ^ e.toNat : ℕ) : ℚ) else 1 / ((2 ^ (-e).toNat : ℕ) : ℚ)

/-- The number of halvings that take `n` below 2, with at most `fuel` of them;
`log2Loop n n` is the position of the leading bit of `n`. -/
def log2Loop : ℕ → ℕ → ℕ
  | 0, _ => 0
  | fuel + 1, n => if 2 ≤ n then log2Loop fuel (n / 2) + 1 else 0

/-- The binary exponent of `q ≠ 0`: the `e` with `2 ^ e ≤ |q| < 2 ^ (e + 1)`. -/
def binaryExponent (q : ℚ) : Int :=
  let e0 : Int := (log2Loop q.num.natAbs q.num.natAbs : Int) - (log2Loop q.den q.den : Int)
  if pow2 e0 ≤ |q| then e0 else e0 - 1

/-- The integer nearest to `x`, the even one of the two when `x` is halfway between two
integers. -/
def roundHalfEven (x : ℚ) : Int :=
  if x - (Rat.floor x : ℚ) < 1 / 2 then Rat.floor x
  else if 1 / 2 < x - (Rat.floor x : ℚ) then Rat.floor x + 1
  else if Rat.floor x % 2 = 0 then Rat.floor x
  else Rat.floor x + 1

/-- The `double` (IEEE 754 binary64) nearest to `q`, ties to even: 53 significant bits, and
the spacing `2 ^ -1074` of the subnormal numbers below `2 ^ -1022`.  A result beyond the
largest `double`, which the machine replaces by an infinity, is not represented. -/
def roundReal (q : ℚ) : ℚ :=
  if q = 0 then 0
  else
    let u : ℚ := pow2 (max (binaryExponent q) (-1022) - 52)
    (roundHalfEven (q / u) : ℚ) * u

/-- Lines 719-729 of `Transient::computeConstrainedDT`, with the rounding `fl`. -/
def Transient.computeConstrainedDT_interval_with (fl : ℚ → ℚ) (r : ℚ × Transient) :
    ℚ × Transient :=
  let dt_cur := r.1
  let s := r.2
  if s._time_interval &&
      decide (fl (fl (s._time + dt_cur) + s._timestep_tolerance) ≥
        s._next_interval_output_time) then
    (fl (s._next_interval_output_time - s._time), { s with _at_sync_point := true })
  else (dt_cur, s)

/-- Lines 731-741 of `Transient::computeConstrainedDT`, with the rounding `fl`. -/
def Transient.computeConstrainedDT_target_with (fl : ℚ → ℚ) (r : ℚ × Transient) :
    ℚ × Transient :=
  let dt_cur := r.1
  let s := r.2
  if decide (s._target_time > 0) &&
      decide (fl (fl (s._time + dt_cur) + s._timestep_tolerance) ≥ s._target_time) then
    (fl (s._target_time - s._time), { s with _at_sync_point := true })
  else (dt_cur, s)

/-- Lines 695-741 of `Transient::computeConstrainedDT`, with the rounding `fl`: the step of
the master application before the MultiApps are asked for theirs. -/
def Transient.computeConstrainedDT_master_with (fl : ℚ → ℚ) (env : Env) (s : Transient) :
    ℚ × Transient :=
  Transient.computeConstrainedDT_target_with fl
    (Transient.computeConstrainedDT_interval_with fl (Transient.computeConstrainedDT_trial env s))

/-- `Transient::computeConstrainedDT` (lines 686-765), with the rounding `fl`: the step
returned and the state.  The trial step and the MultiApp limits involve no arithmetic. -/
def Transient.computeConstrainedDT_with (fl : ℚ → ℚ) (env : Env) (s : Transient) :
    ℚ × Transient :=
  Transient.computeConstrainedDT_multiAppEnd env
    (Transient.computeConstrainedDT_multiAppBegin env
      (Transient.computeConstrainedDT_master_with fl env s))

/-- Lines 486-499 of `Transient::solveStep`, with the rounding `fl`: the step size of the
solve and the increment of the time. -/
def Transient.solveStep_setTime_with (fl : ℚ → ℚ) (env : Env) (s : Transient)
    (input_dt : ℚ) : Transient :=
  let s := { s with _dt_old := s._dt }
  let s : Transient :=
    if input_dt = -1 then
      let r := s.computeConstrainedDT_with fl env
      { r.2 with _dt := r.1 }
    else { s with _dt := input_dt }
  let s := if s._picard_it = 0 then record Call.onTimestepBegin s else s
  { s with _time := fl (s._time_old + s._dt) }

/-- `Transient::endStep` (lines 657-683), with the rounding `fl`. -/
def Transient.endStep_with (fl : ℚ → ℚ) (s : Transient) (input_time : ℚ) : Transient :=
  let s : Transient :=
    if input_time = -1 then { s with _time := fl (s._time_old + s._dt) }
    else { s with _time := input_time }
  let s := { s with _picard_converged := false }
  let s := { s with _last_solve_converged := s.lastSolveConverged }
  if s._last_solve_converged && !s._xfem_repeat_step then
    let s := record Call.timeIntegratorPostStep s
    let s := record Call.computeIndicators s
    let s := record Call.computeMarkers s
    let s := record (Call.outputStep ExecFlagType.EXEC_TIMESTEP_END) s
    if s._time_interval &&
        decide (fl (s._time + s._timestep_tolerance) ≥ s._next_interval_output_time) then
      { s with
        _next_interval_output_time :=
          fl (s._next_interval_output_time + s._time_interval_output_interval) }
    else s
  else s

/-! ## The penalty interface kernel

The residual and the Jacobian of `PenaltyInterfaceDiffusion` at a quadrature point
(`test/src/interfacekernels/PenaltyInterfaceDiffusion.C`). -/

/-- `Moose::DGResidualType`: the two residuals of an interface kernel. -/
inductive DGResidualType
  | Element
  | Neighbor
  deriving DecidableEq, Repr

/-- `Moose::DGJacobianType`: the four Jacobian blocks of an interface kernel. -/
inductive DGJacobianType
  | ElementElement
  | ElementNeighbor
  | NeighborElement
  | NeighborNeighbor
  deriving DecidableEq, Repr

/-- The members of `PenaltyInterfaceDiffusion` and of `InterfaceKernel` that
`computeQpResidual` and `computeQpJacobian` read: the test and shape functions of both
sides at every index and quadrature point, the values of the variable and of the neighbor
variable at every quadrature point, and the current indices. -/
structure PenaltyInterfaceDiffusion where
  _penalty : ℚ
  _test : ℕ → ℕ → ℚ
  _test_neighbor : ℕ → ℕ → ℚ
  _phi : ℕ → ℕ → ℚ
  _phi_neighbor : ℕ → ℕ → ℚ
  _u : ℕ → ℚ
  _neighbor_value : ℕ → ℚ
  _i : ℕ
  _j : ℕ
  _qp : ℕ

/-- `PenaltyInterfaceDiffusion::computeQpResidual` (lines 29-46). -/
def PenaltyInterfaceDiffusion.computeQpResidual (k : PenaltyInterfaceDiffusion)
    (type : DGResidualType) : ℚ :=
  match type with
  | DGResidualType.Element =>
      k._test k._i k._qp * k._penalty * (k._u k._qp - k._neighbor_value k._qp)
  | DGResidualType.Neighbor =>
      k._test_neighbor k._i k._qp * -k._penalty * (k._u k._qp - k._neighbor_value k._qp)

/-- `PenaltyInterfaceDiffusion::computeQpJacobian` (lines 48-73). -/
def PenaltyInterfaceDiffusion.computeQpJacobian (k : PenaltyInterfaceDiffusion)
    (type : DGJacobianType) : ℚ :=
  match type with
  | DGJacobianType.ElementElement => k._test k._i k._qp * k._penalty * k._phi k._j k._qp
  | DGJacobianType.ElementNeighbor =>
      k._test k._i k._qp * k._penalty * -k._phi_neighbor k._j k._qp
  | DGJacobianType.NeighborElement =>
      k._test_neighbor k._i k._qp * -k._penalty * k._phi k._j k._qp
  | DGJacobianType.NeighborNeighbor =>
      k._test_neighbor k._i k._qp * -k._penalty * -k._phi_neighbor k._j k._qp

/-- The kernel `k` with the variable at the current quadrature point moved by `h` times the
shape function `_phi[_j][_qp]`. -/
def PenaltyInterfaceDiffusion.perturbU (k : PenaltyInterfaceDiffusion) (h : ℚ) :
    PenaltyInterfaceDiffusion :=
  { k with _u := Function.update k._u k._qp (k._u k._qp + h * k._phi k._j k._qp) }

/-- The kernel `k` with the neighbor variable at the current quadrature point moved by `h`
times the shape function `_phi_neighbor[_j][_qp]`. -/
def PenaltyInterfaceDiffusion.perturbNeighbor (k : PenaltyInterfaceDiffusion) (h : ℚ) :
    PenaltyInterfaceDiffusion :=
  { k with
    _neighbor_value :=
      Function.update k._neighbor_value k._qp
        (k._neighbor_value k._qp + h * k._phi_neighbor k._j k._qp) }

/-! ## Parts and runs of the time loop

Parts of the functions above that the properties name, the calls of `solveStep` that a call
of `takeStep` makes, and the states that a run reaches. -/

/-- Lines 695-741 of `Transient::computeConstrainedDT`: the step of the master application,
after the limits of the time stepper, of the time interval output and of the target time,
before the MultiApps are asked for theirs. -/
def Transient.computeConstrainedDT_master (env : Env) (s : Transient) : ℚ × Transient :=
  Transient.computeConstrainedDT_target
    (Transient.computeConstrainedDT_interval (Transient.computeConstrainedDT_trial env s))

/-- Lines 457-460 of `Transient::takeStep`: the reset of `_picard_it` and the backup of the
MultiApps, before the loop. -/
def Transient.takeStep_begin (s : Transient) : Transient :=
  let s := { s with _picard_it := 0 }
  let s := record (Call.backupMultiApps ExecFlagType.EXEC_TIMESTEP_BEGIN) s
  record (Call.backupMultiApps ExecFlagType.EXEC_TIMESTEP_END) s

/-- Lines 464-469 of `Transient::takeStep`: the restore of the MultiApps before every pass
of the loop but the first. -/
def Transient.takeStep_restore (s : Transient) : Transient :=
  if s._picard_it > 0 then
    record (Call.restoreMultiApps ExecFlagType.EXEC_TIMESTEP_END false)
      (record (Call.restoreMultiApps ExecFlagType.EXEC_TIMESTEP_BEGIN false) s)
  else s

/-- Line 479 of `Transient::takeStep`: `++_picard_it`. -/
def Transient.takeStep_increment (s : Transient) : Transient :=
  { s with _picard_it := s._picard_it + 1 }

/-- The states in which the loop of `Transient::takeStep` (lines 462-480) calls `solveStep`,
in the order of the calls: `Transient.takeStep_loop` with the state of every call of line 471
collected. -/
def Transient.takeStep_solveSteps (env : Env) (input_dt : ℚ) : ℕ → Transient → List Transient
  | 0, _ => []
  | fuel + 1, s =>
      if decide (toUnsigned s._picard_it < s._picard_max_its) && (s._picard_converged == false)
      then
        let s : Transient :=
          if s._picard_it > 0 then
            record (Call.restoreMultiApps ExecFlagType.EXEC_TIMESTEP_END false)
              (record (Call.restoreMultiApps ExecFlagType.EXEC_TIMESTEP_BEGIN false) s)
          else s
        let s1 := s.solveStep env input_dt
        if !s1.lastSolveConverged then [s]
        else
          s :: Transient.takeStep_solveSteps env input_dt fuel
            { s1 with _picard_it := s1._picard_it + 1 }
      else []

/-- The states in which a call of `takeStep` calls `solveStep`, in the order of the calls. -/
def Transient.takeStep_entries (env : Env) (s : Transient) (input_dt : ℚ) : List Transient :=
  Transient.takeStep_solveSteps env input_dt s._picard_max_its s.takeStep_begin

/-- The step sizes used by a call of `takeStep`: for every call of `solveStep`, the value of
`_dt` with which line 499 sets `_time = _time_old + _dt`. -/
def Transient.takeStep_stepSizes (env : Env) (s : Transient) (input_dt : ℚ) : List ℚ :=
  (s.takeStep_entries env input_dt).map (fun e => (e.solveStep_setTime env input_dt)._dt)

/-- The state in which the first `solveStep` of the next pass of the time loop calls
`computeConstrainedDT` (line 489), for the state `s` at the end of a pass: the head of the
next pass (lines 365-371), `preStep`, `computeDT`, the start of `takeStep`, and
`_dt_old = _dt` (line 486). -/
def Transient.execute_retry (env : Env) (s : Transient) : Transient :=
  let s : Transient := (s.execute_head env).2
  let s : Transient := s.preStep
  let s : Transient := s.computeDT
  let s : Transient := s.takeStep_begin
  { s with _dt_old := s._dt }

/-- The states reached from the construction through `init` and the calls of `execute`
(`preExecute`, the `advanceState` of line 360, and the calls of the time loop of lines
363-380) in which every step size used satisfies `p`: the step size of every `solveStep` of a
`takeStep`, and the `_dt` with which `endStep` sets `_time`.  A run that recovers or restarts
calls `init` on the state restored from one reached before. -/
inductive Reachable (env : Env) (p : ℚ → Prop) : Transient → Prop
  | start (parameters : InputParameters) (app : App) (s0 s : Transient) :
      Transient.construct parameters app = Except.ok s0 → s0.init env app = Except.ok s →
        Reachable env p s
  | restored (app : App) (s s1 : Transient) :
      Reachable env p s → s.init env app = Except.ok s1 → Reachable env p s1
  | preExecute (s : Transient) : Reachable env p s → Reachable env p s.preExecute
  | advanceState (s : Transient) :
      Reachable env p s → Reachable env p (record Call.advanceState s)
  | incrementStepOrReject (s : Transient) :
      Reachable env p s → Reachable env p (s.incrementStepOrReject env)
  | execute_head (s : Transient) : Reachable env p s → Reachable env p (s.execute_head env).2
  | preStep (s : Transient) : Reachable env p s → Reachable env p s.preStep
  | computeDT (s : Transient) : Reachable env p s → Reachable env p s.computeDT
  | takeStep (s : Transient) (input_dt : ℚ) :
      Reachable env p s → (∀ d ∈ s.takeStep_stepSizes env input_dt, p d) →
        Reachable env p (s.takeStep env input_dt)
  | endStep (s : Transient) : Reachable env p s → p s._dt → Reachable env p (s.endStep (-1))
  | postStep (s : Transient) : Reachable env p s → Reachable env p s.postStep
  | stepsTaken (s : Transient) :
      Reachable env p s →
        Reachable env p { s with _steps_taken := (s._steps_taken + 1) % 2 ^ 32 }

/-- The invariant of the XFEM repeat counter: `_xfem_update_count` does not exceed
`_max_xfem_update`, it is 0 when `_xfem_repeat_step` is false, and with
`_max_xfem_update = 0` the flag `_xfem_repeat_step` is false. -/
def XfemInvariant (s : Transient) : Prop :=
  s._xfem_update_count ≤ s._max_xfem_update ∧
    (s._xfem_repeat_step = false → s._xfem_update_count = 0) ∧
    (s._max_xfem_update = 0 → s._xfem_repeat_step = false)

/-- The members that count the XFEM repeats and the passes of the time loop are in `s2` what
they are in `s1`. -/
def ControlFrame (s1 s2 : Transient) : Prop :=
  s2._xfem_repeat_step = s1._xfem_repeat_step ∧
    s2._xfem_update_count = s1._xfem_update_count ∧
    s2._max_xfem_update = s1._max_xfem_update ∧
    s2._first = s1._first ∧ s2._steps_taken = s1._steps_taken

/-- A stopping condition of `keepGoing` other than the step count holds in `s`, the state
`keepGoing` is called in: a termination request (line 776), the steady state (lines 779-795),
the end time (line 801), or a failed solve with `abort_on_solve_fail` (line 804). -/
def OtherStop (env : Env) (s : Transient) : Prop :=
  env.isSolveTerminationRequested s = true ∨
    (s.lastSolveConverged = true ∧ s._xfem_repeat_step = false ∧
      s._steady_state_detection = true ∧ s._time > s._steady_state_start_time ∧
      s._sln_diff_norm.lt s._steady_state_tolerance = true) ∨
    (s._time > s._end_time ∨ |s._time - s._end_time| ≤ s._timestep_tolerance) ∨
    (s.lastSolveConverged = false ∧ s._abort = true)

/-- One pass of the time loop of `execute` (lines 365-379) that the test of `keepGoing` does
not leave: the head of the pass and the step. -/
def Transient.execute_pass (env : Env) (s : Transient) : Transient :=
  (s.execute_head env).2.execute_body env

/-- The state at the top of the time loop after `k` passes that the test of `keepGoing` does
not leave. -/
def Transient.execute_passes (env : Env) : ℕ → Transient → Transient
  | 0, s => s
  | k + 1, s => (Transient.execute_passes env k s).execute_pass env

/-- The state in which the time loop of `execute` is entered in a run that does not recover:
after `preExecute` and the `advanceState` of line 360. -/
def Transient.execute_entry (s : Transient) : Transient :=
  record Call.advanceState s.preExecute

/-- The state in which the `takeStep` of the pass after `k` passes of the time loop makes its
first call of `solveStep` (lines 365-371, `preStep`, `computeDT`, and lines 457-460 of
`takeStep`): the sub-iteration with index 0 of that step attempt. -/
def Transient.execute_firstSolve (env : Env) (k : ℕ) (s : Transient) : Transient :=
  (((Transient.execute_passes env k s).execute_head env).2.preStep.computeDT).takeStep_begin

/-- Collaborators without XFEM and without MultiApp limits on the step: the MultiApps and
the solve report the given outcomes, the solve returns the solution `fun _ => v` and leaves
`_dt` as it is, the old solution is `fun _ => v` as well, the time stepper proposes the step 1
and does not constrain it, and the norm of a vector is the absolute value of its first entry
(the l2 norm of a vector with one degree of freedom). -/
def exampleEnv (multiappsConverge solveConverges : Bool) (v : ℚ) : Env where
  LIBMESH_ENABLE_AMR := true
  haveXFEM := fun _ => false
  updateMeshXFEM := fun _ => false
  execMultiApps := fun _ _ _ => multiappsConverge
  computeMultiAppsDT := fun _ _ => 1.0e30
  computeResidualL2Norm := fun _ => 1
  isSolveTerminationRequested := fun _ => false
  getCurrentDT := fun _ => 1
  constrainStep := fun _ dt => (false, dt)
  step := fun s => (solveConverges, fun _ => v, s._dt)
  allLocalDofIndices := fun _ => ∅
  solutionOld := fun _ _ => v
  l2_norm := fun x => |x 0|

/-- An application that neither recovers nor restarts, with a zero solution. -/
def exampleApp : App where
  hasStartTime := false
  getStartTime := 0
  halfTransient := false
  isRecovering := false
  isRestarting := false
  hasTimeIntegrator := false
  dtOld := 0
  time_interval_output_interval := 0
  solution_change_norm := DivReal.fin 0
  solution := fun _ => 0
  stepper_converged := true

/-- The executioner as its member initialisers leave it for the default parameters. -/
def exampleState : Transient := Transient.initializers validParams exampleApp

/-- A state with the Picard norms of the two examples of the convergence test: initial norm
10 and relative tolerance 0.1, the absolute tolerance at its default. -/
def picardExample (begin_norm end_norm rel_tol : ℚ) : Transient :=
  { exampleState with
    _picard_initial_norm := 10
    _picard_timestep_begin_norm := begin_norm
    _picard_timestep_end_norm := end_norm
    _picard_rel_tol := rel_tol }

/-- The parameters of `s2` are those of `s1`. -/
def SameParameters (s1 s2 : Transient) : Prop :=
  s2.toTimeParameters = s1.toTimeParameters ∧ s2.toPicardParameters = s1.toPicardParameters

/-- The outcome of the solve in `s2` is that of `s1`: the converged flags, the XFEM repeat
flag, the stored relative difference norm and the solution are the same. -/
def SolveFrame (s1 s2 : Transient) : Prop :=
  s2._multiapps_converged = s1._multiapps_converged ∧
    s2.stepper_converged = s1.stepper_converged ∧
    s2._xfem_repeat_step = s1._xfem_repeat_step ∧
    s2._sln_diff_norm = s1._sln_diff_norm ∧ s2.solution = s1.solution

/-- In a state whose last solve converged and is not to be repeated, the stored
`_sln_diff_norm` is the relative difference of the solution to the vector `old`. -/
def DiffNormStored (env : Env) (old : NumericVector) (s : Transient) : Prop :=
  s.lastSolveConverged = true ∧ s._xfem_repeat_step = false →
    s._sln_diff_norm =
      realDiv (env.l2_norm (fun i => s.solution i - old i)) (env.l2_norm s.solution)

/-- The parameters of a run with the steady state detection enabled and the tolerance
1e-6, the other parameters at their defaults. -/
def steadyParameters : InputParameters :=
  { validParams with steady_state_detection := true, steady_state_tolerance := 1e-6 }

/-- The application of `exampleApp` with the initial solution `fun _ => v`. -/
def steadyApp (v : ℚ) : App := { exampleApp with solution := fun _ => v }

/-- The executioner constructed for `steadyParameters`. -/
def steadyConstructed (v : ℚ) : Transient :=
  match Transient.construct steadyParameters (steadyApp v) with
  | Except.ok s => s
  | Except.error _ => Transient.initializers steadyParameters (steadyApp v)

/-- The state of a cold start with the steady state detection enabled: the executioner is
constructed for `steadyParameters` and `init` has run, so that `_t_step = 1` and `_dt = 1`;
the problem is stationary, with the solution `fun _ => v`. -/
def steadyExample (v : ℚ) : Transient :=
  match (steadyConstructed v).init (exampleEnv true true v) (steadyApp v) with
  | Except.ok s => s
  | Except.error _ => steadyConstructed v

/-- Collaborators of a relaxed Picard iteration: the solve returns the solution
`fun _ => 20`, and the relaxed variables have the single degree of freedom 0. -/
def relaxEnv : Env :=
  { exampleEnv true true 20 with allLocalDofIndices := fun _ => {0} }

/-- A state in the second Picard iteration of the step to time 1 (`_prev_time = 1`), with
the solution `fun _ => 10` and the given relaxation factor. -/
def relaxExample (relax_factor : ℚ) : Transient :=
  { exampleState with
    _relax_factor := relax_factor
    _picard_max_its := 2
    _picard_it := 1
    _prev_time := 1
    solution := fun _ => 10 }

/-- Lines 486-559 of `Transient::solveStep`: the state in which the solve of line 561 is
called, when the MultiApps executed on timestep begin converged. -/
def Transient.solveStep_beforeSolve (env : Env) (s : Transient) (input_dt : ℚ) : Transient :=
  ((s.solveStep_setTime env input_dt).solveStep_multiAppsBegin env).solveStep_setup env

/-- The default parameters, with `scheme` set by the user. -/
def schemeConflictParameters : InputParameters := { validParams with scheme_setByUser := true }

/-- An application whose problem already has a time integrator. -/
def schemeConflictApp : App := { exampleApp with hasTimeIntegrator := true }

/-- Collaborators as in `exampleEnv true true 0`, but whose MultiApps report the step
size 0. -/
def zeroStepEnv : Env := { exampleEnv true true 0 with computeMultiAppsDT := fun _ _ => 0 }

/-- The executioner constructed for the default parameters and `exampleApp`. -/
def exampleConstructed : Transient :=
  match Transient.construct validParams exampleApp with
  | Except.ok s => s
  | Except.error _ => exampleState

/-- The state of a cold start with the default parameters: the executioner is constructed for
`validParams` and `exampleApp`, and `init` has run with the given collaborators. -/
def coldStart (env : Env) : Transient :=
  match exampleConstructed.init env exampleApp with
  | Except.ok s => s
  | Except.error _ => exampleConstructed

/-- The executioner constructed for the given parameters and `exampleApp`. -/
def constructedFor (parameters : InputParameters) : Transient :=
  match Transient.construct parameters exampleApp with
  | Except.ok s => s
  | Except.error _ => Transient.initializers parameters exampleApp

/-- The state of a cold start with the given parameters: the executioner is constructed for
them and `exampleApp`, and `init` has run with the given collaborators. -/
def coldStartFor (parameters : InputParameters) (env : Env) : Transient :=
  match (constructedFor parameters).init env exampleApp with
  | Except.ok s => s
  | Except.error _ => constructedFor parameters

/-- The default parameters, with two start-up steps. -/
def startupParameters : InputParameters := { validParams with n_startup_steps := 2 }

/-- Collaborators as in `exampleEnv true true 0`, but whose MultiApps report the step
size `m` for both execution flags. -/
def multiAppStepEnv (m : ℚ) : Env :=
  { exampleEnv true true 0 with computeMultiAppsDT := fun _ _ => m }

/-- The default parameters, with `use_multiapp_dt` set. -/
def multiAppDtParameters : InputParameters := { validParams with use_multiapp_dt := true }

/-- Collaborators whose solve never converges and whose time stepper halves its step at
every `rejectStep`: it proposes 1 divided by 2 to the number of rejections. -/
def shrinkingEnv : Env :=
  { exampleEnv true false 0 with
    getCurrentDT := fun s => 1 / 2 ^ (s.calls.count Call.rejectStep) }

/-- The default parameters, with the start-up steps disabled by `n_startup_steps = -1`. -/
def noStartupParameters : InputParameters := { validParams with n_startup_steps := -1 }

/-- The default parameters, with three Picard iterations. -/
def picardParameters : InputParameters := { validParams with picard_max_its := 3 }

/-- Collaborators as in `exampleEnv true true 0`, but whose MultiApps executed on timestep
end do not converge. -/
def endFailEnv : Env :=
  { exampleEnv true true 0 with
    execMultiApps := fun _ flag _ => decide (flag = ExecFlagType.EXEC_TIMESTEP_BEGIN) }

/-- The default parameters, with the negative `timestep_tolerance` -1. -/
def negativeToleranceParameters : InputParameters :=
  { validParams with timestep_tolerance := -1 }

/-- An application that recovers (and does not restart). -/
def recoverApp : App := { exampleApp with isRecovering := true }

/-- A state restored from a checkpoint written during the third step of a run whose steps
had the sizes 1, 2 and 1: `_t_step = 3`, `_time_old = 3`, `_time = 4`, `_dt = 1` and
`_dt_old = 2`. -/
def checkpointExample : Transient :=
  { exampleState with _t_step := 3, _time := 4, _time_old := 3, _dt := 1, _dt_old := 2 }

/-- Collaborators as in `exampleEnv true true 0`, but with XFEM, whose `updateMeshXFEM`
always reports a modified mesh. -/
def xfemEnv : Env :=
  { exampleEnv true true 0 with haveXFEM := fun _ => true, updateMeshXFEM := fun _ => true }

/-- The default parameters, with `max_xfem_update = 1`. -/
def xfemParameters : InputParameters := { validParams with max_xfem_update := 1 }

/-- The default parameters, with `num_steps = 2`. -/
def twoStepsParameters : InputParameters := { validParams with num_steps := 2 }

/-- The default parameters, with `num_steps = 0`. -/
def noStepsParameters : InputParameters := { validParams with num_steps := 0 }

/-- The application of `exampleApp` in the half-transient mode. -/
def halfTransientApp : App := { exampleApp with halfTransient := true }

/-- The executioner constructed for `noStepsParameters` and `halfTransientApp`. -/
def halfTransientConstructed : Transient :=
  match Transient.construct noStepsParameters halfTransientApp with
  | Except.ok s => s
  | Except.error _ => Transient.initializers noStepsParameters halfTransientApp

/-- The state of a cold start of `halfTransientConstructed` with the collaborators
`exampleEnv true true 0`. -/
def halfTransientStart : Transient :=
  match halfTransientConstructed.init (exampleEnv true true 0) halfTransientApp with
  | Except.ok s => s
  | Except.error _ => halfTransientConstructed

/-- The default parameters, with two start-up steps, the relaxation factor 1/2 and one
relaxed variable. -/
def relaxRetryParameters : InputParameters :=
  { validParams with
    n_startup_steps := 2, relaxation_factor := 1 / 2, relaxed_variables := ["u"] }

/-- Collaborators whose solve never converges and adds 20 to every entry of the solution,
whose time stepper halves its step at every `rejectStep`, and whose relaxed variables have the
single degree of freedom 0. -/
def relaxRetryEnv : Env :=
  { shrinkingEnv with
    step := fun s => (false, fun i => s.solution i + 20, s._dt)
    allLocalDofIndices := fun _ => {0} }

/-- The default parameters, with `max_xfem_update = 1`, the relaxation factor 1/2 and one
relaxed variable. -/
def relaxXfemParameters : InputParameters :=
  { validParams with
    max_xfem_update := 1, relaxation_factor := 1 / 2, relaxed_variables := ["u"] }

/-- Collaborators as in `xfemEnv`, whose solve adds 20 to every entry of the solution and
whose relaxed variables have the single degree of freedom 0. -/
def relaxXfemEnv : Env :=
  { xfemEnv with
    step := fun s => (true, fun i => s.solution i + 20, s._dt)
    allLocalDofIndices := fun _ => {0} }

/-- The default parameters, with the given start time and the given `timestep_tolerance`. -/
def startTimeParameters (start_time timestep_tolerance : ℚ) : InputParameters :=
  { validParams with start_time := start_time, timestep_tolerance := timestep_tolerance }

/-- Collaborators as in `exampleEnv true true 0`, but whose time stepper proposes the
step `dt`. -/
def constantStepEnv (dt : ℚ) : Env := { exampleEnv true true 0 with getCurrentDT := fun _ => dt }

/-- The state in which `endStep` is called in the first pass of the time loop of a cold start
with the given start time, the default `timestep_tolerance` (as a `double`) and a time stepper
that proposes the step `dt`.  Its `_time_old` is the start time and its `_dt` the step of the
time stepper; no sum of the attempt is left in its clock (`solveStep` ends with
`_time = _time_old`, line 644). -/
def firstAttempt (start_time dt : ℚ) : Transient :=
  ((((coldStartFor (startTimeParameters start_time (roundReal (2 / 10 ^ 14)))
    (constantStepEnv dt)).execute_head (constantStepEnv dt)).2.preStep.computeDT).takeStep
      (constantStepEnv dt) (-1))

/-! ## Properties -/

/-- C1: `incrementStepOrReject` advances `_t_step` by exactly one and sets `_time_old` to
`_time` if and only if `lastSolveConverged()` holds (the MultiApps converged and the time
stepper reports a converged solve) and `_xfem_repeat_step` is false; in every other case
`_t_step` and `_time_old` are left as they were. -/
theorem incrementStepOrReject_accepts_iff (env : Env) (s : Transient) :
    (s.lastSolveConverged = true ↔
        (s._multiapps_converged = true ∧ s.stepper_converged = true)) ∧
    (((s.incrementStepOrReject env)._t_step = s._t_step + 1 ∧
        (s.incrementStepOrReject env)._time_old = s._time) ↔
      (s.lastSolveConverged = true ∧ s._xfem_repeat_step = false)) ∧
    ((s.lastSolveConverged = true ∧ s._xfem_repeat_step = false) ∨
      ((s.incrementStepOrReject env)._t_step = s._t_step ∧
        (s.incrementStepOrReject env)._time_old = s._time_old)) := by
  refine ⟨by simp [Transient.lastSolveConverged], ?_, ?_⟩
  · cases hc : s.lastSolveConverged <;> cases hx : s._xfem_repeat_step <;>
      cases hamr : env.LIBMESH_ENABLE_AMR <;>
      by_cases hp : s._picard_max_its > 1 <;>
      simp [Transient.incrementStepOrReject, record, hc, hx, hamr, hp]
  · cases hc : s.lastSolveConverged <;> cases hx : s._xfem_repeat_step <;>
      simp [Transient.incrementStepOrReject, record, hc, hx]

/-! ### The frame of a step attempt -/

theorem StepFrame.refl_step (s : Transient) : StepFrame s s := by
  simp [StepFrame]

theorem StepFrame.trans_step {s1 s2 s3 : Transient} (h12 : StepFrame s1 s2) (h23 : StepFrame s2 s3) :
    StepFrame s1 s3 := by
  obtain ⟨a1, a2, a3, a4⟩ := h12
  obtain ⟨b1, b2, b3, b4⟩ := h23
  exact ⟨b1.trans a1, b2.trans a2, a3.trans b3, b4.trans a4⟩

theorem callsSince_append (s1 s2 : Transient) (l : List Call) (h : s2.calls = l ++ s1.calls) :
    callsSince s1 s2 = l := by
  simp [callsSince, h]

theorem computeConstrainedDT_trial_frame (env : Env) (s : Transient) :
    StepFrame s (s.computeConstrainedDT_trial env).2 := by
  simp only [StepFrame, Transient.computeConstrainedDT_trial,
    record, apply_ite Prod.snd,
    apply_ite Transient.toClock, apply_ite Clock._time_old, apply_ite Clock._t_step,
    apply_ite Transient.calls, apply_ite (List.count Call.rejectStep),
    apply_ite (fun l => s.calls <:+ l), List.count_cons, beq_iff_eq, reduceCtorEq, if_false,
    add_zero, List.suffix_cons_iff, List.suffix_refl, or_true, ite_self, and_self]

theorem computeConstrainedDT_interval_frame (r : ℚ × Transient) :
    StepFrame r.2 (Transient.computeConstrainedDT_interval r).2 := by
  simp only [StepFrame, Transient.computeConstrainedDT_interval,
    record, apply_ite Prod.snd,
    apply_ite Transient.toClock, apply_ite Clock._time_old, apply_ite Clock._t_step,
    apply_ite Transient.calls, apply_ite (List.count Call.rejectStep),
    apply_ite (fun l => r.2.calls <:+ l), List.count_cons, beq_iff_eq, reduceCtorEq, if_false,
    add_zero, List.suffix_cons_iff, List.suffix_refl, or_true, ite_self, and_self]

theorem computeConstrainedDT_target_frame (r : ℚ × Transient) :
    StepFrame r.2 (Transient.computeConstrainedDT_target r).2 := by
  simp only [StepFrame, Transient.computeConstrainedDT_target,
    record, apply_ite Prod.snd,
    apply_ite Transient.toClock, apply_ite Clock._time_old, apply_ite Clock._t_step,
    apply_ite Transient.calls, apply_ite (List.count Call.rejectStep),
    apply_ite (fun l => r.2.calls <:+ l), List.count_cons, beq_iff_eq, reduceCtorEq, if_false,
    add_zero, List.suffix_cons_iff, List.suffix_refl, or_true, ite_self, and_self]

theorem computeConstrainedDT_multiAppBegin_frame (env : Env) (r : ℚ × Transient) :
    StepFrame r.2 (Transient.computeConstrainedDT_multiAppBegin env r).2 := by
  simp only [StepFrame, Transient.computeConstrainedDT_multiAppBegin,
    record, apply_ite Prod.snd,
    apply_ite Transient.toClock, apply_ite Clock._time_old, apply_ite Clock._t_step,
    apply_ite Transient.calls, apply_ite (List.count Call.rejectStep),
    apply_ite (fun l => r.2.calls <:+ l), List.count_cons, beq_iff_eq, reduceCtorEq, if_false,
    add_zero, List.suffix_cons_iff, List.suffix_refl, or_true, ite_self, and_self]

theorem computeConstrainedDT_multiAppEnd_frame (env : Env) (r : ℚ × Transient) :
    StepFrame r.2 (Transient.computeConstrainedDT_multiAppEnd env r).2 := by
  simp only [StepFrame, Transient.computeConstrainedDT_multiAppEnd,
    record, apply_ite Prod.snd,
    apply_ite Transient.toClock, apply_ite Clock._time_old, apply_ite Clock._t_step,
    apply_ite Transient.calls, apply_ite (List.count Call.rejectStep),
    apply_ite (fun l => r.2.calls <:+ l), List.count_cons, beq_iff_eq, reduceCtorEq, if_false,
    add_zero, List.suffix_cons_iff, List.suffix_refl, or_true, ite_self, and_self]

theorem computeConstrainedDT_frame (env : Env) (s : Transient) :
    StepFrame s (s.computeConstrainedDT env).2 :=
  (((computeConstrainedDT_trial_frame env s).trans_step
    (computeConstrainedDT_interval_frame _)).trans_step
      (computeConstrainedDT_target_frame _)).trans_step
        ((computeConstrainedDT_multiAppBegin_frame env _).trans_step
          (computeConstrainedDT_multiAppEnd_frame env _))

theorem solveStep_setTime_frame (env : Env) (s : Transient) (input_dt : ℚ) :
    StepFrame s (s.solveStep_setTime env input_dt) := by
  have h := computeConstrainedDT_frame env { s with _dt_old := s._dt }
  simp only [Transient.solveStep_setTime]
  generalize Transient.computeConstrainedDT env { s with _dt_old := s._dt } = r at h ⊢
  simp only [StepFrame] at h
  simp only [StepFrame, h,
    record, apply_ite Prod.snd,
    apply_ite Transient.toClock, apply_ite Clock._time_old, apply_ite Clock._t_step,
    apply_ite Transient.calls, apply_ite (List.count Call.rejectStep),
    apply_ite (fun l => s.calls <:+ l), List.count_cons, beq_iff_eq, reduceCtorEq, if_false,
    add_zero, List.suffix_cons_iff, List.suffix_refl, or_true, ite_self, and_self]

theorem solveStep_multiAppsBegin_frame (env : Env) (s : Transient) :
    StepFrame s (s.solveStep_multiAppsBegin env) := by
  simp only [StepFrame, Transient.solveStep_multiAppsBegin,
    record, apply_ite Prod.snd,
    apply_ite Transient.toClock, apply_ite Clock._time_old, apply_ite Clock._t_step,
    apply_ite Transient.calls, apply_ite (List.count Call.rejectStep),
    apply_ite (fun l => s.calls <:+ l), List.count_cons, beq_iff_eq, reduceCtorEq, if_false,
    add_zero, List.suffix_cons_iff, List.suffix_refl, or_true, ite_self, and_self]

theorem solveStep_setup_frame (env : Env) (s : Transient) :
    StepFrame s (s.solveStep_setup env) := by
  simp only [StepFrame, Transient.solveStep_setup,
    record, apply_ite Prod.snd,
    apply_ite Transient.toClock, apply_ite Clock._time_old, apply_ite Clock._t_step,
    apply_ite Transient.calls, apply_ite (List.count Call.rejectStep),
    apply_ite (fun l => s.calls <:+ l), List.count_cons, beq_iff_eq, reduceCtorEq, if_false,
    add_zero, List.suffix_cons_iff, List.suffix_refl, or_true, ite_self, and_self]

theorem solveStep_step_frame (env : Env) (s : Transient) :
    StepFrame s (s.solveStep_step env) := by
  simp only [StepFrame, Transient.solveStep_step,
    record, apply_ite Prod.snd,
    apply_ite Transient.toClock, apply_ite Clock._time_old, apply_ite Clock._t_step,
    apply_ite Transient.calls, apply_ite (List.count Call.rejectStep),
    apply_ite (fun l => s.calls <:+ l), List.count_cons, beq_iff_eq, reduceCtorEq, if_false,
    add_zero, List.suffix_cons_iff, List.suffix_refl, or_true, ite_self, and_self]

theorem solveStep_relax_frame (s : Transient) :
    StepFrame s s.solveStep_relax := by
  simp only [StepFrame, Transient.solveStep_relax,
    record, apply_ite Prod.snd,
    apply_ite Transient.toClock, apply_ite Clock._time_old, apply_ite Clock._t_step,
    apply_ite Transient.calls, apply_ite (List.count Call.rejectStep),
    apply_ite (fun l => s.calls <:+ l), List.count_cons, beq_iff_eq, reduceCtorEq, if_false,
    add_zero, List.suffix_cons_iff, List.suffix_refl, or_true, ite_self, and_self]

theorem solveStep_converged_frame (env : Env) (s : Transient) :
    StepFrame s (s.solveStep_converged env).2 := by
  simp only [StepFrame, Transient.solveStep_converged, Transient.relativeSolutionDifferenceNorm,
    record, apply_ite Prod.snd,
    apply_ite Transient.toClock, apply_ite Clock._time_old, apply_ite Clock._t_step,
    apply_ite Transient.calls, apply_ite (List.count Call.rejectStep),
    apply_ite (fun l => s.calls <:+ l), List.count_cons, beq_iff_eq, reduceCtorEq, if_false,
    add_zero, List.suffix_cons_iff, List.suffix_refl, or_true, ite_self, and_self]

theorem solveStep_picard_frame (env : Env) (s : Transient) (current_dt : ℚ) :
    StepFrame s (s.solveStep_picard env current_dt) := by
  simp only [StepFrame, Transient.solveStep_picard,
    record, apply_ite Prod.snd,
    apply_ite Transient.toClock, apply_ite Clock._time_old, apply_ite Clock._t_step,
    apply_ite Transient.calls, apply_ite (List.count Call.rejectStep),
    apply_ite (fun l => s.calls <:+ l), List.count_cons, beq_iff_eq, reduceCtorEq, if_false,
    add_zero, List.suffix_cons_iff, List.suffix_refl, or_true, ite_self, and_self]

theorem endStep_frame (s : Transient) (input_time : ℚ) :
    StepFrame s (s.endStep input_time) := by
  simp only [StepFrame, Transient.endStep,
    record, apply_ite Prod.snd,
    apply_ite Transient.toClock, apply_ite Clock._time_old, apply_ite Clock._t_step,
    apply_ite Transient.calls, apply_ite (List.count Call.rejectStep),
    apply_ite (fun l => s.calls <:+ l), List.count_cons, beq_iff_eq, reduceCtorEq, if_false,
    add_zero, List.suffix_cons_iff, List.suffix_refl, or_true, ite_self, and_self]

theorem solveStep_frame (env : Env) (s : Transient) (input_dt : ℚ) :
    StepFrame s (s.solveStep env input_dt) := by
  have h1 := solveStep_setTime_frame env s input_dt
  have h2 := h1.trans_step (solveStep_multiAppsBegin_frame env _)
  have h3 := h2.trans_step (solveStep_setup_frame env _)
  have h4 := h3.trans_step (solveStep_step_frame env _)
  have h5 := h4.trans_step (solveStep_relax_frame _)
  have h6 := h5.trans_step (solveStep_converged_frame env _)
  have h7 := h6.trans_step (solveStep_picard_frame env _ (s.solveStep_setTime env input_dt)._dt)
  unfold Transient.solveStep
  dsimp only
  split_ifs
  · exact h2
  · exact h6
  · exact h7

theorem record_frame (c : Call) (hc : c ≠ Call.rejectStep) (s : Transient) :
    StepFrame s (record c s) := by
  simp [StepFrame, record, List.suffix_cons_iff, List.count_cons, hc]

theorem takeStep_loop_frame (env : Env) (input_dt : ℚ) (fuel : ℕ) (s : Transient) :
    StepFrame s (Transient.takeStep_loop env input_dt fuel s) := by
  induction fuel generalizing s with
  | zero => exact StepFrame.refl_step s
  | succ n ih =>
    have hr : StepFrame s
        (record (Call.restoreMultiApps ExecFlagType.EXEC_TIMESTEP_END false)
          (record (Call.restoreMultiApps ExecFlagType.EXEC_TIMESTEP_BEGIN false) s)) :=
      (record_frame _ (by simp) s).trans_step (record_frame _ (by simp) _)
    have hi : ∀ t : Transient, StepFrame t { t with _picard_it := t._picard_it + 1 } :=
      fun t => ⟨rfl, rfl, List.suffix_refl _, rfl⟩
    unfold Transient.takeStep_loop
    dsimp only
    split_ifs with h1 h2 h3
    · exact hr.trans_step (solveStep_frame env _ input_dt)
    · exact (hr.trans_step (solveStep_frame env _ input_dt)).trans_step ((hi _).trans_step (ih _))
    · exact solveStep_frame env _ input_dt
    · exact (solveStep_frame env _ input_dt).trans_step ((hi _).trans_step (ih _))
    · exact StepFrame.refl_step s

theorem takeStep_frame (env : Env) (s : Transient) (input_dt : ℚ) :
    StepFrame s (s.takeStep env input_dt) := by
  have h0 : StepFrame s { s with _picard_it := 0 } := ⟨rfl, rfl, List.suffix_refl _, rfl⟩
  exact (h0.trans_step ((record_frame _ (by simp) _).trans_step (record_frame _ (by simp) _))).trans_step
    (takeStep_loop_frame env input_dt _ _)

/-- C2: a step attempt (`takeStep`, `endStep`, then `incrementStepOrReject`) that ends with
`lastSolveConverged()` false leaves `_time` equal to `_time_old`, `_time_old` and `_t_step`
as they were before the attempt; `incrementStepOrReject` restores the MultiApps for both
flags and calls `rejectStep`, and `rejectStep` is called exactly once in the attempt. -/
theorem rejected_attempt_rolls_back (env : Env) (s : Transient) (input_dt input_time : ℚ)
    (h : ((s.takeStep env input_dt).endStep input_time).lastSolveConverged = false) :
    ((((s.takeStep env input_dt).endStep input_time).incrementStepOrReject env)._time =
        (((s.takeStep env input_dt).endStep input_time).incrementStepOrReject env)._time_old) ∧
    ((((s.takeStep env input_dt).endStep input_time).incrementStepOrReject env)._time_old =
        s._time_old) ∧
    ((((s.takeStep env input_dt).endStep input_time).incrementStepOrReject env)._t_step =
        s._t_step) ∧
    (callsSince ((s.takeStep env input_dt).endStep input_time)
        (((s.takeStep env input_dt).endStep input_time).incrementStepOrReject env) =
      [Call.rejectStep, Call.restoreMultiApps ExecFlagType.EXEC_TIMESTEP_END true,
        Call.restoreMultiApps ExecFlagType.EXEC_TIMESTEP_BEGIN true]) ∧
    ((callsSince s
        (((s.takeStep env input_dt).endStep input_time).incrementStepOrReject env)).count
      Call.rejectStep = 1) := by
  obtain ⟨h1, h2, ⟨l, h3⟩, h4⟩ :=
    (takeStep_frame env s input_dt).trans_step (endStep_frame _ input_time)
  generalize (s.takeStep env input_dt).endStep input_time = s2 at h h1 h2 h3 h4 ⊢
  have hc : (s2.incrementStepOrReject env).calls =
      [Call.rejectStep, Call.restoreMultiApps ExecFlagType.EXEC_TIMESTEP_END true,
        Call.restoreMultiApps ExecFlagType.EXEC_TIMESTEP_BEGIN true] ++ s2.calls := by
    simp [Transient.incrementStepOrReject, h, record]
  have hl : l.count Call.rejectStep = 0 := by
    rw [← h3, List.count_append] at h4
    omega
  refine ⟨?_, ?_, ?_, callsSince_append _ _ _ hc, ?_⟩
  · simp [Transient.incrementStepOrReject, h, record]
  · simp [Transient.incrementStepOrReject, h, record, h1]
  · simp [Transient.incrementStepOrReject, h, record, h2]
  · rw [callsSince_append s _ ([Call.rejectStep,
        Call.restoreMultiApps ExecFlagType.EXEC_TIMESTEP_END true,
        Call.restoreMultiApps ExecFlagType.EXEC_TIMESTEP_BEGIN true] ++ l)
      (by rw [hc, ← h3, List.append_assoc])]
    simp [List.count_append, List.count_cons, hl]

/-- Witness of C2: in a cold start with the default parameters and MultiApps that do not
converge, the first attempt sets `_time` to 1 from `_time_old = 0` and fails; the rejection
rolls `_time` back to 0, leaves `_time_old = 0` and `_t_step = 1`, and `rejectStep` is called
once. -/
theorem rejected_attempt_rolls_back_witness :
    (((coldStart (exampleEnv false true 0)).takeStep (exampleEnv false true 0) (-1)).endStep
        (-1)).lastSolveConverged = false ∧
    (coldStart (exampleEnv false true 0))._time_old = 0 ∧
    (coldStart (exampleEnv false true 0))._t_step = 1 ∧
    (((coldStart (exampleEnv false true 0)).takeStep (exampleEnv false true 0) (-1)).endStep
        (-1))._time = 1 ∧
    ((((coldStart (exampleEnv false true 0)).takeStep (exampleEnv false true 0) (-1)).endStep
        (-1)).incrementStepOrReject (exampleEnv false true 0))._time = 0 ∧
    ((((coldStart (exampleEnv false true 0)).takeStep (exampleEnv false true 0) (-1)).endStep
        (-1)).incrementStepOrReject (exampleEnv false true 0))._time_old = 0 ∧
    ((((coldStart (exampleEnv false true 0)).takeStep (exampleEnv false true 0) (-1)).endStep
        (-1)).incrementStepOrReject (exampleEnv false true 0))._t_step = 1 ∧
    ((callsSince (coldStart (exampleEnv false true 0))
        ((((coldStart (exampleEnv false true 0)).takeStep (exampleEnv false true 0)
          (-1)).endStep (-1)).incrementStepOrReject (exampleEnv false true 0))).count
      Call.rejectStep = 1) :=
  ⟨by decide!, by decide!, by decide!, by decide!,
    ((rejected_attempt_rolls_back (exampleEnv false true 0)
      (coldStart (exampleEnv false true 0)) (-1) (-1) (by decide!)).1).trans (by decide!),
    ((rejected_attempt_rolls_back (exampleEnv false true 0)
      (coldStart (exampleEnv false true 0)) (-1) (-1) (by decide!)).2.1).trans (by decide!),
    ((rejected_attempt_rolls_back (exampleEnv false true 0)
      (coldStart (exampleEnv false true 0)) (-1) (-1) (by decide!)).2.2.1).trans (by decide!),
    (rejected_attempt_rolls_back (exampleEnv false true 0)
      (coldStart (exampleEnv false true 0)) (-1) (-1) (by decide!)).2.2.2.2⟩

/-- C3: for a positive initial norm, `picardConverged()` is true if and only if
`max(begin, end) < abs_tol` or `max(begin, end) / initial < rel_tol`; with initial norm 10,
begin norm 5, end norm 6, relative tolerance 0.1 and absolute tolerance 1e-50 it is false. -/
theorem picardConverged_iff (s : Transient) (hi : 0 < s._picard_initial_norm) :
    (s.picardConverged = true ↔
      (max s._picard_timestep_begin_norm s._picard_timestep_end_norm < s._picard_abs_tol ∨
        max s._picard_timestep_begin_norm s._picard_timestep_end_norm / s._picard_initial_norm
          < s._picard_rel_tol)) ∧
    (∀ t : Transient, t._picard_initial_norm = 10 ∧ t._picard_timestep_begin_norm = 5 ∧
        t._picard_timestep_end_norm = 6 ∧ t._picard_rel_tol = 0.1 ∧ t._picard_abs_tol = 1e-50 →
      t.picardConverged = false) := by
  constructor
  · simp [Transient.picardConverged, realDiv, hi.ne', DivReal.lt]
  · rintro t ⟨h1, h2, h3, h4, h5⟩
    simp only [Transient.picardConverged, realDiv, h1, h2, h3, h4, h5, DivReal.lt]
    norm_num

/-- Witness of C3: the state of the second example of the convergence test. -/
theorem picardConverged_iff_witness :
    0 < (picardExample 5 6 0.1)._picard_initial_norm ∧
      (picardExample 5 6 0.1).picardConverged = false :=
  ⟨by simp [picardExample],
    (picardConverged_iff (picardExample 5 6 0.1) (by simp [picardExample])).2 _
      (by simp [picardExample, exampleState, Transient.initializers, validParams])⟩

/-- Counterexample of C4: with initial norm 10, begin norm 1, end norm 0.05, relative
tolerance 0.1 and the default absolute tolerance, `picardConverged()` is not true. -/
theorem picardConverged_first_example_false :
    ¬ ((picardExample 1 0.05 0.1).picardConverged = true) := by
  simp only [Transient.picardConverged, realDiv, DivReal.lt, picardExample, exampleState,
    Transient.initializers, validParams]
  norm_num

/-- C4, amended: with initial norm 10, begin norm 1, end norm 0.05 and the default absolute
tolerance, the largest norm is 1 and its ratio to the initial norm is exactly 0.1, so
`picardConverged()` is true if and only if the relative tolerance is larger than 0.1; at the
relative tolerance 0.1 it is false. -/
theorem picardConverged_first_example (rel_tol : ℚ) :
    ((picardExample 1 0.05 rel_tol).picardConverged = true ↔ 0.1 < rel_tol) ∧
      (picardExample 1 0.05 0.1).picardConverged = false := by
  constructor
  · simp only [Transient.picardConverged, realDiv, DivReal.lt, picardExample, exampleState,
      Transient.initializers, validParams]
    norm_num
  · simp only [Transient.picardConverged, realDiv, DivReal.lt, picardExample, exampleState,
      Transient.initializers, validParams]
    norm_num

/-- C5: `keepGoing()` returns true if and only if none of the following holds: (1) the
termination of the solve was requested; (2) the last solve converged, the step is not an
XFEM repeat, the steady state detection is enabled, `_time > _steady_state_start_time` and
the stored `_sln_diff_norm` is below `_steady_state_tolerance`; (3) `_t_step` converted to
`unsigned int` exceeds `_num_steps`; (4) `_time > _end_time` or
`|_time - _end_time| <= _timestep_tolerance`; (5) the last solve did not converge and
`_abort` is set. -/
theorem keepGoing_iff (env : Env) (s : Transient) :
    (s.keepGoing env).1 = true ↔
      (¬ (env.isSolveTerminationRequested s = true) ∧
        ¬ (s.lastSolveConverged = true ∧ s._xfem_repeat_step = false ∧
            s._steady_state_detection = true ∧ s._time > s._steady_state_start_time ∧
            s._sln_diff_norm.lt s._steady_state_tolerance = true) ∧
        ¬ (toUnsigned s._t_step > s._num_steps) ∧
        ¬ (s._time > s._end_time ∨ |s._time - s._end_time| ≤ s._timestep_tolerance) ∧
        ¬ (s.lastSolveConverged = false ∧ s._abort = true)) := by
  cases hc : s.lastSolveConverged <;> cases hx : s._xfem_repeat_step <;>
    cases hd : s._steady_state_detection <;> cases ha : s._abort <;>
    cases hl : s._sln_diff_norm.lt s._steady_state_tolerance <;>
    cases hr : env.isSolveTerminationRequested s <;>
    by_cases ht : s._time > s._steady_state_start_time <;>
    simp [Transient.keepGoing, hc, hx, hd, ha, hl, hr, ht] <;> tauto

/-! ### The exit of the time loop at the end time -/

theorem keepGoing_false_of_steady_state (env : Env) (s : Transient)
    (h : s.lastSolveConverged = true ∧ s._xfem_repeat_step = false ∧
      s._steady_state_detection = true ∧ s._time > s._steady_state_start_time ∧
      s._sln_diff_norm.lt s._steady_state_tolerance = true) :
    (s.keepGoing env).1 = false := by
  obtain ⟨h1, h2, h3, h4, h5⟩ := h
  simp only [Transient.keepGoing, h1, h2, h3, h4, h5, Bool.not_false, Bool.and_self,
    beq_self_eq_true, decide_True, if_true, Bool.not_true, Bool.false_and, Bool.false_eq_true,
    if_false]
  split_ifs <;> rfl

theorem callsSince_count (s1 s2 : Transient) (h : s1.calls <:+ s2.calls) (c : Call) :
    (callsSince s1 s2).count c = s2.calls.count c - s1.calls.count c := by
  obtain ⟨l, hl⟩ := h
  rw [callsSince_append s1 s2 l hl.symm, ← hl, List.count_append]
  omega

theorem keepGoing_calls (env : Env) (s : Transient) : (s.keepGoing env).2.calls = s.calls := by
  simp only [Transient.keepGoing, apply_ite Prod.snd, apply_ite Transient.calls, ite_self]

theorem SameParameters.refl_parameters (s : Transient) : SameParameters s s := ⟨rfl, rfl⟩

theorem SameParameters.trans_parameters {s1 s2 s3 : Transient} (h12 : SameParameters s1 s2)
    (h23 : SameParameters s2 s3) : SameParameters s1 s3 :=
  ⟨h23.1.trans h12.1, h23.2.trans h12.2⟩

theorem computeConstrainedDT_trial_parameters (env : Env) (s : Transient) :
    SameParameters s (s.computeConstrainedDT_trial env).2 := by
  simp only [SameParameters, Transient.computeConstrainedDT_trial,
    record, apply_ite Prod.snd,
    apply_ite Transient.toTimeParameters, apply_ite Transient.toPicardParameters, ite_self,
    and_self]

theorem computeConstrainedDT_interval_parameters (r : ℚ × Transient) :
    SameParameters r.2 (Transient.computeConstrainedDT_interval r).2 := by
  simp only [SameParameters, Transient.computeConstrainedDT_interval,
    record, apply_ite Prod.snd,
    apply_ite Transient.toTimeParameters, apply_ite Transient.toPicardParameters, ite_self,
    and_self]

theorem computeConstrainedDT_target_parameters (r : ℚ × Transient) :
    SameParameters r.2 (Transient.computeConstrainedDT_target r).2 := by
  simp only [SameParameters, Transient.computeConstrainedDT_target,
    record, apply_ite Prod.snd,
    apply_ite Transient.toTimeParameters, apply_ite Transient.toPicardParameters, ite_self,
    and_self]

theorem computeConstrainedDT_multiAppBegin_parameters (env : Env) (r : ℚ × Transient) :
    SameParameters r.2 (Transient.computeConstrainedDT_multiAppBegin env r).2 := by
  simp only [SameParameters, Transient.computeConstrainedDT_multiAppBegin,
    record, apply_ite Prod.snd,
    apply_ite Transient.toTimeParameters, apply_ite Transient.toPicardParameters, ite_self,
    and_self]

theorem computeConstrainedDT_multiAppEnd_parameters (env : Env) (r : ℚ × Transient) :
    SameParameters r.2 (Transient.computeConstrainedDT_multiAppEnd env r).2 := by
  simp only [SameParameters, Transient.computeConstrainedDT_multiAppEnd,
    record, apply_ite Prod.snd,
    apply_ite Transient.toTimeParameters, apply_ite Transient.toPicardParameters, ite_self,
    and_self]

theorem computeConstrainedDT_parameters (env : Env) (s : Transient) :
    SameParameters s (s.computeConstrainedDT env).2 :=
  (((computeConstrainedDT_trial_parameters env s).trans_parameters
    (computeConstrainedDT_interval_parameters _)).trans_parameters
      (computeConstrainedDT_target_parameters _)).trans_parameters
        ((computeConstrainedDT_multiAppBegin_parameters env _).trans_parameters
          (computeConstrainedDT_multiAppEnd_parameters env _))

theorem solveStep_setTime_parameters (env : Env) (s : Transient) (input_dt : ℚ) :
    SameParameters s (s.solveStep_setTime env input_dt) := by
  have h := computeConstrainedDT_parameters env { s with _dt_old := s._dt }
  simp only [Transient.solveStep_setTime]
  generalize Transient.computeConstrainedDT env { s with _dt_old := s._dt } = r at h ⊢
  simp only [SameParameters] at h
  simp only [SameParameters, h,
    record, apply_ite Prod.snd,
    apply_ite Transient.toTimeParameters, apply_ite Transient.toPicardParameters, ite_self,
    and_self]

theorem solveStep_multiAppsBegin_parameters (env : Env) (s : Transient) :
    SameParameters s (s.solveStep_multiAppsBegin env) := by
  simp only [SameParameters, Transient.solveStep_multiAppsBegin,
    record, apply_ite Prod.snd,
    apply_ite Transient.toTimeParameters, apply_ite Transient.toPicardParameters, ite_self,
    and_self]

theorem solveStep_setup_parameters (env : Env) (s : Transient) :
    SameParameters s (s.solveStep_setup env) := by
  simp only [SameParameters, Transient.solveStep_setup,
    record, apply_ite Prod.snd,
    apply_ite Transient.toTimeParameters, apply_ite Transient.toPicardParameters, ite_self,
    and_self]

theorem solveStep_step_parameters (env : Env) (s : Transient) :
    SameParameters s (s.solveStep_step env) := by
  simp only [SameParameters, Transient.solveStep_step,
    record, apply_ite Prod.snd,
    apply_ite Transient.toTimeParameters, apply_ite Transient.toPicardParameters, ite_self,
    and_self]

theorem solveStep_relax_parameters (s : Transient) :
    SameParameters s s.solveStep_relax := by
  simp only [SameParameters, Transient.solveStep_relax,
    record, apply_ite Prod.snd,
    apply_ite Transient.toTimeParameters, apply_ite Transient.toPicardParameters, ite_self,
    and_self]

theorem solveStep_converged_parameters (env : Env) (s : Transient) :
    SameParameters s (s.solveStep_converged env).2 := by
  simp only [SameParameters, Transient.solveStep_converged, Transient.relativeSolutionDifferenceNorm,
    record, apply_ite Prod.snd,
    apply_ite Transient.toTimeParameters, apply_ite Transient.toPicardParameters, ite_self,
    and_self]

theorem solveStep_picard_parameters (env : Env) (s : Transient) (current_dt : ℚ) :
    SameParameters s (s.solveStep_picard env current_dt) := by
  simp only [SameParameters, Transient.solveStep_picard,
    record, apply_ite Prod.snd,
    apply_ite Transient.toTimeParameters, apply_ite Transient.toPicardParameters, ite_self,
    and_self]

theorem endStep_parameters (s : Transient) (input_time : ℚ) :
    SameParameters s (s.endStep input_time) := by
  simp only [SameParameters, Transient.endStep,
    record, apply_ite Prod.snd,
    apply_ite Transient.toTimeParameters, apply_ite Transient.toPicardParameters, ite_self,
    and_self]

theorem incrementStepOrReject_parameters (env : Env) (s : Transient) :
    SameParameters s (s.incrementStepOrReject env) := by
  simp only [SameParameters, Transient.incrementStepOrReject,
    record, apply_ite Prod.snd,
    apply_ite Transient.toTimeParameters, apply_ite Transient.toPicardParameters, ite_self,
    and_self]

theorem keepGoing_parameters (env : Env) (s : Transient) :
    SameParameters s (s.keepGoing env).2 := by
  simp only [SameParameters, Transient.keepGoing,
    record, apply_ite Prod.snd,
    apply_ite Transient.toTimeParameters, apply_ite Transient.toPicardParameters, ite_self,
    and_self]

theorem solveStep_parameters (env : Env) (s : Transient) (input_dt : ℚ) :
    SameParameters s (s.solveStep env input_dt) := by
  have h1 := solveStep_setTime_parameters env s input_dt
  have h2 := h1.trans_parameters (solveStep_multiAppsBegin_parameters env _)
  have h3 := h2.trans_parameters (solveStep_setup_parameters env _)
  have h4 := h3.trans_parameters (solveStep_step_parameters env _)
  have h5 := h4.trans_parameters (solveStep_relax_parameters _)
  have h6 := h5.trans_parameters (solveStep_converged_parameters env _)
  have h7 := h6.trans_parameters (solveStep_picard_parameters env _ (s.solveStep_setTime env input_dt)._dt)
  unfold Transient.solveStep
  dsimp only
  split_ifs
  · exact h2
  · exact h6
  · exact h7

theorem takeStep_loop_parameters (env : Env) (input_dt : ℚ) (fuel : ℕ) (s : Transient) :
    SameParameters s (Transient.takeStep_loop env input_dt fuel s) := by
  induction fuel generalizing s with
  | zero => exact SameParameters.refl_parameters s
  | succ n ih =>
    have hr : SameParameters s
        (record (Call.restoreMultiApps ExecFlagType.EXEC_TIMESTEP_END false)
          (record (Call.restoreMultiApps ExecFlagType.EXEC_TIMESTEP_BEGIN false) s)) :=
      ⟨rfl, rfl⟩
    have hi : ∀ t : Transient, SameParameters t { t with _picard_it := t._picard_it + 1 } :=
      fun t => ⟨rfl, rfl⟩
    unfold Transient.takeStep_loop
    dsimp only
    split_ifs with h1 h2 h3
    · exact hr.trans_parameters (solveStep_parameters env _ input_dt)
    · exact (hr.trans_parameters (solveStep_parameters env _ input_dt)).trans_parameters ((hi _).trans_parameters (ih _))
    · exact solveStep_parameters env _ input_dt
    · exact (solveStep_parameters env _ input_dt).trans_parameters ((hi _).trans_parameters (ih _))
    · exact SameParameters.refl_parameters s

theorem takeStep_parameters (env : Env) (s : Transient) (input_dt : ℚ) :
    SameParameters s (s.takeStep env input_dt) := by
  have h0 : SameParameters s
      (record (Call.backupMultiApps ExecFlagType.EXEC_TIMESTEP_END)
        (record (Call.backupMultiApps ExecFlagType.EXEC_TIMESTEP_BEGIN)
          { s with _picard_it := 0 })) := ⟨rfl, rfl⟩
  exact h0.trans_parameters (takeStep_loop_parameters env input_dt _ _)

theorem SolveFrame.refl_solve (s : Transient) : SolveFrame s s := ⟨rfl, rfl, rfl, rfl, rfl⟩

theorem DiffNormStored.of_frame {env : Env} {old : NumericVector} {s t : Transient}
    (h : SolveFrame s t) (hs : DiffNormStored env old s) : DiffNormStored env old t := by
  obtain ⟨h1, h2, h3, h4, h5⟩ := h
  simp only [DiffNormStored, Transient.lastSolveConverged, h1, h2, h3, h4, h5] at hs ⊢
  exact hs

theorem solveStep_picard_solveFrame (env : Env) (s : Transient) (current_dt : ℚ) :
    SolveFrame s (s.solveStep_picard env current_dt) := by
  simp only [SolveFrame, Transient.solveStep_picard, record, apply_ite Transient.toSolveStatus,
    apply_ite Transient.toSolutionData, ite_self, and_self]

theorem endStep_solveFrame (s : Transient) (input_time : ℚ) :
    SolveFrame s (s.endStep input_time) := by
  simp only [SolveFrame, Transient.endStep, record, apply_ite Transient.toSolveStatus,
    apply_ite Transient.toSolutionData, apply_ite SolveStatus._multiapps_converged,
    apply_ite SolveStatus.stepper_converged, apply_ite SolveStatus._xfem_repeat_step,
    ite_self, and_self]

theorem incrementStepOrReject_solveFrame (env : Env) (s : Transient) :
    SolveFrame s (s.incrementStepOrReject env) := by
  simp only [SolveFrame, Transient.incrementStepOrReject, record,
    apply_ite Transient.toSolveStatus,
    apply_ite Transient.toSolutionData, apply_ite SolveStatus._multiapps_converged,
    apply_ite SolveStatus.stepper_converged, apply_ite SolveStatus._xfem_repeat_step,
    ite_self, and_self]

theorem solveStep_converged_diffNorm (env : Env) (old : NumericVector)
    (hold : ∀ u, env.solutionOld u = old) (s : Transient) :
    DiffNormStored env old (s.solveStep_converged env).2 := by
  simp only [DiffNormStored, Transient.solveStep_converged,
    Transient.relativeSolutionDifferenceNorm, record, Transient.lastSolveConverged, hold]
  split_ifs <;> simp_all


theorem solveStep_diffNorm (env : Env) (old : NumericVector)
    (hold : ∀ u, env.solutionOld u = old) (s : Transient) (input_dt : ℚ) :
    DiffNormStored env old (s.solveStep env input_dt) := by
  unfold Transient.solveStep
  dsimp only
  split_ifs with h1 h2
  · intro h
    simp only [Transient.lastSolveConverged, Bool.and_eq_true] at h
    simp [h.1.1] at h1
  · exact solveStep_converged_diffNorm env old hold _
  · exact DiffNormStored.of_frame (solveStep_picard_solveFrame env _ _)
      (solveStep_converged_diffNorm env old hold _)

theorem takeStep_loop_diffNorm (env : Env) (old : NumericVector)
    (hold : ∀ u, env.solutionOld u = old) (input_dt : ℚ) (fuel : ℕ) (s : Transient)
    (hs : DiffNormStored env old s) :
    DiffNormStored env old (Transient.takeStep_loop env input_dt fuel s) := by
  induction fuel generalizing s with
  | zero => exact hs
  | succ n ih =>
    have hi : ∀ t : Transient, SolveFrame t { t with _picard_it := t._picard_it + 1 } :=
      fun t => ⟨rfl, rfl, rfl, rfl, rfl⟩
    unfold Transient.takeStep_loop
    dsimp only
    split_ifs with h1 h2 h3
    · exact solveStep_diffNorm env old hold _ input_dt
    · exact ih _ (DiffNormStored.of_frame (hi _) (solveStep_diffNorm env old hold _ input_dt))
    · exact solveStep_diffNorm env old hold _ input_dt
    · exact ih _ (DiffNormStored.of_frame (hi _) (solveStep_diffNorm env old hold _ input_dt))
    · exact hs

theorem takeStep_diffNorm (env : Env) (old : NumericVector)
    (hold : ∀ u, env.solutionOld u = old) (s : Transient) (input_dt : ℚ)
    (hmax : 0 < s._picard_max_its) (hpc : s._picard_converged = false) :
    DiffNormStored env old (s.takeStep env input_dt) := by
  have hi : ∀ t : Transient, SolveFrame t { t with _picard_it := t._picard_it + 1 } :=
    fun t => ⟨rfl, rfl, rfl, rfl, rfl⟩
  unfold Transient.takeStep
  dsimp only [record]
  obtain ⟨n, hn⟩ := Nat.exists_eq_succ_of_ne_zero hmax.ne'
  rw [hn]
  unfold Transient.takeStep_loop
  simp only [toUnsigned, hn, hpc]
  norm_num
  split_ifs with h3
  · exact solveStep_diffNorm env old hold _ input_dt
  · exact takeStep_loop_diffNorm env old hold input_dt n _
      (DiffNormStored.of_frame (hi _) (solveStep_diffNorm env old hold _ input_dt))

theorem incrementStepOrReject_accepted_time (env : Env) (s : Transient)
    (hc : s.lastSolveConverged = true) (hx : s._xfem_repeat_step = false) :
    (s.incrementStepOrReject env)._time = s._time := by
  cases hamr : env.LIBMESH_ENABLE_AMR <;> by_cases hp : s._picard_max_its > 1 <;>
    simp [Transient.incrementStepOrReject, record, hc, hx, hamr, hp]

/-- Counterexample of C7: in a cold start (construction, then `init`) with the steady state
detection enabled, tolerance 1e-6 and `_time` beyond the start time, the first step is
accepted, its solution is the zero vector, identical to the old solution, and it stores a
NaN as relative difference norm (0/0), not 0; the following `keepGoing()` returns true. -/
theorem steady_state_zero_solution :
    (∃ s, Transient.construct steadyParameters (steadyApp 0) = Except.ok s ∧
      s.init (exampleEnv true true 0) (steadyApp 0) = Except.ok (steadyExample 0)) ∧
    (steadyExample 0)._t_step = 1 ∧ (steadyExample 0)._dt = 1 ∧
    (((steadyExample 0).takeStep (exampleEnv true true 0) (-1)).endStep
        (-1)).lastSolveConverged = true ∧
    (((steadyExample 0).takeStep (exampleEnv true true 0) (-1)).endStep
        (-1))._xfem_repeat_step = false ∧
    (((steadyExample 0).takeStep (exampleEnv true true 0) (-1)).endStep (-1)).solution =
      (exampleEnv true true 0).solutionOld
        (((steadyExample 0).takeStep (exampleEnv true true 0) (-1)).endStep (-1)) ∧
    (steadyExample 0)._steady_state_detection = true ∧
    (steadyExample 0)._steady_state_tolerance = 1e-6 ∧
    ((((steadyExample 0).takeStep (exampleEnv true true 0) (-1)).endStep
        (-1)).incrementStepOrReject (exampleEnv true true 0))._time >
      (steadyExample 0)._steady_state_start_time ∧
    ((((steadyExample 0).takeStep (exampleEnv true true 0) (-1)).endStep
        (-1)).incrementStepOrReject (exampleEnv true true 0))._sln_diff_norm = DivReal.nan ∧
    (((((steadyExample 0).takeStep (exampleEnv true true 0) (-1)).endStep
        (-1)).incrementStepOrReject (exampleEnv true true 0)).keepGoing
          (exampleEnv true true 0)).1 = true := by
  refine ⟨⟨steadyConstructed 0, by with_unfolding_all rfl, by with_unfolding_all rfl⟩,
    by decide!, by decide!, by decide!, by decide!, by with_unfolding_all rfl, by decide!,
    by decide!, by decide!, by decide!, by decide!⟩

/-- C7, amended: with the steady state detection enabled, tolerance 1e-6 and `_time` beyond
`_steady_state_start_time`, for every accepted (converged, not repeated) step whose new
solution is identical to the old solution and has a non-zero l2 norm,
`relativeSolutionDifferenceNorm()` is 0, it is the value stored in `_sln_diff_norm`, and the
following `keepGoing()` returns false. -/
theorem steady_state_stops (env : Env) (old : NumericVector) (s : Transient)
    (input_dt input_time : ℚ)
    (hmax : 0 < s._picard_max_its) (hpc : s._picard_converged = false)
    (hold : ∀ u, env.solutionOld u = old) (hzero : env.l2_norm (fun _ => 0) = 0)
    (hnz : env.l2_norm old ≠ 0)
    (hacc : ((s.takeStep env input_dt).endStep input_time).lastSolveConverged = true ∧
      ((s.takeStep env input_dt).endStep input_time)._xfem_repeat_step = false)
    (hsame : ((s.takeStep env input_dt).endStep input_time).solution = old)
    (hdet : s._steady_state_detection = true) (htol : s._steady_state_tolerance = 1e-6)
    (htime : ((s.takeStep env input_dt).endStep input_time)._time >
      s._steady_state_start_time) :
    (∀ u : Transient, u.solution = old →
      (u.relativeSolutionDifferenceNorm env).1 = DivReal.fin 0) ∧
    (((s.takeStep env input_dt).endStep input_time).incrementStepOrReject env)._sln_diff_norm =
      DivReal.fin 0 ∧
    ((((s.takeStep env input_dt).endStep input_time).incrementStepOrReject env).keepGoing
      env).1 = false := by
  have hrel : realDiv (env.l2_norm (fun i => old i - old i)) (env.l2_norm old) =
      DivReal.fin 0 := by
    simp [realDiv, hzero, hnz]
  have hp := (takeStep_parameters env s input_dt).trans_parameters (endStep_parameters _ input_time)
  have hd := DiffNormStored.of_frame (endStep_solveFrame _ input_time)
    (takeStep_diffNorm env old hold s input_dt hmax hpc)
  generalize (s.takeStep env input_dt).endStep input_time = s2 at hacc hsame htime hp hd ⊢
  have hp3 := hp.trans_parameters (incrementStepOrReject_parameters env s2)
  obtain ⟨f1, f2, f3, f4, f5⟩ := incrementStepOrReject_solveFrame env s2
  have hn : (s2.incrementStepOrReject env)._sln_diff_norm = DivReal.fin 0 := by
    rw [f4, hd hacc, hsame, hrel]
  refine ⟨?_, hn, ?_⟩
  · intro u hu
    simp only [Transient.relativeSolutionDifferenceNorm, hold, hu]
    exact hrel
  · apply keepGoing_false_of_steady_state
    have e1 : (s2.incrementStepOrReject env)._steady_state_detection = true := by
      have := congrArg PicardParameters._steady_state_detection hp3.2
      exact this.trans hdet
    have e2 : (s2.incrementStepOrReject env)._steady_state_tolerance = 1e-6 := by
      have := congrArg PicardParameters._steady_state_tolerance hp3.2
      exact this.trans htol
    have e3 : (s2.incrementStepOrReject env)._steady_state_start_time =
        s._steady_state_start_time :=
      congrArg PicardParameters._steady_state_start_time hp3.2
    refine ⟨?_, f3.trans hacc.2, e1, ?_, ?_⟩
    · simp only [Transient.lastSolveConverged, f1, f2]
      exact hacc.1
    · rw [incrementStepOrReject_accepted_time env s2 hacc.1 hacc.2, e3]
      exact htime
    · rw [hn, e2]
      simp only [DivReal.lt]
      norm_num

/-- Witness of C7: an accepted step of a stationary problem with solution 1. -/
theorem steady_state_stops_witness :
    (((steadyExample 1).takeStep (exampleEnv true true 1) (-1)).endStep
        (-1)).lastSolveConverged = true ∧
    (((((steadyExample 1).takeStep (exampleEnv true true 1) (-1)).endStep
        (-1)).incrementStepOrReject (exampleEnv true true 1)).keepGoing
          (exampleEnv true true 1)).1 = false :=
  ⟨by decide!,
    (steady_state_stops (exampleEnv true true 1) (fun _ => 1) (steadyExample 1) (-1) (-1)
      (by decide!) (by decide!) (fun _ => rfl) (by decide!) (by decide!)
      ⟨by decide!, by decide!⟩ (by with_unfolding_all rfl) (by decide!) (by decide!)
      (by decide!)).2.2⟩

/-! ### The rounding of the clock -/

/-- The values of `roundReal` at 0.1, 0.2 and 0.3, at a tie and at a subnormal number. -/
theorem roundReal_examples :
    roundReal 0 = 0 ∧ roundReal 1 = 1 ∧ roundReal (-3 / 2) = -3 / 2 ∧
      roundReal (1 / 10) = 3602879701896397 / 2 ^ 55 ∧
      roundReal (2 / 10) = 3602879701896397 / 2 ^ 54 ∧
      roundReal (3 / 10) = 5404319552844595 / 2 ^ 54 ∧
      roundReal (2 ^ 53 + 1) = 2 ^ 53 ∧ roundReal (2 ^ 53 + 3) = 2 ^ 53 + 4 ∧
      roundReal (3 / 2 ^ 1075) = 2 / 2 ^ 1074 := by
  decide!

theorem pow2_eq_zpow (e : Int) : pow2 e = (2 : ℚ) ^ e := by
  unfold pow2
  split_ifs with h
  · obtain ⟨n, rfl⟩ := Int.eq_ofNat_of_zero_le h
    simp
  · push_neg at h
    obtain ⟨n, hn⟩ := Int.exists_eq_neg_ofNat (le_of_lt h)
    subst hn
    simp

theorem pow2_pos (e : Int) : 0 < pow2 e := by
  rw [pow2_eq_zpow]; positivity

theorem pow2_le_pow2 {a b : Int} (h : a ≤ b) : pow2 a ≤ pow2 b := by
  rw [pow2_eq_zpow, pow2_eq_zpow]
  exact zpow_le_zpow_right₀ (by norm_num) h

theorem pow2_add (a b : Int) : pow2 (a + b) = pow2 a * pow2 b := by
  rw [pow2_eq_zpow, pow2_eq_zpow, pow2_eq_zpow, zpow_add₀ (by norm_num)]

theorem log2Loop_spec (fuel n : ℕ) (hn : 1 ≤ n) (hf : n ≤ fuel) :
    2 ^ log2Loop fuel n ≤ n ∧ n < 2 ^ (log2Loop fuel n + 1) := by
  induction fuel generalizing n with
  | zero => omega
  | succ k ih =>
    unfold log2Loop
    split_ifs with h
    · have h1 : 1 ≤ n / 2 := by omega
      have h2 : n / 2 ≤ k := by omega
      obtain ⟨a, b⟩ := ih (n / 2) h1 h2
      constructor
      · rw [pow_succ]; omega
      · rw [pow_succ]; omega
    · constructor
      · simpa using hn
      · simp; omega

theorem roundHalfEven_near (x : ℚ) :
    (roundHalfEven x : ℚ) ≤ x + 1 / 2 ∧ x - 1 / 2 ≤ (roundHalfEven x : ℚ) := by
  have h1 : ((Rat.floor x : ℤ) : ℚ) ≤ x := Int.floor_le x
  have h2 : x < ((Rat.floor x : ℤ) : ℚ) + 1 := Int.lt_floor_add_one x
  unfold roundHalfEven
  split_ifs with a b c
  · constructor <;> linarith
  · push_cast; constructor <;> linarith
  · constructor <;> linarith
  · push_cast; constructor <;> linarith

theorem roundHalfEven_intCast (k : ℤ) : roundHalfEven (k : ℚ) = k := by
  have h : Rat.floor (k : ℚ) = k := @Int.floor_intCast ℚ _ _ k
  unfold roundHalfEven
  rw [h]
  simp

theorem roundHalfEven_mono {x y : ℚ} (h : x ≤ y) : roundHalfEven x ≤ roundHalfEven y := by
  by_contra hc
  push_neg at hc
  have h1 := (roundHalfEven_near x).1
  have h2 := (roundHalfEven_near y).2
  have h3 : (roundHalfEven y : ℚ) + 1 ≤ (roundHalfEven x : ℚ) := by exact_mod_cast hc
  have hxy : x = y := by linarith
  subst hxy
  exact absurd hc (lt_irrefl _)

theorem pow2_lt_pow2_iff {a b : Int} : pow2 a < pow2 b ↔ a < b := by
  rw [pow2_eq_zpow, pow2_eq_zpow]
  exact zpow_lt_zpow_iff_right₀ (by norm_num)

theorem abs_eq_natAbs_div (q : ℚ) : |q| = (q.num.natAbs : ℚ) / (q.den : ℚ) := by
  rw [Rat.abs_def, Rat.divInt_eq_div]
  push_cast
  rw [Nat.cast_natAbs, Int.cast_abs]

theorem binaryExponent_spec (q : ℚ) (hq : q ≠ 0) :
    pow2 (binaryExponent q) ≤ |q| ∧ |q| < pow2 (binaryExponent q + 1) := by
  have hn : 1 ≤ q.num.natAbs := Nat.one_le_iff_ne_zero.2 (by simpa using hq)
  have hd : 1 ≤ q.den := q.den_pos
  obtain ⟨a1, a2⟩ := log2Loop_spec q.num.natAbs q.num.natAbs hn (le_refl _)
  obtain ⟨b1, b2⟩ := log2Loop_spec q.den q.den hd (le_refl _)
  have habs := abs_eq_natAbs_div q
  unfold binaryExponent
  dsimp only
  generalize log2Loop q.num.natAbs q.num.natAbs = a at a1 a2 ⊢
  generalize log2Loop q.den q.den = b at b1 b2 ⊢
  have hdpos : (0 : ℚ) < (q.den : ℚ) := by exact_mod_cast q.den_pos
  have A1 : ((2 : ℚ) ^ a) ≤ (q.num.natAbs : ℚ) := by exact_mod_cast a1
  have A2 : (q.num.natAbs : ℚ) < (2 : ℚ) ^ (a + 1) := by exact_mod_cast a2
  have B1 : ((2 : ℚ) ^ b) ≤ (q.den : ℚ) := by exact_mod_cast b1
  have B2 : (q.den : ℚ) < (2 : ℚ) ^ (b + 1) := by exact_mod_cast b2
  have up : |q| < pow2 ((a : Int) - b + 1) := by
    rw [habs, pow2_eq_zpow, div_lt_iff₀ hdpos]
    have e : (2 : ℚ) ^ ((a : Int) - b + 1) = (2 : ℚ) ^ (a + 1) / (2 : ℚ) ^ b := by
      rw [show ((a : Int) - b + 1) = ((a + 1 : ℕ) : Int) - (b : ℕ) by push_cast; ring,
        zpow_sub₀ (by norm_num), zpow_natCast, zpow_natCast]
    rw [e, div_mul_eq_mul_div, lt_div_iff₀ (by positivity)]
    calc (q.num.natAbs : ℚ) * 2 ^ b ≤ (q.num.natAbs : ℚ) * q.den :=
          mul_le_mul_of_nonneg_left B1 (by positivity)
      _ < 2 ^ (a + 1) * q.den := mul_lt_mul_of_pos_right A2 hdpos
  have lo : pow2 ((a : Int) - b - 1) ≤ |q| := by
    rw [habs, pow2_eq_zpow, le_div_iff₀ hdpos]
    have e : (2 : ℚ) ^ ((a : Int) - b - 1) = (2 : ℚ) ^ a / (2 : ℚ) ^ (b + 1) := by
      rw [show ((a : Int) - b - 1) = ((a : ℕ) : Int) - ((b + 1 : ℕ) : Int) by push_cast; ring,
        zpow_sub₀ (by norm_num), zpow_natCast, zpow_natCast]
    rw [e, div_mul_eq_mul_div, div_le_iff₀ (by positivity)]
    calc (2 : ℚ) ^ a * q.den ≤ (q.num.natAbs : ℚ) * q.den :=
          mul_le_mul_of_nonneg_right A1 (le_of_lt hdpos)
      _ ≤ (q.num.natAbs : ℚ) * 2 ^ (b + 1) :=
          mul_le_mul_of_nonneg_left (le_of_lt B2) (by positivity)
  split_ifs with h
  · exact ⟨h, up⟩
  · push_neg at h
    refine ⟨lo, ?_⟩
    rw [show ((a : Int) - b - 1 + 1) = (a : Int) - b by ring]
    exact h

theorem binaryExponent_mono {x y : ℚ} (hx : x ≠ 0) (hy : y ≠ 0) (h : |x| ≤ |y|) :
    binaryExponent x ≤ binaryExponent y := by
  obtain ⟨x1, _⟩ := binaryExponent_spec x hx
  obtain ⟨_, y2⟩ := binaryExponent_spec y hy
  have : pow2 (binaryExponent x) < pow2 (binaryExponent y + 1) :=
    lt_of_le_of_lt (le_trans x1 h) y2
  have := pow2_lt_pow2_iff.1 this
  omega

/-- The spacing of the `double`s around `q`. -/
theorem roundReal_eq (q : ℚ) (hq : q ≠ 0) :
    roundReal q =
      (roundHalfEven (q / pow2 (max (binaryExponent q) (-1022) - 52)) : ℚ) *
        pow2 (max (binaryExponent q) (-1022) - 52) := by
  unfold roundReal
  rw [if_neg hq]

theorem pow2_int (n : ℕ) : pow2 (n : Int) = (((2 : ℤ) ^ n : ℤ) : ℚ) := by
  rw [pow2_eq_zpow, zpow_natCast]
  push_cast
  rfl

/-- The quotient of `q` by the spacing is below `2 ^ 53` in absolute value, and at least
`2 ^ 52` when `q` is not subnormal. -/
theorem quotient_bounds (q : ℚ) (hq : q ≠ 0) :
    |q / pow2 (max (binaryExponent q) (-1022) - 52)| < pow2 53 ∧
      (-1022 ≤ binaryExponent q →
        pow2 52 ≤ |q / pow2 (max (binaryExponent q) (-1022) - 52)|) := by
  obtain ⟨s1, s2⟩ := binaryExponent_spec q hq
  have hu := pow2_pos (max (binaryExponent q) (-1022) - 52)
  rw [abs_div, abs_of_pos hu]
  constructor
  · rw [div_lt_iff₀ hu, ← pow2_add]
    refine lt_of_lt_of_le s2 (pow2_le_pow2 ?_)
    have := le_max_left (binaryExponent q) (-1022)
    omega
  · intro h
    rw [le_div_iff₀ hu, ← pow2_add, max_eq_left h]
    refine le_trans (pow2_le_pow2 ?_) s1
    omega

theorem roundReal_nonneg {q : ℚ} (hq : 0 ≤ q) : 0 ≤ roundReal q := by
  rcases eq_or_lt_of_le hq with h | h
  · rw [← h]; simp [roundReal]
  · rw [roundReal_eq q (ne_of_gt h)]
    have hu := pow2_pos (max (binaryExponent q) (-1022) - 52)
    have h0 : roundHalfEven 0 ≤ roundHalfEven (q / pow2 (max (binaryExponent q) (-1022) - 52)) :=
      roundHalfEven_mono (div_nonneg hq (le_of_lt hu))
    have h1 : roundHalfEven 0 = 0 := by
      have := roundHalfEven_intCast 0
      simpa using this
    rw [h1] at h0
    exact mul_nonneg (by exact_mod_cast h0) (le_of_lt hu)

theorem roundReal_nonpos {q : ℚ} (hq : q ≤ 0) : roundReal q ≤ 0 := by
  rcases eq_or_lt_of_le hq with h | h
  · rw [h]; simp [roundReal]
  · rw [roundReal_eq q (ne_of_lt h)]
    have hu := pow2_pos (max (binaryExponent q) (-1022) - 52)
    have h0 : roundHalfEven (q / pow2 (max (binaryExponent q) (-1022) - 52)) ≤ roundHalfEven 0 :=
      roundHalfEven_mono (div_nonpos_of_nonpos_of_nonneg hq (le_of_lt hu))
    have h1 : roundHalfEven 0 = 0 := by
      have := roundHalfEven_intCast 0
      simpa using this
    rw [h1] at h0
    exact mul_nonpos_of_nonpos_of_nonneg (by exact_mod_cast h0) (le_of_lt hu)

/-- The rounding of `q` stays within the binade of `q`. -/
theorem roundReal_bounds (q : ℚ) (hq : q ≠ 0) :
    |roundReal q| ≤ pow2 (max (binaryExponent q) (-1022) + 1) ∧
      (-1022 ≤ binaryExponent q → pow2 (binaryExponent q) ≤ |roundReal q|) := by
  obtain ⟨b1, b2⟩ := quotient_bounds q hq
  have hu := pow2_pos (max (binaryExponent q) (-1022) - 52)
  rw [roundReal_eq q hq, abs_mul, abs_of_pos hu]
  generalize q / pow2 (max (binaryExponent q) (-1022) - 52) = z at b1 b2
  have e53 : pow2 53 = (((2 : ℤ) ^ 53 : ℤ) : ℚ) := pow2_int 53
  have e52 : pow2 52 = (((2 : ℤ) ^ 52 : ℤ) : ℚ) := pow2_int 52
  have hz := abs_lt.1 b1
  have r1 : roundHalfEven z ≤ (2 : ℤ) ^ 53 := by
    have := roundHalfEven_mono (le_of_lt hz.2)
    rw [e53, roundHalfEven_intCast] at this
    exact this
  have r2 : -((2 : ℤ) ^ 53) ≤ roundHalfEven z := by
    have := roundHalfEven_mono (le_of_lt hz.1)
    rw [e53, ← Int.cast_neg, roundHalfEven_intCast] at this
    exact this
  constructor
  · have h : |(roundHalfEven z : ℚ)| ≤ pow2 53 := by
      rw [e53, abs_le]
      constructor
      · exact_mod_cast r2
      · exact_mod_cast r1
    calc |(roundHalfEven z : ℚ)| * pow2 (max (binaryExponent q) (-1022) - 52)
        ≤ pow2 53 * pow2 (max (binaryExponent q) (-1022) - 52) :=
          mul_le_mul_of_nonneg_right h (le_of_lt hu)
      _ = pow2 (max (binaryExponent q) (-1022) + 1) := by
          rw [← pow2_add]; congr 1; ring
  · intro hb
    have hz2 := b2 hb
    have h : pow2 52 ≤ |(roundHalfEven z : ℚ)| := by
      rcases le_abs'.1 hz2 with h | h
      · have := roundHalfEven_mono h
        rw [e52, ← Int.cast_neg, roundHalfEven_intCast] at this
        rw [e52]
        refine le_trans ?_ (neg_le_abs _)
        have : ((roundHalfEven z : ℤ) : ℚ) ≤ ((-(2 : ℤ) ^ 52 : ℤ) : ℚ) := by exact_mod_cast this
        push_cast at this ⊢
        linarith
      · have := roundHalfEven_mono h
        rw [e52, roundHalfEven_intCast] at this
        rw [e52]
        refine le_trans ?_ (le_abs_self _)
        exact_mod_cast this
    calc pow2 (binaryExponent q)
        = pow2 52 * pow2 (max (binaryExponent q) (-1022) - 52) := by
          rw [← pow2_add, max_eq_left hb]; congr 1; ring
      _ ≤ |(roundHalfEven z : ℚ)| * pow2 (max (binaryExponent q) (-1022) - 52) :=
          mul_le_mul_of_nonneg_right h (le_of_lt hu)

theorem roundReal_mono_same_sign {x y : ℚ} (hx : x ≠ 0) (hy : y ≠ 0) (h : x ≤ y)
    (he : max (binaryExponent x) (-1022) = max (binaryExponent y) (-1022)) :
    roundReal x ≤ roundReal y := by
  rw [roundReal_eq x hx, roundReal_eq y hy, he]
  have hu := pow2_pos (max (binaryExponent y) (-1022) - 52)
  have := roundHalfEven_mono (div_le_div_of_nonneg_right h (le_of_lt hu))
  exact mul_le_mul_of_nonneg_right (by exact_mod_cast this) (le_of_lt hu)

/-- The rounding to the nearest `double` is monotone. -/
theorem roundReal_mono {x y : ℚ} (h : x ≤ y) : roundReal x ≤ roundReal y := by
  rcases le_or_lt x 0 with hx0 | hx0
  · rcases le_or_lt 0 y with hy0 | hy0
    · exact le_trans (roundReal_nonpos hx0) (roundReal_nonneg hy0)
    · have hx : x ≠ 0 := ne_of_lt (lt_of_le_of_lt h hy0)
      have hy : y ≠ 0 := ne_of_lt hy0
      have habs : |y| ≤ |x| := by
        rw [abs_of_neg hy0, abs_of_neg (lt_of_le_of_lt h hy0)]
        linarith
      have hE := binaryExponent_mono hy hx habs
      rcases eq_or_lt_of_le (max_le_max_right (-1022) hE) with he | he
      · exact roundReal_mono_same_sign hx hy h he.symm
      · have hb : -1022 ≤ binaryExponent x := by
          by_contra hc
          push_neg at hc
          rw [max_eq_right (le_of_lt hc)] at he
          exact absurd he (not_lt.2 (le_max_right _ _))
        obtain ⟨_, x2⟩ := roundReal_bounds x hx
        obtain ⟨y1, _⟩ := roundReal_bounds y hy
        have x3 := x2 hb
        rw [abs_of_nonpos (roundReal_nonpos (le_of_lt (lt_of_le_of_lt h hy0)))] at x3
        rw [abs_of_nonpos (roundReal_nonpos (le_of_lt hy0))] at y1
        rw [max_eq_left hb] at he
        have hp : pow2 (max (binaryExponent y) (-1022) + 1) ≤ pow2 (binaryExponent x) :=
          pow2_le_pow2 (by omega)
        linarith
  · have hy0 : 0 < y := lt_of_lt_of_le hx0 h
    have hx : x ≠ 0 := ne_of_gt hx0
    have hy : y ≠ 0 := ne_of_gt hy0
    have habs : |x| ≤ |y| := by
      rw [abs_of_pos hx0, abs_of_pos hy0]
      exact h
    have hE := binaryExponent_mono hx hy habs
    rcases eq_or_lt_of_le (max_le_max_right (-1022) hE) with he | he
    · exact roundReal_mono_same_sign hx hy h he
    · have hb : -1022 ≤ binaryExponent y := by
        by_contra hc
        push_neg at hc
        rw [max_eq_right (le_of_lt hc)] at he
        exact absurd he (not_lt.2 (le_max_right _ _))
      obtain ⟨x1, _⟩ := roundReal_bounds x hx
      obtain ⟨_, y2⟩ := roundReal_bounds y hy
      have y3 := y2 hb
      rw [abs_of_nonneg (roundReal_nonneg (le_of_lt hy0))] at y3
      rw [abs_of_nonneg (roundReal_nonneg (le_of_lt hx0))] at x1
      rw [max_eq_left hb] at he
      have hp : pow2 (max (binaryExponent x) (-1022) + 1) ≤ pow2 (binaryExponent y) :=
        pow2_le_pow2 (by omega)
      linarith

theorem binaryExponent_unique (y : ℚ) (e : Int) (h1 : pow2 e ≤ |y|) (h2 : |y| < pow2 (e + 1)) :
    binaryExponent y = e := by
  have hy : y ≠ 0 := by
    intro h
    rw [h, abs_zero] at h1
    exact absurd h1 (not_le.2 (pow2_pos e))
  obtain ⟨s1, s2⟩ := binaryExponent_spec y hy
  have a := pow2_lt_pow2_iff.1 (lt_of_le_of_lt s1 h2)
  have b := pow2_lt_pow2_iff.1 (lt_of_le_of_lt h1 s2)
  omega

/-- The values of `roundReal` are the `double`s: `roundReal` leaves them as they are. -/
theorem roundReal_idem (x : ℚ) : roundReal (roundReal x) = roundReal x := by
  by_cases hx : x = 0
  · rw [hx]; simp [roundReal]
  by_cases hy : roundReal x = 0
  · rw [hy]; simp [roundReal]
  have hu := pow2_pos (max (binaryExponent x) (-1022) - 52)
  obtain ⟨q1, q2⟩ := quotient_bounds x hx
  obtain ⟨r1, r2⟩ := roundReal_bounds x hx
  have hform := roundReal_eq x hx
  generalize hm : roundHalfEven (x / pow2 (max (binaryExponent x) (-1022) - 52)) = m at hform
  have hE : max (binaryExponent (roundReal x)) (-1022) = max (binaryExponent x) (-1022) ∨
      (max (binaryExponent (roundReal x)) (-1022) = max (binaryExponent x) (-1022) + 1 ∧
        |roundReal x| = pow2 (max (binaryExponent x) (-1022) + 1)) := by
    rcases eq_or_lt_of_le r1 with he | hlt
    · right
      refine ⟨?_, he⟩
      have hb : binaryExponent (roundReal x) = max (binaryExponent x) (-1022) + 1 :=
        binaryExponent_unique _ _ (le_of_eq he.symm)
          (by rw [he]; exact pow2_lt_pow2_iff.2 (by omega))
      rw [hb]
      have := le_max_right (binaryExponent x) (-1022)
      exact max_eq_left (by omega)
    · left
      by_cases hb : -1022 ≤ binaryExponent x
      · have hb2 : binaryExponent (roundReal x) = binaryExponent x :=
          binaryExponent_unique _ _ (r2 hb) (by rw [max_eq_left hb] at hlt; exact hlt)
        rw [hb2]
      · push_neg at hb
        rw [max_eq_right (le_of_lt hb)] at hlt ⊢
        obtain ⟨_, s2⟩ := binaryExponent_spec (roundReal x) hy
        have : pow2 (binaryExponent (roundReal x)) < pow2 (-1022 + 1) := by
          obtain ⟨s1, _⟩ := binaryExponent_spec (roundReal x) hy
          exact lt_of_le_of_lt s1 hlt
        have := pow2_lt_pow2_iff.1 this
        exact max_eq_right (by omega)
  rcases hE with hE | ⟨hE, habs⟩
  · rw [roundReal_eq (roundReal x) hy, hE]
    have hq : roundReal x / pow2 (max (binaryExponent x) (-1022) - 52) = (m : ℚ) := by
      rw [hform, mul_div_assoc, div_self (ne_of_gt hu), mul_one]
    rw [hq, roundHalfEven_intCast, hform]
  · rw [roundReal_eq (roundReal x) hy, hE]
    have hu2 := pow2_pos (max (binaryExponent x) (-1022) + 1 - 52)
    have hdiv : |roundReal x / pow2 (max (binaryExponent x) (-1022) + 1 - 52)| = pow2 52 := by
      rw [abs_div, abs_of_pos hu2, habs, div_eq_iff (ne_of_gt hu2), ← pow2_add]
      congr 1
      ring
    have e52 : pow2 52 = (((2 : ℤ) ^ 52 : ℤ) : ℚ) := pow2_int 52
    rcases abs_eq (le_of_lt (pow2_pos 52)) |>.1 hdiv with h | h
    · have hr : roundReal x = pow2 52 * pow2 (max (binaryExponent x) (-1022) + 1 - 52) := by
        rw [← h, div_mul_cancel₀ _ (ne_of_gt hu2)]
      rw [h, e52, roundHalfEven_intCast, ← e52, ← hr]
    · have hr : roundReal x = -pow2 52 * pow2 (max (binaryExponent x) (-1022) + 1 - 52) := by
        rw [← h, div_mul_cancel₀ _ (ne_of_gt hu2)]
      rw [h, e52, ← Int.cast_neg, roundHalfEven_intCast, Int.cast_neg, ← e52, ← hr]

/-- With the rounding `id` the functions with a rounding are those of the exact
arithmetic. -/
theorem computeConstrainedDT_with_id (env : Env) (s : Transient) :
    s.computeConstrainedDT_with id env = s.computeConstrainedDT env ∧
      s.computeConstrainedDT_master_with id env = s.computeConstrainedDT_master env ∧
      (∀ r, Transient.computeConstrainedDT_interval_with id r =
        Transient.computeConstrainedDT_interval r) ∧
      (∀ r, Transient.computeConstrainedDT_target_with id r =
        Transient.computeConstrainedDT_target r) :=
  ⟨rfl, rfl, fun _ => rfl, fun _ => rfl⟩

theorem solveStep_setTime_with_id (env : Env) (s : Transient) (input_dt : ℚ) :
    s.solveStep_setTime_with id env input_dt = s.solveStep_setTime env input_dt := rfl

theorem endStep_with_id (s : Transient) (input_time : ℚ) :
    s.endStep_with id input_time = s.endStep input_time := rfl

/-- The clock that `endStep` leaves without an explicit time, for every rounding. -/
theorem endStep_with_clock (fl : ℚ → ℚ) (s : Transient) :
    (s.endStep_with fl (-1))._time = fl (s._time_old + s._dt) ∧
      (s.endStep_with fl (-1))._dt = s._dt ∧
      (s.endStep_with fl (-1))._time_old = s._time_old := by
  simp only [Transient.endStep_with, record, if_true, apply_ite Transient.toClock,
    apply_ite Clock._time, apply_ite Clock._dt, apply_ite Clock._time_old, ite_self, and_self]

/-- The time interval output limit of lines 719-729, for every rounding: when the time
interval output is enabled and the test of line 720 holds, the step is the difference
`_next_interval_output_time - _time` and a sync point is reported. -/
theorem computeConstrainedDT_interval_with_limits (fl : ℚ → ℚ) (r : ℚ × Transient)
    (hi : r.2._time_interval = true)
    (hd : fl (fl (r.2._time + r.1) + r.2._timestep_tolerance) ≥
      r.2._next_interval_output_time) :
    (Transient.computeConstrainedDT_interval_with fl r).1 =
        fl (r.2._next_interval_output_time - r.2._time) ∧
      (Transient.computeConstrainedDT_interval_with fl r).2._at_sync_point = true := by
  simp [Transient.computeConstrainedDT_interval_with, hi, hd]

/-- The next interval output time of lines 681-682, for every rounding: after a converged
step that is not repeated, with the time interval output enabled, it advances by the interval
when the new time has reached it within the tolerance. -/
theorem endStep_with_interval (fl : ℚ → ℚ) (s : Transient)
    (hc : s.lastSolveConverged = true) (hx : s._xfem_repeat_step = false)
    (hi : s._time_interval = true)
    (hd : fl (fl (s._time_old + s._dt) + s._timestep_tolerance) ≥
      s._next_interval_output_time) :
    (s.endStep_with fl (-1))._next_interval_output_time =
      fl (s._next_interval_output_time + s._time_interval_output_interval) := by
  have hc2 : (s._multiapps_converged && s.stepper_converged) = true := hc
  simp [Transient.endStep_with, Transient.lastSolveConverged, record, hc2, hx, hi, hd]

/-- In `double` arithmetic a positive step can leave the time where it is: from
`_time_old = 1000` the step `2e-14` gives `_time = 1000` at line 661. -/
theorem endStep_with_absorbs :
    (firstAttempt 1000 (roundReal (2 / 10 ^ 14)))._time_old = 1000 ∧
      0 < (firstAttempt 1000 (roundReal (2 / 10 ^ 14)))._dt ∧
      (firstAttempt 1000 (roundReal (2 / 10 ^ 14))).lastSolveConverged = true ∧
      ((firstAttempt 1000 (roundReal (2 / 10 ^ 14))).endStep_with roundReal (-1))._time =
        1000 := by
  decide!

/-- In `double` arithmetic the sum of line 661 (and of line 499) does not fall below
`_time_old` when the step size is not negative and `_time_old` is a `double`; the sum is a
`double` again. -/
theorem endStep_with_order (t : Transient) (hrep : roundReal t._time_old = t._time_old)
    (hd : 0 ≤ t._dt) :
    t._time_old ≤ (t.endStep_with roundReal (-1))._time ∧
      roundReal (t.endStep_with roundReal (-1))._time =
        (t.endStep_with roundReal (-1))._time := by
  rw [(endStep_with_clock roundReal t).1]
  refine ⟨?_, roundReal_idem _⟩
  have h := roundReal_mono (le_add_of_nonneg_right hd : t._time_old ≤ t._time_old + t._dt)
  rw [hrep] at h
  exact h

/-! ### The target time limit of the step -/

theorem computeConstrainedDT_interval_fields (env : Env) (s : Transient) :
    (Transient.computeConstrainedDT_interval (s.computeConstrainedDT_trial env)).2._time =
        s._time ∧
    (Transient.computeConstrainedDT_interval (s.computeConstrainedDT_trial env)).2._target_time =
        s._target_time ∧
    (Transient.computeConstrainedDT_interval
        (s.computeConstrainedDT_trial env)).2._timestep_tolerance = s._timestep_tolerance ∧
    (Transient.computeConstrainedDT_interval
        (s.computeConstrainedDT_trial env)).2._use_multiapp_dt = s._use_multiapp_dt := by
  simp only [Transient.computeConstrainedDT_interval, Transient.computeConstrainedDT_trial, record,
    apply_ite Prod.snd, apply_ite Transient.toClock, apply_ite Transient.toStepLimits,
    apply_ite Transient.toTimeParameters, apply_ite StepLimits._target_time, ite_self, and_self]

theorem computeConstrainedDT_target_clamps (env : Env) (r : ℚ × Transient)
    (hT : 0 < r.2._target_time)
    (hd : r.2._time + r.1 + r.2._timestep_tolerance ≥ r.2._target_time)
    (hu : r.2._use_multiapp_dt = false)
    (hm : ∀ u f, r.2._target_time - r.2._time ≤ env.computeMultiAppsDT u f) :
    (Transient.computeConstrainedDT_multiAppEnd env
      (Transient.computeConstrainedDT_multiAppBegin env
        (Transient.computeConstrainedDT_target r))).1 = r.2._target_time - r.2._time ∧
    (Transient.computeConstrainedDT_multiAppEnd env
      (Transient.computeConstrainedDT_multiAppBegin env
        (Transient.computeConstrainedDT_target r))).2._at_sync_point = true := by
  simp [Transient.computeConstrainedDT_multiAppEnd, Transient.computeConstrainedDT_multiAppBegin,
    Transient.computeConstrainedDT_target, record, hT, hd, hu, not_lt.mpr (hm _ _)]

theorem computeConstrainedDT_interval_with_fields (fl : ℚ → ℚ) (env : Env) (s : Transient) :
    (Transient.computeConstrainedDT_interval_with fl (s.computeConstrainedDT_trial env)).2._time =
        s._time ∧
    (Transient.computeConstrainedDT_interval_with fl
        (s.computeConstrainedDT_trial env)).2._target_time = s._target_time ∧
    (Transient.computeConstrainedDT_interval_with fl
        (s.computeConstrainedDT_trial env)).2._timestep_tolerance = s._timestep_tolerance ∧
    (Transient.computeConstrainedDT_interval_with fl
        (s.computeConstrainedDT_trial env)).2._use_multiapp_dt = s._use_multiapp_dt := by
  simp only [Transient.computeConstrainedDT_interval_with, Transient.computeConstrainedDT_trial,
    record, apply_ite Prod.snd, apply_ite Transient.toClock, apply_ite Transient.toStepLimits,
    apply_ite Transient.toTimeParameters, apply_ite StepLimits._target_time, ite_self, and_self]

theorem computeConstrainedDT_target_with_clamps (fl : ℚ → ℚ) (env : Env) (r : ℚ × Transient)
    (hT : 0 < r.2._target_time)
    (hd : fl (fl (r.2._time + r.1) + r.2._timestep_tolerance) ≥ r.2._target_time)
    (hu : r.2._use_multiapp_dt = false)
    (hm : ∀ u f, fl (r.2._target_time - r.2._time) ≤ env.computeMultiAppsDT u f) :
    (Transient.computeConstrainedDT_multiAppEnd env
      (Transient.computeConstrainedDT_multiAppBegin env
        (Transient.computeConstrainedDT_target_with fl r))).1 =
          fl (r.2._target_time - r.2._time) ∧
    (Transient.computeConstrainedDT_multiAppEnd env
      (Transient.computeConstrainedDT_multiAppBegin env
        (Transient.computeConstrainedDT_target_with fl r))).2._at_sync_point = true := by
  simp [Transient.computeConstrainedDT_multiAppEnd, Transient.computeConstrainedDT_multiAppBegin,
    Transient.computeConstrainedDT_target_with, record, hT, hd, hu, not_lt.mpr (hm _ _)]

theorem computeConstrainedDT_with_time_old (fl : ℚ → ℚ) (env : Env) (s : Transient) :
    (s.computeConstrainedDT_with fl env).2._time_old = s._time_old := by
  simp only [Transient.computeConstrainedDT_with, Transient.computeConstrainedDT_master_with,
    Transient.computeConstrainedDT_multiAppEnd, Transient.computeConstrainedDT_multiAppBegin,
    Transient.computeConstrainedDT_target_with, Transient.computeConstrainedDT_interval_with,
    Transient.computeConstrainedDT_trial, record, apply_ite Prod.snd,
    apply_ite Transient.toClock, apply_ite Clock._time_old, ite_self]

/-- C8, amended: for every target time `T > 0` set through `setTargetTime`, if
`computeConstrainedDT` is called with `use_multiapp_dt` false, sub-app step sizes
`>= T - _time`, and the trial step `d` satisfies `_time + d + _timestep_tolerance >= T` (the
test of line 732), then it returns exactly the difference `T - _time` of line 734 and reports
`_at_sync_point = true`; the step taken by `solveStep` has that size, and line 499 sets
`_time` to the sum `_time_old + (T - _time)`.  This holds for every rounding `fl` of the
sums and differences: in exact arithmetic (`fl = id`) and in `double` arithmetic
(`fl = roundReal`).  The trial step `d` is the step in which line 732 finds `dt_cur`: the
step handed back by `constrainStep`, as long as the time interval output is disabled (no line
sets `_time_interval`). -/
theorem target_time_clamp (fl : ℚ → ℚ) (env : Env) (s : Transient) (T : ℚ) (hT : 0 < T)
    (hu : s._use_multiapp_dt = false)
    (hm : ∀ u f, fl (T - s._time) ≤ env.computeMultiAppsDT u f)
    (hd : fl (fl (s._time + (Transient.computeConstrainedDT_interval_with fl
        ((s.setTargetTime T).computeConstrainedDT_trial env)).1) + s._timestep_tolerance) ≥ T) :
    (s._time_interval = false →
      (Transient.computeConstrainedDT_interval_with fl
          ((s.setTargetTime T).computeConstrainedDT_trial env)).1 =
        ((s.setTargetTime T).computeConstrainedDT_trial env).1) ∧
    ((s.setTargetTime T).computeConstrainedDT_with fl env).1 = fl (T - s._time) ∧
    ((s.setTargetTime T).computeConstrainedDT_with fl env).2._at_sync_point = true ∧
    (∀ s0 : Transient, ({ s0 with _dt_old := s0._dt } : Transient) = s.setTargetTime T →
      (s0.solveStep_setTime_with fl env (-1))._dt = fl (T - s._time) ∧
        (s0.solveStep_setTime_with fl env (-1))._time =
          fl (s._time_old + fl (T - s._time))) := by
  obtain ⟨f1, f2, f3, f4⟩ := computeConstrainedDT_interval_with_fields fl env (s.setTargetTime T)
  have g1 : (s.setTargetTime T)._time = s._time := rfl
  have g2 : (s.setTargetTime T)._target_time = T := rfl
  have g3 : (s.setTargetTime T)._timestep_tolerance = s._timestep_tolerance := rfl
  have g4 : (s.setTargetTime T)._use_multiapp_dt = s._use_multiapp_dt := rfl
  have key := computeConstrainedDT_target_with_clamps fl env
    (Transient.computeConstrainedDT_interval_with fl
      ((s.setTargetTime T).computeConstrainedDT_trial env))
    (by rw [f2, g2]; exact hT) (by rw [f1, f2, f3, g1, g2, g3]; exact hd)
    (by rw [f4, g4]; exact hu) (by rw [f1, f2, g1, g2]; exact hm)
  rw [f1, f2, g1, g2] at key
  have e1 : ((s.setTargetTime T).computeConstrainedDT_with fl env).1 = fl (T - s._time) := key.1
  refine ⟨fun hi => ?_, e1, key.2, ?_⟩
  · have h1 : ((s.setTargetTime T).computeConstrainedDT_trial env).2._time_interval = false := by
      simp only [Transient.computeConstrainedDT_trial, record]
      exact hi
    unfold Transient.computeConstrainedDT_interval_with
    dsimp only
    rw [h1, Bool.false_and, if_neg (by simp)]
  intro s0 h0
  have hf : ((s.setTargetTime T).computeConstrainedDT_with fl env).2._time_old = s._time_old :=
    computeConstrainedDT_with_time_old fl env (s.setTargetTime T)
  constructor
  · simp only [Transient.solveStep_setTime_with, if_true, h0]
    simp only [record, apply_ite Transient.toClock, apply_ite Clock._dt, ite_self, e1]
  · simp only [Transient.solveStep_setTime_with, if_true, h0]
    simp only [record, apply_ite Transient.toClock, apply_ite Clock._time_old,
      apply_ite Clock._dt, ite_self, e1]
    rw [hf]

/-- Counterexample of C8: a cold start with the start time 0.3 and the default
`timestep_tolerance` (the `double`s nearest to them), the target time 0.9, `use_multiapp_dt`
false, sub-app steps of 1e30 and the trial step 1.  In `double` arithmetic
`computeConstrainedDT` returns the difference `0.9 - 0.3`, which is `0.6000000000000001`, and
reports `_at_sync_point = true`; line 499 then sets `_time` to `0.3 + 0.6000000000000001`,
which is `0.9000000000000001`, not the target time. -/
theorem target_time_clamp_misses_target :
    (0 : ℚ) < roundReal (9 / 10) ∧
    (coldStartFor (startTimeParameters (roundReal (3 / 10)) (roundReal (2 / 10 ^ 14)))
      (exampleEnv true true 0))._time = roundReal (3 / 10) ∧
    (coldStartFor (startTimeParameters (roundReal (3 / 10)) (roundReal (2 / 10 ^ 14)))
      (exampleEnv true true 0))._time_old = roundReal (3 / 10) ∧
    (coldStartFor (startTimeParameters (roundReal (3 / 10)) (roundReal (2 / 10 ^ 14)))
      (exampleEnv true true 0))._use_multiapp_dt = false ∧
    (∀ u f, roundReal (roundReal (9 / 10) - roundReal (3 / 10)) ≤
      (exampleEnv true true 0).computeMultiAppsDT u f) ∧
    (((coldStartFor (startTimeParameters (roundReal (3 / 10)) (roundReal (2 / 10 ^ 14)))
      (exampleEnv true true 0)).setTargetTime (roundReal (9 / 10))).computeConstrainedDT_trial
        (exampleEnv true true 0)).1 = 1 ∧
    roundReal (roundReal (roundReal (3 / 10) + 1) + roundReal (2 / 10 ^ 14)) ≥
      roundReal (9 / 10) ∧
    (((coldStartFor (startTimeParameters (roundReal (3 / 10)) (roundReal (2 / 10 ^ 14)))
      (exampleEnv true true 0)).setTargetTime (roundReal (9 / 10))).computeConstrainedDT_with
        roundReal (exampleEnv true true 0)).1 =
          roundReal (roundReal (9 / 10) - roundReal (3 / 10)) ∧
    (((coldStartFor (startTimeParameters (roundReal (3 / 10)) (roundReal (2 / 10 ^ 14)))
      (exampleEnv true true 0)).setTargetTime (roundReal (9 / 10))).computeConstrainedDT_with
        roundReal (exampleEnv true true 0)).2._at_sync_point = true ∧
    (((coldStartFor (startTimeParameters (roundReal (3 / 10)) (roundReal (2 / 10 ^ 14)))
      (exampleEnv true true 0)).setTargetTime (roundReal (9 / 10))).solveStep_setTime_with
        roundReal (exampleEnv true true 0) (-1))._dt = 5404319552844596 / 2 ^ 53 ∧
    (((coldStartFor (startTimeParameters (roundReal (3 / 10)) (roundReal (2 / 10 ^ 14)))
      (exampleEnv true true 0)).setTargetTime (roundReal (9 / 10))).solveStep_setTime_with
        roundReal (exampleEnv true true 0) (-1))._time = 8106479329266894 / 2 ^ 53 ∧
    roundReal (9 / 10) = 8106479329266893 / 2 ^ 53 ∧
    (((coldStartFor (startTimeParameters (roundReal (3 / 10)) (roundReal (2 / 10 ^ 14)))
      (exampleEnv true true 0)).setTargetTime (roundReal (9 / 10))).solveStep_setTime_with
        roundReal (exampleEnv true true 0) (-1))._time ≠ roundReal (9 / 10) :=
  ⟨by decide!, by decide!, by decide!, by decide!,
    fun _ _ => by
      have h : roundReal (roundReal (9 / 10) - roundReal (3 / 10)) ≤ 1 := by decide!
      exact le_trans h (by norm_num [exampleEnv]),
    by decide!, by decide!, by decide!, by decide!, by decide!, by decide!, by decide!,
    by decide!⟩

/-- Witness of C8: in `double` arithmetic, in the state of a cold start with the start time
0.3, the trial step 1 and the target time 0.9, `computeConstrainedDT` returns the difference
`0.9 - 0.3` (the `double` `0.6000000000000001`) and reports a sync point. -/
theorem target_time_clamp_witness :
    (0 : ℚ) < roundReal (9 / 10) ∧
    (((coldStartFor (startTimeParameters (roundReal (3 / 10)) (roundReal (2 / 10 ^ 14)))
      (exampleEnv true true 0)).setTargetTime (roundReal (9 / 10))).computeConstrainedDT_trial
        (exampleEnv true true 0)).1 = 1 ∧
    (((coldStartFor (startTimeParameters (roundReal (3 / 10)) (roundReal (2 / 10 ^ 14)))
      (exampleEnv true true 0)).setTargetTime (roundReal (9 / 10))).computeConstrainedDT_with
        roundReal (exampleEnv true true 0)).1 = 5404319552844596 / 2 ^ 53 ∧
    (((coldStartFor (startTimeParameters (roundReal (3 / 10)) (roundReal (2 / 10 ^ 14)))
      (exampleEnv true true 0)).setTargetTime (roundReal (9 / 10))).computeConstrainedDT_with
        roundReal (exampleEnv true true 0)).2._at_sync_point = true :=
  ⟨by decide!, by decide!,
    ((target_time_clamp roundReal (exampleEnv true true 0)
      (coldStartFor (startTimeParameters (roundReal (3 / 10)) (roundReal (2 / 10 ^ 14)))
        (exampleEnv true true 0)) (roundReal (9 / 10))
      (by decide!) (by decide!)
      (fun _ _ => by
        have h : roundReal (roundReal (9 / 10) -
            (coldStartFor (startTimeParameters (roundReal (3 / 10)) (roundReal (2 / 10 ^ 14)))
              (exampleEnv true true 0))._time) ≤ 1 := by decide!
        exact le_trans h (by norm_num [exampleEnv]))
      (by decide!)).2.1).trans (by decide!),
    (target_time_clamp roundReal (exampleEnv true true 0)
      (coldStartFor (startTimeParameters (roundReal (3 / 10)) (roundReal (2 / 10 ^ 14)))
        (exampleEnv true true 0)) (roundReal (9 / 10))
      (by decide!) (by decide!)
      (fun _ _ => by
        have h : roundReal (roundReal (9 / 10) -
            (coldStartFor (startTimeParameters (roundReal (3 / 10)) (roundReal (2 / 10 ^ 14)))
              (exampleEnv true true 0))._time) ≤ 1 := by decide!
        exact le_trans h (by norm_num [exampleEnv]))
      (by decide!)).2.2.1⟩

/-! ### The relaxation of the solution -/

theorem relaxLoop_apply (a : ℚ) (prev : NumericVector) (l : List ℕ) (hl : l.Nodup)
    (sol : NumericVector) (d : ℕ) :
    relaxLoop a prev l sol d = if d ∈ l then prev d * (1 - a) + sol d * a else sol d := by
  induction l generalizing sol with
  | nil => simp [relaxLoop]
  | cons x xs ih =>
    rw [List.nodup_cons] at hl
    rw [relaxLoop, ih hl.2]
    by_cases hd : d = x
    · subst hd
      simp [hl.1]
    · by_cases hx : d ∈ xs
      · simp [hd, hx, Function.update_noteq hd]
      · simp [hd, hx, Function.update_noteq hd]

theorem solveStep_relax_solution (s : Transient) (d : ℕ) :
    s.solveStep_relax.solution d =
      if s._prev_time = s._time ∧ s._relax_factor ≠ 1 then
        (if d ∈ s._relaxed_dofs then
          s.relax_previous d * (1 - s._relax_factor) + s.solution d * s._relax_factor
        else s.solution d)
      else s.solution d := by
  by_cases h : s._prev_time = s._time ∧ s._relax_factor ≠ 1
  · simp only [Transient.solveStep_relax, record, h.1, h.2, ne_eq, not_false_eq_true,
      decide_True, Bool.and_self, if_true, and_self]
    rw [relaxLoop_apply _ _ _ (Finset.sort_nodup _ _)]
    simp only [Finset.mem_sort]
  · have h' : (decide (s._prev_time = s._time) && decide (s._relax_factor ≠ 1)) = false := by
      rw [Bool.eq_false_iff]
      intro hh
      simp only [Bool.and_eq_true, decide_eq_true_eq] at hh
      exact h hh
    simp only [Transient.solveStep_relax, record, h', if_neg h]
    simp

theorem solveStep_converged_solution (env : Env) (s : Transient) :
    (s.solveStep_converged env).2.solution = s.solution := by
  simp only [Transient.solveStep_converged, Transient.relativeSolutionDifferenceNorm, record,
    apply_ite Prod.snd, apply_ite Transient.toSolutionData, apply_ite SolutionData.solution,
    ite_self]

theorem solveStep_setup_relax (env : Env) (s : Transient) :
    (s.solveStep_setup env).solution = s.solution ∧
    (s.solveStep_setup env)._prev_time = s._prev_time ∧
    (s.solveStep_setup env)._time = s._time ∧
    (s.solveStep_setup env)._relax_factor = s._relax_factor ∧
    ((s._prev_time = s._time ∧ s._relax_factor ≠ 1) →
      (s.solveStep_setup env).relax_previous = s.solution) := by
  refine ⟨?_, ?_, ?_, ?_, ?_⟩
  · simp only [Transient.solveStep_setup, record, apply_ite Transient.toSolutionData,
      apply_ite SolutionData.solution, ite_self]
  · simp only [Transient.solveStep_setup, record, apply_ite Transient.toPicardStatus,
      apply_ite PicardStatus._prev_time, ite_self]
  · simp only [Transient.solveStep_setup, record, apply_ite Transient.toClock, ite_self]
  · simp only [Transient.solveStep_setup, record, apply_ite Transient.toPicardParameters,
      ite_self]
  · intro h
    have e1 : ∀ t : Transient, t.toPicardStatus._prev_time = s._prev_time →
        t.toClock = s.toClock → t.toPicardParameters = s.toPicardParameters →
        (decide (t._prev_time = t._time) && decide (t._relax_factor ≠ 1)) = true := by
      intro t h1 h2 h3
      simp only [h1, h2, h3, h.1, h.2, ne_eq, not_false_eq_true, decide_True, Bool.and_self]
    simp only [Transient.solveStep_setup]
    rw [if_pos (e1 _ ?_ ?_ ?_)]
    · simp only [record, apply_ite Transient.toSolutionData, apply_ite SolutionData.solution,
        ite_self]
    · simp only [record, apply_ite Transient.toPicardStatus, apply_ite PicardStatus._prev_time,
        ite_self]
    · simp only [record, apply_ite Transient.toClock, ite_self]
    · simp only [record, apply_ite Transient.toPicardParameters, ite_self]

theorem solveStep_solution (env : Env) (s : Transient) (input_dt : ℚ)
    (hm : ((s.solveStep_setTime env input_dt).solveStep_multiAppsBegin env)._multiapps_converged
      = true) :
    (s.solveStep env input_dt).solution =
      ((s.solveStep_beforeSolve env input_dt).solveStep_step env).solveStep_relax.solution := by
  unfold Transient.solveStep Transient.solveStep_beforeSolve
  simp only [hm, Bool.not_true, Bool.false_eq_true, if_false]
  split_ifs
  · exact solveStep_converged_solution env _
  · exact ((solveStep_picard_solveFrame env _ _).2.2.2.2).trans
      (solveStep_converged_solution env _)

/-- C9: when `solveStep` reaches the solve and applies the relaxation (`_prev_time = _time`
and `_relax_factor != 1`), the vector `relax_previous` is the solution just before the solve,
every relaxed degree of freedom ends with `old * (1 - a) + new * a` and every other one with
the result `new` of the solve; with the factor 1 the solution is the result of the solve;
for old 10, new 20 and factor 0.25 the relaxed value is 12.5. -/
theorem relaxation_blend (env : Env) (s : Transient) (input_dt : ℚ)
    (hm : ((s.solveStep_setTime env input_dt).solveStep_multiAppsBegin env)._multiapps_converged
      = true) :
    (((s.solveStep_beforeSolve env input_dt)._prev_time =
          (s.solveStep_beforeSolve env input_dt)._time ∧
        (s.solveStep_beforeSolve env input_dt)._relax_factor ≠ 1) →
      (s.solveStep_beforeSolve env input_dt).relax_previous =
          (s.solveStep_beforeSolve env input_dt).solution ∧
        ∀ d : ℕ, (s.solveStep env input_dt).solution d =
          if d ∈ (s.solveStep_beforeSolve env input_dt)._relaxed_dofs then
            (s.solveStep_beforeSolve env input_dt).solution d *
                (1 - (s.solveStep_beforeSolve env input_dt)._relax_factor) +
              (env.step (s.solveStep_beforeSolve env input_dt)).2.1 d *
                (s.solveStep_beforeSolve env input_dt)._relax_factor
          else (env.step (s.solveStep_beforeSolve env input_dt)).2.1 d) ∧
    ((s.solveStep_beforeSolve env input_dt)._relax_factor = 1 →
      (s.solveStep env input_dt).solution =
        (env.step (s.solveStep_beforeSolve env input_dt)).2.1) ∧
    (∀ d : ℕ, ((s.solveStep_beforeSolve env input_dt)._prev_time =
          (s.solveStep_beforeSolve env input_dt)._time ∧
        (s.solveStep_beforeSolve env input_dt)._relax_factor = 0.25 ∧
        d ∈ (s.solveStep_beforeSolve env input_dt)._relaxed_dofs ∧
        (s.solveStep_beforeSolve env input_dt).solution d = 10 ∧
        (env.step (s.solveStep_beforeSolve env input_dt)).2.1 d = 20) →
      (s.solveStep env input_dt).solution d = 12.5) := by
  have hsol := solveStep_solution env s input_dt hm
  obtain ⟨g1, g2, g3, g4, g5⟩ := solveStep_setup_relax env
    ((s.solveStep_setTime env input_dt).solveStep_multiAppsBegin env)
  have hblend : ((s.solveStep_beforeSolve env input_dt)._prev_time =
        (s.solveStep_beforeSolve env input_dt)._time ∧
      (s.solveStep_beforeSolve env input_dt)._relax_factor ≠ 1) →
      (s.solveStep_beforeSolve env input_dt).relax_previous =
          (s.solveStep_beforeSolve env input_dt).solution ∧
        ∀ d : ℕ, (s.solveStep env input_dt).solution d =
          if d ∈ (s.solveStep_beforeSolve env input_dt)._relaxed_dofs then
            (s.solveStep_beforeSolve env input_dt).solution d *
                (1 - (s.solveStep_beforeSolve env input_dt)._relax_factor) +
              (env.step (s.solveStep_beforeSolve env input_dt)).2.1 d *
                (s.solveStep_beforeSolve env input_dt)._relax_factor
          else (env.step (s.solveStep_beforeSolve env input_dt)).2.1 d := by
    intro hg
    have hsave : (s.solveStep_beforeSolve env input_dt).relax_previous =
        (s.solveStep_beforeSolve env input_dt).solution := by
      unfold Transient.solveStep_beforeSolve at hg ⊢
      rw [g1]
      rw [g2, g3, g4] at hg
      exact g5 hg
    refine ⟨hsave, fun d => ?_⟩
    rw [hsol, solveStep_relax_solution]
    have hg' : ((s.solveStep_beforeSolve env input_dt).solveStep_step env)._prev_time =
          ((s.solveStep_beforeSolve env input_dt).solveStep_step env)._time ∧
        ((s.solveStep_beforeSolve env input_dt).solveStep_step env)._relax_factor ≠ 1 := hg
    rw [if_pos hg']
    simp only [Transient.solveStep_step, record, hsave]
  refine ⟨hblend, ?_, ?_⟩
  · intro h1
    funext d
    rw [hsol, solveStep_relax_solution]
    have hg' : ¬ (((s.solveStep_beforeSolve env input_dt).solveStep_step env)._prev_time =
          ((s.solveStep_beforeSolve env input_dt).solveStep_step env)._time ∧
        ((s.solveStep_beforeSolve env input_dt).solveStep_step env)._relax_factor ≠ 1) :=
      fun hh => hh.2 h1
    rw [if_neg hg']
    simp only [Transient.solveStep_step, record]
  · rintro d ⟨h1, h2, h3, h4, h5⟩
    rw [(hblend ⟨h1, by rw [h2]; norm_num⟩).2 d, if_pos h3, h4, h5, h2]
    norm_num

/-- Witness of C9: old value 10, new value 20; the factor 0.25 gives 12.5 and the factor 1
gives 20. -/
theorem relaxation_blend_witness :
    ((relaxExample 0.25).solveStep relaxEnv 1).solution 0 = 12.5 ∧
    ((relaxExample 1).solveStep relaxEnv 1).solution 0 = 20 :=
  ⟨(relaxation_blend relaxEnv (relaxExample 0.25) 1 (by decide!)).2.2 0
      ⟨by decide!, by decide!, by decide!, by decide!, by decide!⟩,
    ((relaxation_blend relaxEnv (relaxExample 1) 1 (by decide!)).2.1 (by decide!)).symm ▸
      (by decide!)⟩

/-! ### The fatal errors of the constructor -/

/-- Counterexample of C10: with the default relaxation factor 1, inside (0, 2), the
construction fails when the scheme is set by the user and the problem already has a time
integrator. -/
theorem construct_scheme_conflict :
    (0 < schemeConflictParameters.relaxation_factor ∧
      schemeConflictParameters.relaxation_factor < 2) ∧
    Transient.construct schemeConflictParameters schemeConflictApp =
      Except.error FatalError.schemeAndTimeIntegrator ∧
    ¬ ((∃ e, Transient.construct schemeConflictParameters schemeConflictApp = Except.error e) ↔
      (schemeConflictParameters.relaxation_factor ≤ 0 ∨
        schemeConflictParameters.relaxation_factor ≥ 2)) := by
  have h : Transient.construct schemeConflictParameters schemeConflictApp =
      Except.error FatalError.schemeAndTimeIntegrator := by
    simp [Transient.construct, setupTimeIntegrator, schemeConflictParameters, schemeConflictApp,
      exampleApp, validParams]
  refine ⟨by decide!, h, ?_⟩
  rw [h]
  intro hiff
  have := hiff.mp ⟨_, rfl⟩
  revert this
  simp [schemeConflictParameters, validParams]

theorem construct_cases (parameters : InputParameters) (app : App) :
    (parameters.scheme_setByUser = true ∧ app.hasTimeIntegrator = true ∧
      Transient.construct parameters app = Except.error FatalError.schemeAndTimeIntegrator) ∨
    (¬ (parameters.scheme_setByUser = true ∧ app.hasTimeIntegrator = true) ∧
      (parameters.relaxation_factor ≤ 0 ∨ parameters.relaxation_factor ≥ 2) ∧
      Transient.construct parameters app = Except.error FatalError.relaxationFactor) ∨
    (¬ (parameters.scheme_setByUser = true ∧ app.hasTimeIntegrator = true) ∧
      (0 < parameters.relaxation_factor ∧ parameters.relaxation_factor < 2) ∧
      ∃ s, Transient.construct parameters app = Except.ok s ∧
        s._relax_factor = parameters.relaxation_factor) := by
  by_cases hc : parameters.scheme_setByUser = true ∧ app.hasTimeIntegrator = true
  · left
    refine ⟨hc.1, hc.2, ?_⟩
    simp [Transient.construct, setupTimeIntegrator, hc.1, hc.2]
  · right
    have hsetup : ∃ ti, setupTimeIntegrator parameters.scheme_setByUser app.hasTimeIntegrator
        parameters.scheme = Except.ok ti := by
      cases hs : parameters.scheme_setByUser <;> cases ht : app.hasTimeIntegrator <;>
        simp_all [setupTimeIntegrator]
    obtain ⟨ti, hti⟩ := hsetup
    by_cases hr : parameters.relaxation_factor ≤ 0 ∨ parameters.relaxation_factor ≥ 2
    · left
      refine ⟨hc, hr, ?_⟩
      have hne : parameters.relaxation_factor ≠ 1 := by
        rcases hr with h | h
        · intro h1; rw [h1] at h; norm_num at h
        · intro h1; rw [h1] at h; norm_num at h
      simp only [Transient.construct, Transient.initializers, apply_ite Transient.toPicardParameters,
        apply_ite Transient.toTimeParameters, apply_ite TimeParameters._time_scheme,
        apply_ite PicardParameters._relax_factor, ite_self, hti]
      simp [hne, hr.symm]
    · right
      have hin : 0 < parameters.relaxation_factor ∧ parameters.relaxation_factor < 2 := by
        constructor
        · by_contra h; exact hr (Or.inl (not_lt.mp h))
        · by_contra h; exact hr (Or.inr (not_lt.mp h))
      refine ⟨hc, hin, ?_⟩
      simp only [Transient.construct, Transient.initializers, apply_ite Transient.toPicardParameters,
        apply_ite Transient.toTimeParameters, apply_ite TimeParameters._time_scheme,
        apply_ite PicardParameters._relax_factor, ite_self, hti]
      have hno : ¬ (parameters.relaxation_factor ≠ 1 ∧
          (parameters.relaxation_factor ≥ 2 ∨ parameters.relaxation_factor ≤ 0)) :=
        fun h => hr h.2.symm
      rw [if_neg hno]
      refine ⟨_, rfl, ?_⟩
      simp only [apply_ite Transient.toPicardParameters,
        apply_ite PicardParameters._relax_factor, ite_self]

/-- C10, amended: the construction fails with a fatal error if and only if the scheme is set
by the user while the problem has a time integrator, or `relaxation_factor <= 0`, or
`relaxation_factor >= 2`; it fails with the error of the relaxation factor if and only if
there is no such scheme conflict and the factor is outside (0, 2); it succeeds, with the
factor stored as given, if and only if there is no scheme conflict and the factor is inside
(0, 2). -/
theorem construct_error_iff (parameters : InputParameters) (app : App) :
    ((∃ e, Transient.construct parameters app = Except.error e) ↔
      ((parameters.scheme_setByUser = true ∧ app.hasTimeIntegrator = true) ∨
        parameters.relaxation_factor ≤ 0 ∨ parameters.relaxation_factor ≥ 2)) ∧
    (Transient.construct parameters app = Except.error FatalError.relaxationFactor ↔
      (¬ (parameters.scheme_setByUser = true ∧ app.hasTimeIntegrator = true) ∧
        (parameters.relaxation_factor ≤ 0 ∨ parameters.relaxation_factor ≥ 2))) ∧
    ((∃ s, Transient.construct parameters app = Except.ok s ∧
        s._relax_factor = parameters.relaxation_factor) ↔
      (¬ (parameters.scheme_setByUser = true ∧ app.hasTimeIntegrator = true) ∧
        0 < parameters.relaxation_factor ∧ parameters.relaxation_factor < 2)) ∧
    (∀ s, Transient.construct parameters app = Except.ok s →
      s._relax_factor = parameters.relaxation_factor) := by
  have hlt : ∀ x : ℚ, (0 < x ∧ x < 2) → ¬ (x ≤ 0 ∨ x ≥ 2) := by
    rintro x ⟨h1, h2⟩ (h | h)
    · exact absurd h1 (not_lt.mpr h)
    · exact absurd h2 (not_lt.mpr h)
  rcases construct_cases parameters app with ⟨h1, h2, h3⟩ | ⟨h1, h2, h3⟩ | ⟨h1, h2, s, h3, h4⟩
  · refine ⟨?_, ?_, ?_, ?_⟩
    · exact ⟨fun _ => Or.inl ⟨h1, h2⟩, fun _ => ⟨_, h3⟩⟩
    · rw [h3]
      exact ⟨fun h => by simp at h, fun h => absurd ⟨h1, h2⟩ h.1⟩
    · rw [h3]
      exact ⟨fun ⟨s, h, _⟩ => by simp at h, fun h => absurd ⟨h1, h2⟩ h.1⟩
    · intro s hs
      rw [h3] at hs
      simp at hs
  · refine ⟨?_, ?_, ?_, ?_⟩
    · exact ⟨fun _ => Or.inr h2, fun _ => ⟨_, h3⟩⟩
    · exact ⟨fun _ => ⟨h1, h2⟩, fun _ => h3⟩
    · rw [h3]
      exact ⟨fun ⟨s, h, _⟩ => by simp at h, fun h => absurd h2 (hlt _ h.2)⟩
    · intro s hs
      rw [h3] at hs
      simp at hs
  · refine ⟨?_, ?_, ?_, ?_⟩
    · rw [h3]
      constructor
      · rintro ⟨e, he⟩
        simp at he
      · rintro (h | h)
        · exact absurd h h1
        · exact absurd h (hlt _ h2)
    · rw [h3]
      exact ⟨fun h => by simp at h, fun h => absurd h.2 (hlt _ h2)⟩
    · exact ⟨fun _ => ⟨h1, h2⟩, fun _ => ⟨s, h3, h4⟩⟩
    · intro s' hs
      rw [h3] at hs
      cases hs
      exact h4

/-! ### The start of a run -/

/-- C11: `init` raises a fatal error if and only if the application recovers and `_t_step`
is 0, or it does not recover and `_t_step` is not 0 or the step size `getDT()` returns after
`computeDT()` is 0.  When it raises the error of the zero initial step, `_t_step` is still
the 0 it was, and the calls made are `initialSetup`, the `init` of the time stepper, the
initial output and `computeStep`: no solve.  When `init` returns in a cold start, `_t_step`
is 1 and `_dt` is the step size of the time stepper, which is not 0. -/
theorem init_error_iff (env : Env) (app : App) (s : Transient) :
    ((∃ e, s.init env app = Except.error e) ↔
        (app.isRecovering = true ∧ s._t_step = 0) ∨
          (app.isRecovering = false ∧
            (s._t_step ≠ 0 ∨ ((s.init_setup app).computeDT).getDT env = 0))) ∧
      (s.init env app = Except.error FatalError.zeroInitialDt →
        ((s.init_setup app).init_computeDT env)._t_step = s._t_step ∧
          ((s.init_setup app).init_computeDT env)._t_step = 0 ∧
          ((s.init_setup app).init_computeDT env).calls =
            [Call.computeStep, Call.outputStep ExecFlagType.EXEC_INITIAL, Call.stepperInit,
              Call.initialSetup] ++ s.calls ∧
          Call.step ∉ callsSince s ((s.init_setup app).init_computeDT env)) ∧
      (∀ s1, app.isRecovering = false → s.init env app = Except.ok s1 →
        s1._t_step = 1 ∧ s1._dt = ((s.init_setup app).computeDT).getDT env ∧ s1._dt ≠ 0) := by
  have hstep : (s.init_setup app)._t_step = s._t_step := by
    simp only [Transient.init_setup, record, apply_ite Transient.toClock, apply_ite Clock._t_step,
      ite_self]
  have hcalls : ((s.init_setup app).init_computeDT env).calls =
      [Call.computeStep, Call.outputStep ExecFlagType.EXEC_INITIAL, Call.stepperInit,
        Call.initialSetup] ++ s.calls := by
    simp only [Transient.init_setup, Transient.init_computeDT, Transient.computeDT, record,
      apply_ite Transient.calls, ite_self, List.cons_append, List.nil_append]
  have hdt : ((s.init_setup app).init_computeDT env)._dt =
      ((s.init_setup app).computeDT).getDT env := rfl
  have hstep2 : ((s.init_setup app).init_computeDT env)._t_step = s._t_step := by
    rw [← hstep]; rfl
  refine ⟨?_, ?_, ?_⟩
  · cases hr : app.isRecovering <;> by_cases h0 : s._t_step = 0 <;>
      by_cases hd : ((s.init_setup app).computeDT).getDT env = 0 <;>
      simp [Transient.init, hr, hstep, h0, hdt, hd]
  · intro h
    have h0 : s._t_step = 0 := by
      by_contra h0
      cases hr : app.isRecovering <;> simp [Transient.init, hr, hstep, h0] at h
    refine ⟨hstep2, hstep2.trans h0, hcalls, ?_⟩
    rw [callsSince_append _ _ _ hcalls]
    decide
  · intro s1 hr h
    by_cases h0 : s._t_step = 0
    · by_cases hd : ((s.init_setup app).computeDT).getDT env = 0
      · simp [Transient.init, hr, hstep, h0, hdt, hd] at h
      · simp only [Transient.init, hr, hstep, h0, hdt, hd, ne_eq, not_true_eq_false,
          Bool.false_eq_true, if_false, Except.ok.injEq] at h
        subst h
        refine ⟨?_, ?_, ?_⟩
        · show ((s.init_setup app).init_computeDT env)._t_step + 1 = 1
          rw [hstep2, h0]; rfl
        · exact hdt
        · show ((s.init_setup app).init_computeDT env)._dt ≠ 0
          rw [hdt]; exact hd
    · simp [Transient.init, hr, hstep, h0] at h

/-! ### The clock of an accepted step -/

theorem endStep_clock (s : Transient) :
    (s.endStep (-1))._time = s._time_old + s._dt ∧ (s.endStep (-1))._dt = s._dt ∧
      (s.endStep (-1))._time_old = s._time_old := by
  simp only [Transient.endStep, record, if_true, apply_ite Transient.toClock,
    apply_ite Clock._time, apply_ite Clock._dt, apply_ite Clock._time_old, ite_self, and_self]

theorem execute_body_clock (env : Env) (s : Transient) :
    (s.execute_body env)._time = (s.execute_body env)._time_old + (s.execute_body env)._dt ∧
      (s.execute_body env)._time_old = s._time_old ∧
      (s.execute_body env)._t_step = s._t_step := by
  have h1 : StepFrame s ((s.preStep.computeDT).takeStep env (-1)) :=
    ((record_frame Call.stepperPreStep (by simp) s).trans_step
      (record_frame Call.computeStep (by simp) _)).trans_step (takeStep_frame env _ _)
  have h2 := endStep_clock ((s.preStep.computeDT).takeStep env (-1))
  have h3 := endStep_frame ((s.preStep.computeDT).takeStep env (-1)) (-1)
  refine ⟨?_, ?_, ?_⟩
  · show (((s.preStep.computeDT).takeStep env (-1)).endStep (-1))._time =
      (((s.preStep.computeDT).takeStep env (-1)).endStep (-1))._time_old +
        (((s.preStep.computeDT).takeStep env (-1)).endStep (-1))._dt
    rw [h2.1, h2.2.1, h2.2.2]
  · show (((s.preStep.computeDT).takeStep env (-1)).endStep (-1))._time_old = s._time_old
    rw [h2.2.2]; exact h1.1
  · show (((s.preStep.computeDT).takeStep env (-1)).endStep (-1))._t_step = s._t_step
    rw [h3.2.1]; exact h1.2.1

theorem incrementStepOrReject_accepted (env : Env) (s : Transient)
    (hc : s.lastSolveConverged = true) (hx : s._xfem_repeat_step = false) :
    (s.incrementStepOrReject env)._t_step = s._t_step + 1 ∧
      (s.incrementStepOrReject env)._time_old = s._time ∧
      (s.incrementStepOrReject env)._time = s._time := by
  cases hamr : env.LIBMESH_ENABLE_AMR <;> by_cases hp : s._picard_max_its > 1 <;>
    simp [Transient.incrementStepOrReject, record, hc, hx, hamr, hp]

/-- Counterexample of C12: in a cold start with the default parameters and MultiApps that
report the step size 0, the first pass of the time loop solves a step of size 0 that
converges; the next pass accepts it (`_t_step` goes from 1 to 2), and `_time_old` is 0 after
the acceptance as it was before: it has not increased. -/
theorem accepted_step_zero_dt :
    ((coldStart zeroStepEnv).execute_head zeroStepEnv).1 = true ∧
    ((coldStart zeroStepEnv).execute_head zeroStepEnv).2._time_old = 0 ∧
    ((coldStart zeroStepEnv).execute_head zeroStepEnv).2._t_step = 1 ∧
    (((coldStart zeroStepEnv).execute_head zeroStepEnv).2.execute_body zeroStepEnv)._dt = 0 ∧
    (((coldStart zeroStepEnv).execute_head zeroStepEnv).2.execute_body
      zeroStepEnv).lastSolveConverged = true ∧
    (((coldStart zeroStepEnv).execute_head zeroStepEnv).2.execute_body
      zeroStepEnv)._xfem_repeat_step = false ∧
    ((((coldStart zeroStepEnv).execute_head zeroStepEnv).2.execute_body
      zeroStepEnv).execute_increment zeroStepEnv)._t_step = 2 ∧
    ((((coldStart zeroStepEnv).execute_head zeroStepEnv).2.execute_body
      zeroStepEnv).execute_increment zeroStepEnv)._time_old = 0 ∧
    ((((coldStart zeroStepEnv).execute_head zeroStepEnv).2.execute_body
      zeroStepEnv).execute_increment zeroStepEnv)._time = 0 := by
  decide!

/-- C12, amended: when the step attempted by a pass of the time loop of `execute` is accepted
by the following `incrementStepOrReject` (the last solve converged and the step is not to be
repeated), `_t_step` advances by one, `_time_old` becomes the sum of the `_time_old` of the
start of the pass and the step size `_dt` of the attempt (the sum of line 661), and `_time`
equals it; so `_time_old` does not decrease at the acceptance when that step size is not
negative, and it stays as it is when the step size is 0.  The `double` sum of line 661 does
not fall below a `_time_old` that is a `double` either, when the step size is not
negative. -/
theorem accepted_step_time (env : Env) (s : Transient)
    (hc : (s.execute_body env).lastSolveConverged = true)
    (hx : (s.execute_body env)._xfem_repeat_step = false) :
    ((s.execute_body env).incrementStepOrReject env)._t_step = s._t_step + 1 ∧
      ((s.execute_body env).incrementStepOrReject env)._time_old =
        s._time_old + (s.execute_body env)._dt ∧
      ((s.execute_body env).incrementStepOrReject env)._time =
        ((s.execute_body env).incrementStepOrReject env)._time_old ∧
      (0 ≤ (s.execute_body env)._dt →
        s._time_old ≤ ((s.execute_body env).incrementStepOrReject env)._time_old) ∧
      ((s.execute_body env)._dt = 0 →
        ((s.execute_body env).incrementStepOrReject env)._time_old = s._time_old) ∧
      (∀ t : Transient, roundReal t._time_old = t._time_old → 0 ≤ t._dt →
        t._time_old ≤ (t.endStep_with roundReal (-1))._time) := by
  obtain ⟨a1, a2, a3⟩ := incrementStepOrReject_accepted env _ hc hx
  obtain ⟨b1, b2, b3⟩ := execute_body_clock env s
  rw [a1, a2, a3, b1, b2, b3]
  refine ⟨rfl, rfl, rfl, fun h => le_add_of_nonneg_right h, fun h => ?_,
    fun t hrep hd => (endStep_with_order t hrep hd).1⟩
  rw [h, add_zero]

/-- Witness of C12: the first step of a cold start with the default parameters, of size 1,
converges and is accepted; `_time_old` goes from 0 to 1. -/
theorem accepted_step_time_witness :
    ((coldStart (exampleEnv true true 0)).execute_body
        (exampleEnv true true 0)).lastSolveConverged = true ∧
      ((coldStart (exampleEnv true true 0)).execute_body
        (exampleEnv true true 0))._xfem_repeat_step = false ∧
      (coldStart (exampleEnv true true 0))._time_old = 0 ∧
      ((coldStart (exampleEnv true true 0)).execute_body (exampleEnv true true 0))._dt = 1 ∧
      (((coldStart (exampleEnv true true 0)).execute_body
        (exampleEnv true true 0)).incrementStepOrReject (exampleEnv true true 0))._time_old =
        1 ∧
      (coldStart (exampleEnv true true 0))._time_old ≤
        (((coldStart (exampleEnv true true 0)).execute_body
          (exampleEnv true true 0)).incrementStepOrReject (exampleEnv true true 0))._time_old :=
  ⟨by decide!, by decide!, by decide!, by decide!,
    ((accepted_step_time (exampleEnv true true 0) (coldStart (exampleEnv true true 0))
      (by decide!) (by decide!)).2.1).trans (by decide!),
    (accepted_step_time (exampleEnv true true 0) (coldStart (exampleEnv true true 0))
      (by decide!) (by decide!)).2.2.2.1 (by decide!)⟩

/-! ### The order of `_time_old` and `_time` -/

theorem solveStep_setTime_clock (env : Env) (s : Transient) (input_dt : ℚ) :
    (s.solveStep_setTime env input_dt)._time =
        s._time_old + (s.solveStep_setTime env input_dt)._dt ∧
      (s.solveStep_setTime env input_dt)._time_old = s._time_old := by
  have h := (solveStep_setTime_frame env s input_dt).1
  refine ⟨?_, h⟩
  rw [← h]
  rfl

theorem solveStep_multiAppsBegin_clock (env : Env) (s : Transient) :
    (s.solveStep_multiAppsBegin env)._time = s._time ∧
      (s.solveStep_multiAppsBegin env)._time_old = s._time_old := by
  simp only [Transient.solveStep_multiAppsBegin, record, apply_ite Transient.toClock,
    apply_ite Clock._time, apply_ite Clock._time_old, ite_self, and_self]

theorem solveStep_setup_clock (env : Env) (s : Transient) :
    (s.solveStep_setup env)._time = s._time ∧ (s.solveStep_setup env)._time_old = s._time_old := by
  simp only [Transient.solveStep_setup, record, apply_ite Transient.toClock,
    apply_ite Clock._time, apply_ite Clock._time_old, ite_self, and_self]

theorem solveStep_step_clock (env : Env) (s : Transient) :
    (s.solveStep_step env)._time = s._time ∧ (s.solveStep_step env)._time_old = s._time_old := by
  simp only [Transient.solveStep_step, record, and_self]

theorem solveStep_relax_clock (s : Transient) :
    s.solveStep_relax._time = s._time ∧ s.solveStep_relax._time_old = s._time_old := by
  simp only [Transient.solveStep_relax, record, apply_ite Transient.toClock,
    apply_ite Clock._time, apply_ite Clock._time_old, ite_self, and_self]

theorem solveStep_converged_clock (env : Env) (s : Transient) :
    (s.solveStep_converged env).2._time = s._time ∧
      (s.solveStep_converged env).2._time_old = s._time_old := by
  simp only [Transient.solveStep_converged, Transient.relativeSolutionDifferenceNorm, record,
    apply_ite Prod.snd, apply_ite Transient.toClock,
    apply_ite Clock._time, apply_ite Clock._time_old, ite_self, and_self]

theorem solveStep_picard_clock (env : Env) (s : Transient) (current_dt : ℚ) :
    ((s.solveStep_picard env current_dt)._time = s._time ∨
        (s.solveStep_picard env current_dt)._time = s._time_old) ∧
      (s.solveStep_picard env current_dt)._time_old = s._time_old := by
  simp only [Transient.solveStep_picard, record]
  split_ifs <;> simp

/-- In the state `solveStep` returns, `_time_old` is as before and `_time` is either
`_time_old` or `_time_old` plus the step size of the solve. -/
theorem solveStep_clock (env : Env) (s : Transient) (input_dt : ℚ) :
    ((s.solveStep env input_dt)._time = s._time_old + (s.solveStep_setTime env input_dt)._dt ∨
        (s.solveStep env input_dt)._time = s._time_old) ∧
      (s.solveStep env input_dt)._time_old = s._time_old := by
  obtain ⟨a1, a2⟩ := solveStep_setTime_clock env s input_dt
  obtain ⟨b1, b2⟩ := solveStep_multiAppsBegin_clock env (s.solveStep_setTime env input_dt)
  obtain ⟨c1, c2⟩ := solveStep_setup_clock env
    ((s.solveStep_setTime env input_dt).solveStep_multiAppsBegin env)
  obtain ⟨d1, d2⟩ := solveStep_step_clock env
    (((s.solveStep_setTime env input_dt).solveStep_multiAppsBegin env).solveStep_setup env)
  obtain ⟨e1, e2⟩ := solveStep_relax_clock
    ((((s.solveStep_setTime env input_dt).solveStep_multiAppsBegin env).solveStep_setup
      env).solveStep_step env)
  obtain ⟨f1, f2⟩ := solveStep_converged_clock env
    ((((s.solveStep_setTime env input_dt).solveStep_multiAppsBegin env).solveStep_setup
      env).solveStep_step env).solveStep_relax
  obtain ⟨g1, g2⟩ := solveStep_picard_clock env
    (((((s.solveStep_setTime env input_dt).solveStep_multiAppsBegin env).solveStep_setup
      env).solveStep_step env).solveStep_relax.solveStep_converged env).2
    (s.solveStep_setTime env input_dt)._dt
  rw [f1, e1, d1, c1, b1, a1, f2, e2, d2, c2, b2, a2] at g1
  rw [f2, e2, d2, c2, b2, a2] at g2
  rw [e1, d1, c1, b1, a1] at f1
  rw [e2, d2, c2, b2, a2] at f2
  rw [a1] at b1
  rw [a2] at b2
  unfold Transient.solveStep
  dsimp only
  split_ifs
  · exact ⟨Or.inl b1, b2⟩
  · exact ⟨Or.inl f1, f2⟩
  · exact ⟨g1, g2⟩

theorem takeStep_loop_clock (env : Env) (input_dt : ℚ) (fuel : ℕ) (s : Transient)
    (hs : s._time_old ≤ s._time)
    (hd : ∀ e ∈ Transient.takeStep_solveSteps env input_dt fuel s,
      0 ≤ (e.solveStep_setTime env input_dt)._dt) :
    (Transient.takeStep_loop env input_dt fuel s)._time_old ≤
      (Transient.takeStep_loop env input_dt fuel s)._time := by
  induction fuel generalizing s with
  | zero => exact hs
  | succ n ih =>
    have key : ∀ e : Transient, 0 ≤ (e.solveStep_setTime env input_dt)._dt →
        (e.solveStep env input_dt)._time_old ≤ (e.solveStep env input_dt)._time := by
      intro e he
      obtain ⟨h1, h2⟩ := solveStep_clock env e input_dt
      rw [h2]
      rcases h1 with h1 | h1 <;> rw [h1]
      linarith
    unfold Transient.takeStep_loop
    unfold Transient.takeStep_solveSteps at hd
    dsimp only at hd ⊢
    split_ifs at hd ⊢ with h1 h2 h3
    · exact key _ (hd _ (List.mem_singleton.2 rfl))
    · exact ih _ (key _ (hd _ (List.mem_cons_self _ _)))
        (fun e he => hd e (List.mem_cons_of_mem _ he))
    · exact key _ (hd _ (List.mem_singleton.2 rfl))
    · exact ih _ (key _ (hd _ (List.mem_cons_self _ _)))
        (fun e he => hd e (List.mem_cons_of_mem _ he))
    · exact hs

theorem takeStep_clock (env : Env) (s : Transient) (input_dt : ℚ)
    (hs : s._time_old ≤ s._time)
    (hd : ∀ d ∈ s.takeStep_stepSizes env input_dt, 0 ≤ d) :
    (s.takeStep env input_dt)._time_old ≤ (s.takeStep env input_dt)._time := by
  unfold Transient.takeStep
  exact takeStep_loop_clock env input_dt _ _ hs
    (fun e he => hd _ (List.mem_map_of_mem _ he))

theorem incrementStepOrReject_clock (env : Env) (s : Transient) :
    (s.incrementStepOrReject env)._time_old = (s.incrementStepOrReject env)._time := by
  cases hc : s.lastSolveConverged <;> cases hx : s._xfem_repeat_step <;>
    cases hamr : env.LIBMESH_ENABLE_AMR <;>
    by_cases hp : s._picard_max_its > 1 <;>
    simp [Transient.incrementStepOrReject, record, hc, hx, hamr, hp]

theorem keepGoing_clock (env : Env) (s : Transient) :
    (s.keepGoing env).2._time = s._time ∧ (s.keepGoing env).2._time_old = s._time_old := by
  simp only [Transient.keepGoing, apply_ite Prod.snd, apply_ite Transient.toClock,
    apply_ite Clock._time, apply_ite Clock._time_old, ite_self, and_self]

theorem execute_head_clock (env : Env) (s : Transient) (hs : s._time_old ≤ s._time) :
    (s.execute_head env).2._time_old ≤ (s.execute_head env).2._time := by
  obtain ⟨h1, h2⟩ := keepGoing_clock env (s.execute_increment env)
  unfold Transient.execute_head
  rw [h1, h2]
  unfold Transient.execute_increment
  dsimp only
  split_ifs
  · exact le_of_eq (incrementStepOrReject_clock env s)
  · exact hs

theorem ok_of_ite_error {c : Prop} [Decidable c] {e : FatalError} {x s : Transient}
    (h : (if c then Except.error e else Except.ok x) = Except.ok s) : x = s := by
  split_ifs at h
  exact Except.ok.inj h

theorem construct_clock (parameters : InputParameters) (app : App) (s : Transient)
    (h : Transient.construct parameters app = Except.ok s) : s._time_old = s._time := by
  unfold Transient.construct at h
  dsimp only at h
  split at h
  · cases h
  · have hx := ok_of_ite_error h
    subst hx
    simp only [apply_ite Transient.toClock, apply_ite Clock._time, apply_ite Clock._time_old,
      ite_self]

theorem init_clock (env : Env) (app : App) (s s1 : Transient)
    (h : s.init env app = Except.ok s1) (hs : s._time_old ≤ s._time) :
    s1._time_old ≤ s1._time := by
  have h0 : (s.init_setup app)._time_old ≤ (s.init_setup app)._time := by
    unfold Transient.init_setup
    dsimp only
    split_ifs
    · exact le_refl _
    · exact hs
  unfold Transient.init at h
  dsimp only at h
  split_ifs at h
  all_goals (have hx := Except.ok.inj h; subst hx; exact h0)

/-- Counterexample of C13: a cold start with the start time 0.2 and a time stepper that
proposes the step 0.1 (the `double`s nearest to them).  The state in which the first pass of
the time loop calls `endStep` is reached with the single step size 0.1, which is not negative,
and has `_time_old = 0.2` and `_dt = 0.1`.  Line 661 stores the `double` sum
`0.30000000000000004`, and `_time - _time_old`, which is `0.10000000000000003` (the `double`
difference is exact here), is not `_dt`. -/
theorem endStep_double_dt_differs :
    Reachable (constantStepEnv (roundReal (1 / 10))) (fun d => 0 ≤ d)
        (firstAttempt (roundReal (2 / 10)) (roundReal (1 / 10))) ∧
      (firstAttempt (roundReal (2 / 10)) (roundReal (1 / 10)))._time_old = roundReal (2 / 10) ∧
      (firstAttempt (roundReal (2 / 10)) (roundReal (1 / 10)))._dt = roundReal (1 / 10) ∧
      (0 : ℚ) ≤ (firstAttempt (roundReal (2 / 10)) (roundReal (1 / 10)))._dt ∧
      ((firstAttempt (roundReal (2 / 10)) (roundReal (1 / 10))).endStep_with roundReal (-1))._time =
        1351079888211149 / 2 ^ 52 ∧
      ((firstAttempt (roundReal (2 / 10)) (roundReal (1 / 10))).endStep_with roundReal (-1))._time_old =
        roundReal (2 / 10) ∧
      ((firstAttempt (roundReal (2 / 10)) (roundReal (1 / 10))).endStep_with roundReal (-1))._dt =
        roundReal (1 / 10) ∧
      roundReal
          (((firstAttempt (roundReal (2 / 10)) (roundReal (1 / 10))).endStep_with roundReal (-1))._time -
            ((firstAttempt (roundReal (2 / 10)) (roundReal (1 / 10))).endStep_with roundReal
              (-1))._time_old) =
        ((firstAttempt (roundReal (2 / 10)) (roundReal (1 / 10))).endStep_with roundReal (-1))._time -
          ((firstAttempt (roundReal (2 / 10)) (roundReal (1 / 10))).endStep_with roundReal
            (-1))._time_old ∧
      ((firstAttempt (roundReal (2 / 10)) (roundReal (1 / 10))).endStep_with roundReal (-1))._dt ≠
        ((firstAttempt (roundReal (2 / 10)) (roundReal (1 / 10))).endStep_with roundReal (-1))._time -
          ((firstAttempt (roundReal (2 / 10)) (roundReal (1 / 10))).endStep_with roundReal
            (-1))._time_old := by
  refine ⟨?_, by decide!, by decide!, by decide!, by decide!, by decide!, by decide!,
    by decide!, by decide!⟩
  exact Reachable.takeStep _ _
    (Reachable.computeDT _ (Reachable.preStep _ (Reachable.execute_head _
      (Reachable.start (startTimeParameters (roundReal (2 / 10)) (roundReal (2 / 10 ^ 14)))
        exampleApp
        (constructedFor (startTimeParameters (roundReal (2 / 10)) (roundReal (2 / 10 ^ 14)))) _
        (by with_unfolding_all rfl) (by with_unfolding_all rfl)))))
    (by decide!)

/-- C13, amended: in every state reached from the construction through `init` and calls of
the time loop of `execute` (`computeDT`, `takeStep`, `endStep`, `incrementStepOrReject`, and
the others of the loop) in which every step size used is non-negative, `_time_old ≤ _time`
holds; and after `endStep` without an explicit time (`input_time = -1`), `_time` is the sum
`_time_old + _dt` that line 661 computes from the `_time_old` and the `_dt` it finds, which it
leaves as they are: in exact arithmetic, and with every rounding `fl` of the sum (the
`double` arithmetic is `fl = roundReal`).  In `double` arithmetic `endStep` keeps
`_time_old ≤ _time` as well, for a step size that is not negative and a `_time_old` that is a
`double`. -/
theorem reachable_time_order (env : Env) (s : Transient) (h : Reachable env (fun d => 0 ≤ d) s) :
    s._time_old ≤ s._time ∧
      (∀ t : Transient,
        (t.endStep (-1))._time = (t.endStep (-1))._time_old + (t.endStep (-1))._dt ∧
          (t.endStep (-1))._time_old = t._time_old ∧ (t.endStep (-1))._dt = t._dt) ∧
      (∀ (fl : ℚ → ℚ) (t : Transient),
        (t.endStep_with fl (-1))._time =
            fl ((t.endStep_with fl (-1))._time_old + (t.endStep_with fl (-1))._dt) ∧
          (t.endStep_with fl (-1))._time_old = t._time_old ∧
          (t.endStep_with fl (-1))._dt = t._dt) ∧
      (∀ t : Transient, roundReal t._time_old = t._time_old → 0 ≤ t._dt →
        (t.endStep_with roundReal (-1))._time_old ≤ (t.endStep_with roundReal (-1))._time) := by
  refine ⟨?_, ?_, ?_, ?_⟩
  · induction h with
    | start parameters app s0 s hc hi =>
      exact init_clock env app s0 s hi (le_of_eq (construct_clock parameters app s0 hc))
    | restored app s s1 _ hi ih => exact init_clock env app s s1 hi ih
    | preExecute s _ ih => exact ih
    | advanceState s _ ih => exact ih
    | incrementStepOrReject s _ _ => exact le_of_eq (incrementStepOrReject_clock env s)
    | execute_head s _ ih => exact execute_head_clock env s ih
    | preStep s _ ih => exact ih
    | computeDT s _ ih => exact ih
    | takeStep s input_dt _ hd ih => exact takeStep_clock env s input_dt ih hd
    | endStep s _ hd _ =>
      obtain ⟨h1, _, h3⟩ := endStep_clock s
      rw [h1, h3]
      linarith
    | postStep s _ ih => exact ih
    | stepsTaken s _ ih => exact ih
  · intro t
    obtain ⟨h1, h2, h3⟩ := endStep_clock t
    exact ⟨by rw [h1, h2, h3], h3, h2⟩
  · intro fl t
    obtain ⟨h1, h2, h3⟩ := endStep_with_clock fl t
    exact ⟨by rw [h1, h2, h3], h3, h2⟩
  · intro t hrep hd
    rw [(endStep_with_clock roundReal t).2.2]
    exact (endStep_with_order t hrep hd).1

theorem coldStart_reachable :
    Reachable (exampleEnv true true 0) (fun d => 0 ≤ d) (coldStart (exampleEnv true true 0)) :=
  Reachable.start validParams exampleApp exampleConstructed _ (by with_unfolding_all rfl)
    (by with_unfolding_all rfl)

theorem firstStep_reachable :
    Reachable (exampleEnv true true 0) (fun d => 0 ≤ d)
      (((((coldStart (exampleEnv true true 0)).execute_head
        (exampleEnv true true 0)).2.preStep.computeDT).takeStep
          (exampleEnv true true 0) (-1)).endStep (-1)) :=
  Reachable.endStep _
    (Reachable.takeStep _ _
      (Reachable.computeDT _ (Reachable.preStep _ (Reachable.execute_head _ coldStart_reachable)))
      (by decide!))
    (by decide!)

/-- Witness of C13: the state after `endStep` in the first pass of the time loop of a cold
start with the default parameters is reached with the single step size 1; its `_time_old`
is 0 and its `_time` is 1. -/
theorem reachable_time_order_witness :
    Reachable (exampleEnv true true 0) (fun d => 0 ≤ d)
      (((((coldStart (exampleEnv true true 0)).execute_head
        (exampleEnv true true 0)).2.preStep.computeDT).takeStep
          (exampleEnv true true 0) (-1)).endStep (-1)) ∧
    (((((coldStart (exampleEnv true true 0)).execute_head
        (exampleEnv true true 0)).2.preStep.computeDT).takeStep
          (exampleEnv true true 0) (-1)).endStep (-1))._time_old = 0 ∧
    (((((coldStart (exampleEnv true true 0)).execute_head
        (exampleEnv true true 0)).2.preStep.computeDT).takeStep
          (exampleEnv true true 0) (-1)).endStep (-1))._time = 1 ∧
    (((((coldStart (exampleEnv true true 0)).execute_head
        (exampleEnv true true 0)).2.preStep.computeDT).takeStep
          (exampleEnv true true 0) (-1)).endStep (-1))._time_old ≤
      (((((coldStart (exampleEnv true true 0)).execute_head
        (exampleEnv true true 0)).2.preStep.computeDT).takeStep
          (exampleEnv true true 0) (-1)).endStep (-1))._time :=
  ⟨firstStep_reachable, by decide!, by decide!,
    (reachable_time_order _ _ firstStep_reachable).1⟩

/-! ### The start-up steps -/

theorem computeConstrainedDT_count (env : Env) (s : Transient) (c : Call)
    (hc : c = Call.incrementMultiAppTStep ExecFlagType.EXEC_TIMESTEP_END ∨ c = Call.acceptStep) :
    (s.computeConstrainedDT env).2.calls.count c = s.calls.count c := by
  have h1 : (s.computeConstrainedDT_trial env).2.calls.count c = s.calls.count c := by
    rcases hc with rfl | rfl <;>
      simp only [Transient.computeConstrainedDT_trial, record, apply_ite Prod.snd,
        apply_ite Transient.calls, List.count_cons, beq_iff_eq, reduceCtorEq, if_false,
        add_zero, ite_self]
  have h2 : ∀ r : ℚ × Transient,
      (Transient.computeConstrainedDT_interval r).2.calls.count c = r.2.calls.count c := by
    intro r
    simp only [Transient.computeConstrainedDT_interval, apply_ite Prod.snd,
      apply_ite Transient.calls, ite_self]
  have h3 : ∀ r : ℚ × Transient,
      (Transient.computeConstrainedDT_target r).2.calls.count c = r.2.calls.count c := by
    intro r
    simp only [Transient.computeConstrainedDT_target, apply_ite Prod.snd,
      apply_ite Transient.calls, ite_self]
  have h4 : ∀ r : ℚ × Transient,
      (Transient.computeConstrainedDT_multiAppBegin env r).2.calls.count c =
        r.2.calls.count c := by
    intro r
    rcases hc with rfl | rfl <;>
      simp only [Transient.computeConstrainedDT_multiAppBegin, record, apply_ite Prod.snd,
        apply_ite Transient.calls, List.count_cons, beq_iff_eq, reduceCtorEq, if_false,
        add_zero, ite_self]
  have h5 : ∀ r : ℚ × Transient,
      (Transient.computeConstrainedDT_multiAppEnd env r).2.calls.count c =
        r.2.calls.count c := by
    intro r
    rcases hc with rfl | rfl <;>
      simp only [Transient.computeConstrainedDT_multiAppEnd, record, apply_ite Prod.snd,
        apply_ite Transient.calls, List.count_cons, beq_iff_eq, reduceCtorEq, if_false,
        add_zero, ite_self]
  unfold Transient.computeConstrainedDT
  rw [h5, h4, h3, h2, h1]

theorem solveStep_setTime_count (env : Env) (s : Transient) (input_dt : ℚ) (c : Call)
    (hc : c = Call.incrementMultiAppTStep ExecFlagType.EXEC_TIMESTEP_END ∨ c = Call.acceptStep) :
    (s.solveStep_setTime env input_dt).calls.count c = s.calls.count c := by
  have h := computeConstrainedDT_count env { s with _dt_old := s._dt } c hc
  simp only [Transient.solveStep_setTime]
  generalize Transient.computeConstrainedDT env { s with _dt_old := s._dt } = r at h ⊢
  rcases hc with rfl | rfl <;>
    simp only [h, record, apply_ite Transient.calls, apply_ite (List.count _),
      List.count_cons, beq_iff_eq, reduceCtorEq, if_false, add_zero, ite_self]

theorem solveStep_multiAppsBegin_count (env : Env) (s : Transient) (c : Call)
    (hc : c = Call.incrementMultiAppTStep ExecFlagType.EXEC_TIMESTEP_END ∨ c = Call.acceptStep) :
    (s.solveStep_multiAppsBegin env).calls.count c = s.calls.count c := by
  rcases hc with rfl | rfl <;>
    simp only [Transient.solveStep_multiAppsBegin, record, apply_ite Transient.calls,
      apply_ite (List.count _), List.count_cons, beq_iff_eq, reduceCtorEq, if_false,
      add_zero, ite_self]

theorem solveStep_setup_count (env : Env) (s : Transient) (c : Call)
    (hc : c = Call.incrementMultiAppTStep ExecFlagType.EXEC_TIMESTEP_END ∨ c = Call.acceptStep) :
    (s.solveStep_setup env).calls.count c = s.calls.count c := by
  rcases hc with rfl | rfl <;>
    simp only [Transient.solveStep_setup, record, apply_ite Transient.calls,
      apply_ite (List.count _), List.count_cons, beq_iff_eq, reduceCtorEq, if_false,
      add_zero, ite_self]

theorem solveStep_step_count (env : Env) (s : Transient) (c : Call)
    (hc : c = Call.incrementMultiAppTStep ExecFlagType.EXEC_TIMESTEP_END ∨ c = Call.acceptStep) :
    (s.solveStep_step env).calls.count c = s.calls.count c := by
  rcases hc with rfl | rfl <;>
    simp only [Transient.solveStep_step, record, List.count_cons, beq_iff_eq, reduceCtorEq,
      if_false, add_zero]

theorem solveStep_relax_count (s : Transient) (c : Call)
    (hc : c = Call.incrementMultiAppTStep ExecFlagType.EXEC_TIMESTEP_END ∨ c = Call.acceptStep) :
    s.solveStep_relax.calls.count c = s.calls.count c := by
  rcases hc with rfl | rfl <;>
    simp only [Transient.solveStep_relax, record, apply_ite Transient.calls,
      apply_ite (List.count _), List.count_cons, beq_iff_eq, reduceCtorEq, if_false,
      add_zero, ite_self]

theorem solveStep_converged_incrementTStep (env : Env) (s : Transient) :
    (s.solveStep_converged env).2.calls.count (Call.incrementMultiAppTStep ExecFlagType.EXEC_TIMESTEP_END) =
      s.calls.count (Call.incrementMultiAppTStep ExecFlagType.EXEC_TIMESTEP_END) := by
  simp only [Transient.solveStep_converged, Transient.relativeSolutionDifferenceNorm, record,
    apply_ite Prod.snd, apply_ite Transient.calls,
    apply_ite (List.count _), List.count_cons, beq_iff_eq, reduceCtorEq, if_false,
    add_zero, ite_self]

theorem solveStep_picard_incrementTStep (env : Env) (s : Transient) (current_dt : ℚ) :
    (s.solveStep_picard env current_dt).calls.count (Call.incrementMultiAppTStep ExecFlagType.EXEC_TIMESTEP_END) =
      s.calls.count (Call.incrementMultiAppTStep ExecFlagType.EXEC_TIMESTEP_END) := by
  simp only [Transient.solveStep_picard, record, apply_ite Transient.calls,
    apply_ite (List.count _), List.count_cons, beq_iff_eq, reduceCtorEq, if_false,
    add_zero, ite_self]

theorem solveStep_incrementTStep (env : Env) (s : Transient) (input_dt : ℚ) :
    (s.solveStep env input_dt).calls.count (Call.incrementMultiAppTStep ExecFlagType.EXEC_TIMESTEP_END) =
      s.calls.count (Call.incrementMultiAppTStep ExecFlagType.EXEC_TIMESTEP_END) := by
  have h1 := solveStep_setTime_count env s input_dt _ (Or.inl rfl)
  have h2 := (solveStep_multiAppsBegin_count env _ _ (Or.inl rfl)).trans h1
  have h3 := (solveStep_setup_count env _ _ (Or.inl rfl)).trans h2
  have h4 := (solveStep_step_count env _ _ (Or.inl rfl)).trans h3
  have h5 := (solveStep_relax_count _ _ (Or.inl rfl)).trans h4
  have h6 := (solveStep_converged_incrementTStep env _).trans h5
  have h7 := (solveStep_picard_incrementTStep env _ (s.solveStep_setTime env input_dt)._dt).trans h6
  unfold Transient.solveStep
  dsimp only
  split_ifs
  · exact h2
  · exact h6
  · exact h7

theorem takeStep_loop_incrementTStep (env : Env) (input_dt : ℚ) (fuel : ℕ) (s : Transient) :
    (Transient.takeStep_loop env input_dt fuel s).calls.count (Call.incrementMultiAppTStep ExecFlagType.EXEC_TIMESTEP_END) =
      s.calls.count (Call.incrementMultiAppTStep ExecFlagType.EXEC_TIMESTEP_END) := by
  induction fuel generalizing s with
  | zero => rfl
  | succ n ih =>
    have hr : (record (Call.restoreMultiApps ExecFlagType.EXEC_TIMESTEP_END false)
          (record (Call.restoreMultiApps ExecFlagType.EXEC_TIMESTEP_BEGIN false) s)).calls.count
            (Call.incrementMultiAppTStep ExecFlagType.EXEC_TIMESTEP_END) = s.calls.count (Call.incrementMultiAppTStep ExecFlagType.EXEC_TIMESTEP_END) := by
      simp [record, List.count_cons]
    unfold Transient.takeStep_loop
    dsimp only
    split_ifs with h1 h2 h3
    · exact (solveStep_incrementTStep env _ input_dt).trans hr
    · exact (ih _).trans ((solveStep_incrementTStep env _ input_dt).trans hr)
    · exact solveStep_incrementTStep env _ input_dt
    · exact (ih _).trans (solveStep_incrementTStep env _ input_dt)
    · rfl

theorem takeStep_incrementTStep (env : Env) (s : Transient) (input_dt : ℚ) :
    (s.takeStep env input_dt).calls.count (Call.incrementMultiAppTStep ExecFlagType.EXEC_TIMESTEP_END) =
      s.calls.count (Call.incrementMultiAppTStep ExecFlagType.EXEC_TIMESTEP_END) := by
  unfold Transient.takeStep
  refine (takeStep_loop_incrementTStep env input_dt _ _).trans ?_
  simp [record, List.count_cons]

theorem endStep_count (s : Transient) (input_time : ℚ) (c : Call)
    (hc : c = Call.incrementMultiAppTStep ExecFlagType.EXEC_TIMESTEP_END ∨ c = Call.acceptStep) :
    (s.endStep input_time).calls.count c = s.calls.count c := by
  rcases hc with rfl | rfl <;>
    simp only [Transient.endStep, record, apply_ite Transient.calls,
      apply_ite (List.count _), List.count_cons, beq_iff_eq, reduceCtorEq, if_false,
      add_zero, ite_self]

/-- The step counter and the number of accepted steps move together in
`incrementStepOrReject`. -/
theorem incrementStepOrReject_incrementTStep (env : Env) (s : Transient) :
    (s.incrementStepOrReject env)._t_step -
        ((s.incrementStepOrReject env).calls.count (Call.incrementMultiAppTStep ExecFlagType.EXEC_TIMESTEP_END) : Int) =
      s._t_step - (s.calls.count (Call.incrementMultiAppTStep ExecFlagType.EXEC_TIMESTEP_END) : Int) := by
  cases hc : s.lastSolveConverged <;> cases hx : s._xfem_repeat_step <;>
    cases hamr : env.LIBMESH_ENABLE_AMR <;>
    by_cases hp : s._picard_max_its > 1 <;>
    simp [Transient.incrementStepOrReject, record, hc, hx, hamr, hp, List.count_cons]

theorem execute_head_incrementTStep (env : Env) (s : Transient) :
    (s.execute_head env).2._t_step -
        ((s.execute_head env).2.calls.count (Call.incrementMultiAppTStep ExecFlagType.EXEC_TIMESTEP_END) : Int) =
      s._t_step - (s.calls.count (Call.incrementMultiAppTStep ExecFlagType.EXEC_TIMESTEP_END) : Int) := by
  have h1 : (s.execute_head env).2._t_step = (s.execute_increment env)._t_step := by
    simp only [Transient.execute_head, Transient.keepGoing, apply_ite Prod.snd,
      apply_ite Transient.toClock, apply_ite Clock._t_step, ite_self]
  have h2 : (s.execute_head env).2.calls = (s.execute_increment env).calls :=
    keepGoing_calls env _
  rw [h1, h2]
  unfold Transient.execute_increment
  dsimp only
  split_ifs
  · exact incrementStepOrReject_incrementTStep env s
  · rfl

theorem construct_start (parameters : InputParameters) (app : App) (s : Transient)
    (h : Transient.construct parameters app = Except.ok s) : s._t_step = 0 ∧ s.calls = [] := by
  unfold Transient.construct at h
  dsimp only at h
  split at h
  · cases h
  · have hx := ok_of_ite_error h
    subst hx
    simp only [apply_ite Transient.toClock, apply_ite Clock._t_step, apply_ite Transient.calls,
      ite_self, Transient.initializers, and_self]

theorem init_incrementTStep (env : Env) (app : App) (s s1 : Transient)
    (h : s.init env app = Except.ok s1) :
    s1.calls.count (Call.incrementMultiAppTStep ExecFlagType.EXEC_TIMESTEP_END) = s.calls.count (Call.incrementMultiAppTStep ExecFlagType.EXEC_TIMESTEP_END) ∧
      ((app.isRecovering = true ∧ s._t_step ≠ 0 ∧ s1._t_step = s._t_step) ∨
        (app.isRecovering = false ∧ s._t_step = 0 ∧ s1._t_step = 1)) := by
  have h0 : (s.init_setup app).calls.count (Call.incrementMultiAppTStep ExecFlagType.EXEC_TIMESTEP_END) =
      s.calls.count (Call.incrementMultiAppTStep ExecFlagType.EXEC_TIMESTEP_END) ∧ (s.init_setup app)._t_step = s._t_step := by
    simp only [Transient.init_setup, record, apply_ite Transient.calls, apply_ite Transient.toClock,
      apply_ite Clock._t_step,
      apply_ite (List.count _), List.count_cons, beq_iff_eq, reduceCtorEq, if_false,
      add_zero, ite_self, and_self]
  have h1 : ((s.init_setup app).init_computeDT env).calls.count (Call.incrementMultiAppTStep ExecFlagType.EXEC_TIMESTEP_END) =
      (s.init_setup app).calls.count (Call.incrementMultiAppTStep ExecFlagType.EXEC_TIMESTEP_END) := by
    simp [Transient.init_computeDT, Transient.computeDT, record, List.count_cons]
  have h2 : ((s.init_setup app).init_computeDT env)._t_step = (s.init_setup app)._t_step := rfl
  unfold Transient.init at h
  dsimp only at h
  split_ifs at h with hr ht ht' hd
  · have hx := Except.ok.inj h
    subst hx
    exact ⟨h0.1, Or.inl ⟨hr, h0.2 ▸ ht, h0.2⟩⟩
  · have hx := Except.ok.inj h
    subst hx
    have ht0 : (s.init_setup app)._t_step = 0 := not_not.mp ht'
    refine ⟨?_, Or.inr ⟨by simpa using hr, h0.2 ▸ ht0, ?_⟩⟩
    · show (record Call.timeIntegratorInit ((s.init_setup app).init_computeDT env)).calls.count
        (Call.incrementMultiAppTStep ExecFlagType.EXEC_TIMESTEP_END) = _
      rw [← h0.1, ← h1]
      simp [record, List.count_cons]
    · show ((s.init_setup app).init_computeDT env)._t_step + 1 = 1
      rw [h2, ht0]; rfl

/-- In every state of a run, `_t_step` is one more than the number of accepted steps. -/
theorem reachable_t_step (env : Env) (p : ℚ → Prop) (s : Transient) (h : Reachable env p s) :
    s._t_step = 1 + (s.calls.count (Call.incrementMultiAppTStep ExecFlagType.EXEC_TIMESTEP_END) : Int) := by
  have key : s._t_step - (s.calls.count (Call.incrementMultiAppTStep ExecFlagType.EXEC_TIMESTEP_END) : Int) = 1 := by
    induction h with
    | start parameters app s0 s hc hi =>
      obtain ⟨c1, c2⟩ := construct_start parameters app s0 hc
      obtain ⟨i1, i2⟩ := init_incrementTStep env app s0 s hi
      rw [i1, c2]
      rcases i2 with ⟨_, i2, _⟩ | ⟨_, _, i2⟩
      · exact absurd c1 i2
      · rw [i2]; simp
    | restored app s s1 _ hi ih =>
      obtain ⟨i1, i2⟩ := init_incrementTStep env app s s1 hi
      rw [i1]
      rcases i2 with ⟨_, _, i2⟩ | ⟨_, i2, i3⟩
      · rw [i2]; exact ih
      · rw [i2] at ih
        rw [i3]
        omega
    | preExecute s _ ih => simpa [Transient.preExecute, record, List.count_cons] using ih
    | advanceState s _ ih => simpa [record, List.count_cons] using ih
    | incrementStepOrReject s _ ih => rw [incrementStepOrReject_incrementTStep]; exact ih
    | execute_head s _ ih => rw [execute_head_incrementTStep]; exact ih
    | preStep s _ ih => simpa [Transient.preStep, record, List.count_cons] using ih
    | computeDT s _ ih => simpa [Transient.computeDT, record, List.count_cons] using ih
    | takeStep s input_dt _ hd ih =>
      rw [takeStep_incrementTStep, (takeStep_frame env s input_dt).2.1]; exact ih
    | endStep s _ hd ih =>
      rw [endStep_count s (-1) _ (Or.inl rfl), (endStep_frame s (-1)).2.1]; exact ih
    | postStep s _ ih => simpa [Transient.postStep, record, List.count_cons] using ih
    | stepsTaken s _ ih => exact ih
  omega

/-- C14: `computeConstrainedDT` takes as unconstrained trial step the previous `_dt`
unchanged when `_t_step <= _n_startup_steps` and the step of the time stepper (`getDT()`)
otherwise, records it in `_unconstrained_dt`, and hands it to `constrainStep`.  In every
state of a run from a cold start, `_t_step` is one more than the number of steps accepted so
far (the calls of `incrementMultiAppTStep(EXEC_TIMESTEP_END)`, which only the acceptance of
a step makes, at line 440); so the step proposed is the previous `_dt` while fewer
than `_n_startup_steps` steps have been accepted, that is for the first `_n_startup_steps`
accepted steps, and the step of the time stepper from then on. -/
theorem startup_steps_reuse_dt (env : Env) (p : ℚ → Prop) (s : Transient)
    (h : Reachable env p s) :
    (∀ t : Transient,
      (t.computeConstrainedDT env).2._unconstrained_dt =
          (if t._t_step > t._n_startup_steps then t.getDT env else t._dt) ∧
        (t.computeConstrainedDT_trial env).1 =
          (env.constrainStep
            { t with
              _unconstrained_dt :=
                if t._t_step > t._n_startup_steps then t.getDT env else t._dt }
            (if t._t_step > t._n_startup_steps then t.getDT env else t._dt)).2) ∧
      s._t_step = 1 + (s.calls.count (Call.incrementMultiAppTStep ExecFlagType.EXEC_TIMESTEP_END) : Int) ∧
      ((s.calls.count (Call.incrementMultiAppTStep ExecFlagType.EXEC_TIMESTEP_END) : Int) < s._n_startup_steps →
        (s.computeConstrainedDT env).2._unconstrained_dt = s._dt) ∧
      (s._n_startup_steps ≤ (s.calls.count (Call.incrementMultiAppTStep ExecFlagType.EXEC_TIMESTEP_END) : Int) →
        (s.computeConstrainedDT env).2._unconstrained_dt = s.getDT env) := by
  have hu : ∀ t : Transient,
      (t.computeConstrainedDT env).2._unconstrained_dt =
        (if t._t_step > t._n_startup_steps then t.getDT env else t._dt) := by
    intro t
    simp only [Transient.computeConstrainedDT, Transient.computeConstrainedDT_multiAppEnd,
      Transient.computeConstrainedDT_multiAppBegin, Transient.computeConstrainedDT_target,
      Transient.computeConstrainedDT_interval, Transient.computeConstrainedDT_trial, record,
      apply_ite Prod.snd, apply_ite Transient.toStepLimits, apply_ite StepLimits._unconstrained_dt,
      ite_self]
  have ht := reachable_t_step env p s h
  refine ⟨fun t => ⟨hu t, rfl⟩, ht, ?_, ?_⟩
  · intro hk
    rw [hu, if_neg]
    rw [ht]
    omega
  · intro hk
    rw [hu, if_pos]
    rw [ht]
    omega
theorem startupStart_reachable :
    Reachable (exampleEnv true true 0) (fun _ => True)
      (coldStartFor startupParameters (exampleEnv true true 0)) :=
  Reachable.start startupParameters exampleApp (constructedFor startupParameters) _
    (by with_unfolding_all rfl) (by with_unfolding_all rfl)

/-- Witness of C14: after the cold start with two start-up steps no step has been accepted,
`_t_step` is 1, and the step proposed is the `_dt` that `init` left. -/
theorem startup_steps_reuse_dt_witness :
    Reachable (exampleEnv true true 0) (fun _ => True)
        (coldStartFor startupParameters (exampleEnv true true 0)) ∧
      (coldStartFor startupParameters (exampleEnv true true 0))._t_step = 1 ∧
      (coldStartFor startupParameters (exampleEnv true true 0))._n_startup_steps = 2 ∧
      ((coldStartFor startupParameters (exampleEnv true true 0)).computeConstrainedDT
          (exampleEnv true true 0)).2._unconstrained_dt =
        (coldStartFor startupParameters (exampleEnv true true 0))._dt :=
  ⟨startupStart_reachable, by decide!, by decide!,
    (startup_steps_reuse_dt (exampleEnv true true 0) (fun _ => True) _
      startupStart_reachable).2.2.1 (by decide!)⟩

/-! ### The step of the MultiApps -/

theorem computeConstrainedDT_master_parameters (env : Env) (s : Transient) :
    (s.computeConstrainedDT_master env).2._use_multiapp_dt = s._use_multiapp_dt := by
  simp only [Transient.computeConstrainedDT_master, Transient.computeConstrainedDT_target,
    Transient.computeConstrainedDT_interval, Transient.computeConstrainedDT_trial, record,
    apply_ite Prod.snd, apply_ite Transient.toTimeParameters,
    apply_ite TimeParameters._use_multiapp_dt, ite_self]

/-- Counterexample of C15: in the state of a cold start with `use_multiapp_dt` set, with a
time stepper that proposes the step 1 and MultiApps that report the step 5, the step of the
master application after its limits is 1, and `computeConstrainedDT` returns 5: the step of
the MultiApps has replaced it. -/
theorem use_multiapp_dt_replaces_master_step :
    (coldStartFor multiAppDtParameters (multiAppStepEnv 5))._use_multiapp_dt = true ∧
    ((coldStartFor multiAppDtParameters (multiAppStepEnv 5)).computeConstrainedDT_master
      (multiAppStepEnv 5)).1 = 1 ∧
    ((coldStartFor multiAppDtParameters (multiAppStepEnv 5)).computeConstrainedDT
      (multiAppStepEnv 5)).1 = 5 := by
  decide!

/-- C15, amended: when `_use_multiapp_dt` is set, the step is chosen by the MultiApps:
`computeConstrainedDT` replaces the step of the master application, whatever its value, by
the step `mBegin` the MultiApps executed on timestep begin report, and returns
`min(mBegin, mEnd)`, with `mEnd` the step of the MultiApps executed on timestep end;
`_at_sync_point` is false. -/
theorem use_multiapp_dt_step (env : Env) (s : Transient) (hu : s._use_multiapp_dt = true) :
    (s.computeConstrainedDT env).1 =
        min (env.computeMultiAppsDT (s.computeConstrainedDT_master env).2
            ExecFlagType.EXEC_TIMESTEP_BEGIN)
          (env.computeMultiAppsDT
            (Transient.computeConstrainedDT_multiAppBegin env
              (s.computeConstrainedDT_master env)).2 ExecFlagType.EXEC_TIMESTEP_END) ∧
      (Transient.computeConstrainedDT_multiAppBegin env (s.computeConstrainedDT_master env)).1 =
        env.computeMultiAppsDT (s.computeConstrainedDT_master env).2
          ExecFlagType.EXEC_TIMESTEP_BEGIN ∧
      (s.computeConstrainedDT env).2._at_sync_point = false := by
  have hp := computeConstrainedDT_master_parameters env s
  rw [hu] at hp
  have hb : Transient.computeConstrainedDT_multiAppBegin env (s.computeConstrainedDT_master env) =
      (env.computeMultiAppsDT (s.computeConstrainedDT_master env).2
          ExecFlagType.EXEC_TIMESTEP_BEGIN,
        { record (Call.computeMultiAppsDT ExecFlagType.EXEC_TIMESTEP_BEGIN)
            (s.computeConstrainedDT_master env).2 with _at_sync_point := false }) := by
    unfold Transient.computeConstrainedDT_multiAppBegin
    dsimp only
    rw [if_pos]
    show ((s.computeConstrainedDT_master env).2._use_multiapp_dt || _) = true
    rw [hp]; rfl
  have hc : s.computeConstrainedDT env =
      Transient.computeConstrainedDT_multiAppEnd env
        (Transient.computeConstrainedDT_multiAppBegin env (s.computeConstrainedDT_master env)) :=
    rfl
  rw [hc]
  generalize s.computeConstrainedDT_master env = m at hb ⊢
  rw [hb]
  unfold Transient.computeConstrainedDT_multiAppEnd
  dsimp only
  refine ⟨?_, rfl, ?_⟩
  · split_ifs with h
    · have h := of_decide_eq_true h
      exact (min_eq_right (le_of_lt h)).symm
    · have h : ¬ _ := fun h' => h (decide_eq_true h')
      exact (min_eq_left (not_lt.mp h)).symm
  · split_ifs <;> rfl

/-- Witness of C15: the state of the counterexample, where both MultiApp steps are 5. -/
theorem use_multiapp_dt_step_witness :
    (coldStartFor multiAppDtParameters (multiAppStepEnv 5))._use_multiapp_dt = true ∧
    ((coldStartFor multiAppDtParameters (multiAppStepEnv 5)).computeConstrainedDT
      (multiAppStepEnv 5)).1 = min 5 5 :=
  ⟨by decide!,
    (use_multiapp_dt_step (multiAppStepEnv 5) (coldStartFor multiAppDtParameters (multiAppStepEnv 5))
      (by decide!)).1⟩

/-- C16: when `_use_multiapp_dt` is false, `computeConstrainedDT` returns
`min(d, mBegin, mEnd)`, where `d` is the step of the master application after the limits of
the time stepper, of the time interval output and of the target time, and `mBegin`, `mEnd`
are the steps the MultiApps report for the timestep begin and timestep end flags; and
whenever the step returned is strictly smaller than `d`, `_at_sync_point` is false. -/
theorem multiapp_dt_minimum (env : Env) (s : Transient) (hu : s._use_multiapp_dt = false) :
    (s.computeConstrainedDT env).1 =
        min (min (s.computeConstrainedDT_master env).1
            (env.computeMultiAppsDT (s.computeConstrainedDT_master env).2
              ExecFlagType.EXEC_TIMESTEP_BEGIN))
          (env.computeMultiAppsDT
            (Transient.computeConstrainedDT_multiAppBegin env
              (s.computeConstrainedDT_master env)).2 ExecFlagType.EXEC_TIMESTEP_END) ∧
      ((s.computeConstrainedDT env).1 < (s.computeConstrainedDT_master env).1 →
        (s.computeConstrainedDT env).2._at_sync_point = false) := by
  have hp := computeConstrainedDT_master_parameters env s
  rw [hu] at hp
  have hc : s.computeConstrainedDT env =
      Transient.computeConstrainedDT_multiAppEnd env
        (Transient.computeConstrainedDT_multiAppBegin env (s.computeConstrainedDT_master env)) :=
    rfl
  rw [hc]
  generalize s.computeConstrainedDT_master env = m at hp ⊢
  obtain ⟨d, u⟩ := m
  simp only at hp
  by_cases h1 : env.computeMultiAppsDT u ExecFlagType.EXEC_TIMESTEP_BEGIN < d
  · have hb : Transient.computeConstrainedDT_multiAppBegin env (d, u) =
        (env.computeMultiAppsDT u ExecFlagType.EXEC_TIMESTEP_BEGIN,
          { record (Call.computeMultiAppsDT ExecFlagType.EXEC_TIMESTEP_BEGIN) u with
            _at_sync_point := false }) := by
      unfold Transient.computeConstrainedDT_multiAppBegin
      dsimp only
      rw [if_pos]
      simp [h1]
    rw [hb]
    unfold Transient.computeConstrainedDT_multiAppEnd
    dsimp only
    rw [min_eq_right (le_of_lt h1)]
    constructor
    · split_ifs with h
      · exact (min_eq_right (le_of_lt (of_decide_eq_true h))).symm
      · exact (min_eq_left (not_lt.mp (fun h' => h (decide_eq_true h')))).symm
    · intro _
      split_ifs <;> rfl
  · have hb : Transient.computeConstrainedDT_multiAppBegin env (d, u) =
        (d, record (Call.computeMultiAppsDT ExecFlagType.EXEC_TIMESTEP_BEGIN) u) := by
      unfold Transient.computeConstrainedDT_multiAppBegin
      dsimp only
      rw [if_neg]
      show ¬ ((u._use_multiapp_dt || _) = true)
      rw [hp]
      simp [h1]
    rw [hb]
    unfold Transient.computeConstrainedDT_multiAppEnd
    dsimp only
    rw [min_eq_left (not_lt.mp h1)]
    constructor
    · split_ifs with h
      · exact (min_eq_right (le_of_lt (of_decide_eq_true h))).symm
      · exact (min_eq_left (not_lt.mp (fun h' => h (decide_eq_true h')))).symm
    · split_ifs with h
      · intro _; rfl
      · intro h2; exact absurd h2 (lt_irrefl _)

/-- Witness of C16: in the state of a cold start with the default parameters, a time stepper
that proposes the step 1 and MultiApps that report the step 1/2, the step returned is 1/2
and `_at_sync_point` is false. -/
theorem multiapp_dt_minimum_witness :
    (coldStart (multiAppStepEnv (1 / 2)))._use_multiapp_dt = false ∧
    ((coldStart (multiAppStepEnv (1 / 2))).computeConstrainedDT_master
      (multiAppStepEnv (1 / 2))).1 = 1 ∧
    ((coldStart (multiAppStepEnv (1 / 2))).computeConstrainedDT
      (multiAppStepEnv (1 / 2))).1 = min (min 1 (1 / 2)) (1 / 2) ∧
    ((coldStart (multiAppStepEnv (1 / 2))).computeConstrainedDT
      (multiAppStepEnv (1 / 2))).2._at_sync_point = false :=
  ⟨by decide!, by decide!,
    (multiapp_dt_minimum (multiAppStepEnv (1 / 2)) (coldStart (multiAppStepEnv (1 / 2)))
      (by decide!)).1.trans (by decide!),
    (multiapp_dt_minimum (multiAppStepEnv (1 / 2)) (coldStart (multiAppStepEnv (1 / 2)))
      (by decide!)).2 (by decide!)⟩

/-! ### The retry of a rejected step -/

theorem takeStep_eq_loop (env : Env) (s : Transient) (input_dt : ℚ) :
    s.takeStep env input_dt =
      Transient.takeStep_loop env input_dt s._picard_max_its s.takeStep_begin := rfl

theorem solveStep_setTime_dt (env : Env) (s : Transient) :
    (s.solveStep_setTime env (-1))._dt =
      (Transient.computeConstrainedDT env { s with _dt_old := s._dt }).1 := by
  simp only [Transient.solveStep_setTime, record, if_true, apply_ite Transient.toClock,
    apply_ite Clock._dt, ite_self]

/-- Counterexample of C17: in a cold start with two start-up steps, a solve that never
converges and a time stepper that halves its step at every `rejectStep`, the first pass
attempts a step of size 1 and fails; the next pass rejects it, the time stepper now proposes
1/2, and `computeConstrainedDT` in the first `solveStep` of the retry returns 1, the size
that failed; the retry ends with `_dt = 1`. -/
theorem retry_reuses_rejected_step :
    (((coldStartFor startupParameters shrinkingEnv).execute_head
      shrinkingEnv).2.execute_body shrinkingEnv)._first = false ∧
    (((coldStartFor startupParameters shrinkingEnv).execute_head
      shrinkingEnv).2.execute_body shrinkingEnv).lastSolveConverged = false ∧
    (((coldStartFor startupParameters shrinkingEnv).execute_head
      shrinkingEnv).2.execute_body shrinkingEnv)._dt = 1 ∧
    ((((coldStartFor startupParameters shrinkingEnv).execute_head
      shrinkingEnv).2.execute_body shrinkingEnv).execute_retry shrinkingEnv).calls.count
        Call.rejectStep = 1 ∧
    shrinkingEnv.getCurrentDT
      ((((coldStartFor startupParameters shrinkingEnv).execute_head
        shrinkingEnv).2.execute_body shrinkingEnv).execute_retry shrinkingEnv) = 1 / 2 ∧
    (((((coldStartFor startupParameters shrinkingEnv).execute_head
      shrinkingEnv).2.execute_body shrinkingEnv).execute_retry
        shrinkingEnv).computeConstrainedDT shrinkingEnv).1 = 1 ∧
    (((((coldStartFor startupParameters shrinkingEnv).execute_head
      shrinkingEnv).2.execute_body shrinkingEnv).execute_head
        shrinkingEnv).2.execute_body shrinkingEnv)._dt = 1 := by
  decide!

theorem computeConstrainedDT_le_master (env : Env) (s : Transient)
    (hu : s._use_multiapp_dt = false) :
    (s.computeConstrainedDT env).1 ≤ (s.computeConstrainedDT_master env).1 := by
  have hp := computeConstrainedDT_master_parameters env s
  rw [hu] at hp
  have hc : s.computeConstrainedDT env =
      Transient.computeConstrainedDT_multiAppEnd env
        (Transient.computeConstrainedDT_multiAppBegin env (s.computeConstrainedDT_master env)) :=
    rfl
  rw [hc]
  generalize s.computeConstrainedDT_master env = m at hp ⊢
  have hb : (Transient.computeConstrainedDT_multiAppBegin env m).1 ≤ m.1 := by
    unfold Transient.computeConstrainedDT_multiAppBegin
    dsimp only
    split_ifs with h
    · have h2 : (m.2._use_multiapp_dt ||
          decide (env.computeMultiAppsDT m.2 ExecFlagType.EXEC_TIMESTEP_BEGIN < m.1)) = true := h
      rw [hp, Bool.false_or] at h2
      exact le_of_lt (of_decide_eq_true h2)
    · exact le_refl _
  have he : ∀ r : ℚ × Transient, (Transient.computeConstrainedDT_multiAppEnd env r).1 ≤ r.1 := by
    intro r
    unfold Transient.computeConstrainedDT_multiAppEnd
    dsimp only
    split_ifs with h
    · exact le_of_lt (of_decide_eq_true h)
    · exact le_refl _
  exact le_trans (he _) hb

theorem computeConstrainedDT_le_getDT (env : Env) (s : Transient)
    (hstart : s._n_startup_steps < s._t_step)
    (hcs : ∀ u d, (env.constrainStep u d).2 ≤ d)
    (hint : s._time_interval = false) (htgt : s._target_time ≤ 0)
    (hu : s._use_multiapp_dt = false) :
    (s.computeConstrainedDT env).1 ≤ s.getDT env := by
  have h1 : (s.computeConstrainedDT_master env).1 ≤ s.getDT env := by
    have ht : ¬ (s._target_time > 0) := not_lt.mpr htgt
    simp only [Transient.computeConstrainedDT_master, Transient.computeConstrainedDT_target,
      Transient.computeConstrainedDT_interval, Transient.computeConstrainedDT_trial, record,
      hint, ht, gt_iff_lt.mpr hstart, if_true, Bool.false_and, decide_False, if_false,
      Bool.false_eq_true]
    exact hcs _ _
  exact le_trans (computeConstrainedDT_le_master env s hu) h1

theorem execute_retry_fields (env : Env) (s : Transient) (hf : s._first = false)
    (hrej : s.lastSolveConverged = false) :
    (s.execute_retry env)._dt = s._dt ∧ (s.execute_retry env)._t_step = s._t_step ∧
      (s.execute_retry env).toTimeParameters = s.toTimeParameters ∧
      (s.execute_retry env).toStepLimits = s.toStepLimits := by
  have hi : (s.execute_increment env)._dt = s._dt ∧ (s.execute_increment env)._t_step = s._t_step ∧
      (s.execute_increment env).toTimeParameters = s.toTimeParameters ∧
      (s.execute_increment env).toStepLimits = s.toStepLimits := by
    simp [Transient.execute_increment, Transient.incrementStepOrReject, record, hf, hrej]
  have hk : (s.execute_head env).2._dt = (s.execute_increment env)._dt ∧
      (s.execute_head env).2._t_step = (s.execute_increment env)._t_step ∧
      (s.execute_head env).2.toTimeParameters = (s.execute_increment env).toTimeParameters ∧
      (s.execute_head env).2.toStepLimits = (s.execute_increment env).toStepLimits := by
    simp only [Transient.execute_head, Transient.keepGoing, apply_ite Prod.snd,
      apply_ite Transient.toClock, apply_ite Clock._dt, apply_ite Clock._t_step,
      apply_ite Transient.toTimeParameters, apply_ite Transient.toStepLimits, ite_self,
      and_self]
  have hr : (s.execute_retry env)._dt = (s.execute_head env).2._dt ∧
      (s.execute_retry env)._t_step = (s.execute_head env).2._t_step ∧
      (s.execute_retry env).toTimeParameters = (s.execute_head env).2.toTimeParameters ∧
      (s.execute_retry env).toStepLimits = (s.execute_head env).2.toStepLimits := by
    simp only [Transient.execute_retry, Transient.takeStep_begin, Transient.preStep,
      Transient.computeDT, record, and_self]
  obtain ⟨i1, i2, i3, i4⟩ := hi
  obtain ⟨k1, k2, k3, k4⟩ := hk
  obtain ⟨r1, r2, r3, r4⟩ := hr
  exact ⟨r1.trans (k1.trans i1), r2.trans (k2.trans i2), r3.trans (k3.trans i3),
    r4.trans (k4.trans i4)⟩

theorem computeConstrainedDT_unconstrained_dt (env : Env) (t : Transient) :
    (t.computeConstrainedDT env).2._unconstrained_dt =
      (if t._t_step > t._n_startup_steps then t.getDT env else t._dt) := by
  simp only [Transient.computeConstrainedDT, Transient.computeConstrainedDT_multiAppEnd,
    Transient.computeConstrainedDT_multiAppBegin, Transient.computeConstrainedDT_target,
    Transient.computeConstrainedDT_interval, Transient.computeConstrainedDT_trial, record,
    apply_ite Prod.snd, apply_ite Transient.toStepLimits,
    apply_ite StepLimits._unconstrained_dt, ite_self]

/-- C17, amended: after a pass of the time loop of `execute` whose attempt is rejected by the
next pass (`lastSolveConverged()` is false), `_t_step` is as it was.  Assume that the step the
time stepper proposes after the rejection is smaller than the rejected step size `_dt`, that
`constrainStep` does not enlarge a step, that the time interval output and the target time
are not set, and that `_use_multiapp_dt` is false.  Then for `_t_step > _n_startup_steps`
the step `computeConstrainedDT` returns in the first `solveStep` of the retry is strictly
smaller than the rejected step size; for `_t_step <= _n_startup_steps` the step it proposes
is the rejected step size itself. -/
theorem retry_step_smaller (env : Env) (s : Transient) (hf : s._first = false)
    (hrej : s.lastSolveConverged = false)
    (hshrink : env.getCurrentDT (s.execute_retry env) < s._dt)
    (hcs : ∀ u d, (env.constrainStep u d).2 ≤ d)
    (hint : s._time_interval = false) (htgt : s._target_time ≤ 0)
    (hu : s._use_multiapp_dt = false) :
    (s.execute_retry env)._t_step = s._t_step ∧
      (s._n_startup_steps < s._t_step →
        ((s.execute_retry env).computeConstrainedDT env).1 < s._dt) ∧
      (s._t_step ≤ s._n_startup_steps →
        ((s.execute_retry env).computeConstrainedDT env).2._unconstrained_dt = s._dt) := by
  obtain ⟨h1, h2, h3, h4⟩ := execute_retry_fields env s hf hrej
  have hn : (s.execute_retry env)._n_startup_steps = s._n_startup_steps :=
    congrArg TimeParameters._n_startup_steps h3
  have hu2 : (s.execute_retry env)._use_multiapp_dt = s._use_multiapp_dt :=
    congrArg TimeParameters._use_multiapp_dt h3
  have hi2 : (s.execute_retry env)._time_interval = s._time_interval :=
    congrArg StepLimits._time_interval h4
  have ht2 : (s.execute_retry env)._target_time = s._target_time :=
    congrArg StepLimits._target_time h4
  refine ⟨h2, ?_, ?_⟩
  · intro hstart
    exact lt_of_le_of_lt
      (computeConstrainedDT_le_getDT env _ (by rw [hn, h2]; exact hstart) hcs
        (by rw [hi2]; exact hint) (by rw [ht2]; exact htgt) (by rw [hu2]; exact hu))
      hshrink
  · intro hstart
    have hu := computeConstrainedDT_unconstrained_dt env (s.execute_retry env)
    rw [hu, hn, h2, h1, if_neg (not_lt.mpr hstart)]

/-- Witness of C17: the cold start without start-up steps (`n_startup_steps = -1`), a solve
that never converges and a time stepper that halves its step at every `rejectStep`: the first
attempt has size 1, the retry 1/2. -/
theorem retry_step_smaller_witness :
    (((coldStartFor noStartupParameters shrinkingEnv).execute_head
      shrinkingEnv).2.execute_body shrinkingEnv).lastSolveConverged = false ∧
    (((coldStartFor noStartupParameters shrinkingEnv).execute_head
      shrinkingEnv).2.execute_body shrinkingEnv)._dt = 1 ∧
    (((((coldStartFor noStartupParameters shrinkingEnv).execute_head
      shrinkingEnv).2.execute_body shrinkingEnv).execute_retry
        shrinkingEnv).computeConstrainedDT shrinkingEnv).1 <
      (((coldStartFor noStartupParameters shrinkingEnv).execute_head
        shrinkingEnv).2.execute_body shrinkingEnv)._dt :=
  ⟨by decide!, by decide!,
    (retry_step_smaller shrinkingEnv
      (((coldStartFor noStartupParameters shrinkingEnv).execute_head
        shrinkingEnv).2.execute_body shrinkingEnv)
      (by decide!) (by decide!) (by decide!)
      (fun _ _ => le_refl _)
      (by decide!) (by decide!) (by decide!)).2.1 (by decide!)⟩

/-! ### The Picard iteration of `takeStep` -/

theorem takeStep_loop_succ (env : Env) (input_dt : ℚ) (fuel : ℕ) (s : Transient) :
    Transient.takeStep_loop env input_dt (fuel + 1) s =
      if decide (toUnsigned s._picard_it < s._picard_max_its) && (s._picard_converged == false)
      then
        if !(s.takeStep_restore.solveStep env input_dt).lastSolveConverged then
          s.takeStep_restore.solveStep env input_dt
        else
          Transient.takeStep_loop env input_dt fuel
            (s.takeStep_restore.solveStep env input_dt).takeStep_increment
      else s := rfl

theorem takeStep_solveSteps_succ (env : Env) (input_dt : ℚ) (fuel : ℕ) (s : Transient) :
    Transient.takeStep_solveSteps env input_dt (fuel + 1) s =
      if decide (toUnsigned s._picard_it < s._picard_max_its) && (s._picard_converged == false)
      then
        if !(s.takeStep_restore.solveStep env input_dt).lastSolveConverged then
          [s.takeStep_restore]
        else
          s.takeStep_restore ::
            Transient.takeStep_solveSteps env input_dt fuel
              (s.takeStep_restore.solveStep env input_dt).takeStep_increment
      else [] := rfl

theorem solveStep_picard_it (env : Env) (s : Transient) (input_dt : ℚ) :
    (s.solveStep env input_dt)._picard_it = s._picard_it := by
  have h0 : ∀ t : Transient, (t.computeConstrainedDT env).2._picard_it = t._picard_it := by
    intro t
    simp only [Transient.computeConstrainedDT, Transient.computeConstrainedDT_multiAppEnd,
      Transient.computeConstrainedDT_multiAppBegin, Transient.computeConstrainedDT_target,
      Transient.computeConstrainedDT_interval, Transient.computeConstrainedDT_trial, record,
      apply_ite Prod.snd, apply_ite Transient.toPicardStatus,
      apply_ite PicardStatus._picard_it, ite_self]
  have h1 : (s.solveStep_setTime env input_dt)._picard_it = s._picard_it := by
    have h := h0 { s with _dt_old := s._dt }
    simp only [Transient.solveStep_setTime]
    generalize Transient.computeConstrainedDT env { s with _dt_old := s._dt } = r at h ⊢
    simp only [h, record, apply_ite Transient.toPicardStatus,
      apply_ite PicardStatus._picard_it, ite_self]
  have h2 : ∀ t : Transient, (t.solveStep_multiAppsBegin env)._picard_it = t._picard_it := by
    intro t
    simp only [Transient.solveStep_multiAppsBegin, record, apply_ite Transient.toPicardStatus,
      apply_ite PicardStatus._picard_it, ite_self]
  have h3 : ∀ t : Transient, (t.solveStep_setup env)._picard_it = t._picard_it := by
    intro t
    simp only [Transient.solveStep_setup, record, apply_ite Transient.toPicardStatus,
      apply_ite PicardStatus._picard_it, ite_self]
  have h4 : ∀ t : Transient, (t.solveStep_step env)._picard_it = t._picard_it := fun _ => rfl
  have h5 : ∀ t : Transient, t.solveStep_relax._picard_it = t._picard_it := by
    intro t
    simp only [Transient.solveStep_relax, record, apply_ite Transient.toPicardStatus,
      apply_ite PicardStatus._picard_it, ite_self]
  have h6 : ∀ t : Transient, (t.solveStep_converged env).2._picard_it = t._picard_it := by
    intro t
    simp only [Transient.solveStep_converged, Transient.relativeSolutionDifferenceNorm, record,
      apply_ite Prod.snd, apply_ite Transient.toPicardStatus,
      apply_ite PicardStatus._picard_it, ite_self]
  have h7 : ∀ (t : Transient) (d : ℚ), (t.solveStep_picard env d)._picard_it = t._picard_it := by
    intro t d
    simp only [Transient.solveStep_picard, record, apply_ite Transient.toPicardStatus,
      apply_ite PicardStatus._picard_it, ite_self]
  unfold Transient.solveStep
  dsimp only
  split_ifs
  · rw [h2, h1]
  · rw [h6, h5, h4, h3, h2, h1]
  · rw [h7, h6, h5, h4, h3, h2, h1]

theorem takeStep_restore_fields (s : Transient) :
    s.takeStep_restore._picard_it = s._picard_it ∧
      s.takeStep_restore._picard_max_its = s._picard_max_its := by
  simp only [Transient.takeStep_restore, record, apply_ite Transient.toPicardStatus,
    apply_ite PicardStatus._picard_it, apply_ite Transient.toPicardParameters,
    apply_ite PicardParameters._picard_max_its, ite_self, and_self]

/-- The state of the next pass of the loop of `takeStep`: the index has grown by one and
the bound is the same. -/
theorem takeStep_pass_fields (env : Env) (input_dt : ℚ) (s : Transient) :
    (s.takeStep_restore.solveStep env input_dt).takeStep_increment._picard_it =
        s._picard_it + 1 ∧
      (s.takeStep_restore.solveStep env input_dt).takeStep_increment._picard_max_its =
        s._picard_max_its ∧
      (s.takeStep_restore.solveStep env input_dt).takeStep_increment._picard_converged =
        (s.takeStep_restore.solveStep env input_dt)._picard_converged := by
  refine ⟨?_, ?_, rfl⟩
  · show (s.takeStep_restore.solveStep env input_dt)._picard_it + 1 = _
    rw [solveStep_picard_it, (takeStep_restore_fields s).1]
  · show (s.takeStep_restore.solveStep env input_dt)._picard_max_its = _
    rw [congrArg PicardParameters._picard_max_its (solveStep_parameters env _ input_dt).2,
      (takeStep_restore_fields s).2]

theorem toUnsigned_natCast (k : ℕ) (h : k < 2 ^ 32) : toUnsigned (k : Int) = k := by
  unfold toUnsigned
  have : ((k : Int) % 2 ^ 32) = (k : Int) := Int.emod_eq_of_lt (by positivity) (by exact_mod_cast h)
  rw [this]
  simp

/-- The pass condition of the loop of `takeStep`, for an index in the range of the bound. -/
theorem takeStep_condition (s : Transient) (k : ℕ) (hk : s._picard_it = k)
    (hkN : k ≤ s._picard_max_its) (hN : s._picard_max_its < 2 ^ 32) :
    (decide (toUnsigned s._picard_it < s._picard_max_its) && (s._picard_converged == false)) =
        true ↔ k < s._picard_max_its ∧ s._picard_converged = false := by
  rw [hk, toUnsigned_natCast k (lt_of_le_of_lt hkN hN)]
  simp

theorem takeStep_solveSteps_ne_nil (env : Env) (input_dt : ℚ) (fuel : ℕ) (s : Transient)
    (h : Transient.takeStep_solveSteps env input_dt fuel s ≠ []) :
    s._picard_converged = false := by
  cases fuel with
  | zero => exact absurd rfl h
  | succ n =>
    rw [takeStep_solveSteps_succ] at h
    split_ifs at h with h1 h2
    · simp only [Bool.and_eq_true, beq_iff_eq] at h1; exact h1.2
    · simp only [Bool.and_eq_true, beq_iff_eq] at h1; exact h1.2
    · exact absurd rfl h

/-- Every sub-iteration that is followed by another one had a converged solve and did not
pass the Picard test. -/
theorem takeStep_solveSteps_dropLast (env : Env) (input_dt : ℚ) (fuel : ℕ) (s : Transient) :
    ∀ e ∈ (Transient.takeStep_solveSteps env input_dt fuel s).dropLast,
      (e.solveStep env input_dt).lastSolveConverged = true ∧
        (e.solveStep env input_dt)._picard_converged = false := by
  induction fuel generalizing s with
  | zero => intro e he; simp [Transient.takeStep_solveSteps] at he
  | succ n ih =>
    obtain ⟨_, _, p3⟩ := takeStep_pass_fields env input_dt s
    rw [takeStep_solveSteps_succ]
    split_ifs with h1 h2
    · intro e he; simp at he
    · intro e he
      cases hl : Transient.takeStep_solveSteps env input_dt n
          (s.takeStep_restore.solveStep env input_dt).takeStep_increment with
      | nil => rw [hl] at he; simp at he
      | cons b l =>
        have hne : Transient.takeStep_solveSteps env input_dt n
            (s.takeStep_restore.solveStep env input_dt).takeStep_increment ≠ [] := by
          rw [hl]; simp
        rw [hl, List.dropLast_cons₂] at he
        rcases List.mem_cons.1 he with rfl | he
        · refine ⟨by simpa using h2, ?_⟩
          rw [← p3]
          exact takeStep_solveSteps_ne_nil env input_dt n _ hne
        · exact ih _ e (by rw [hl]; exact he)
    · intro e he; simp at he

/-- On exit of the loop the index has grown by the number of sub-iterations whose solve
converged. -/
theorem takeStep_loop_picard_it (env : Env) (input_dt : ℚ) (fuel : ℕ) (s : Transient) :
    (Transient.takeStep_loop env input_dt fuel s)._picard_it =
      s._picard_it +
        ((Transient.takeStep_solveSteps env input_dt fuel s).countP
          (fun e => (e.solveStep env input_dt).lastSolveConverged) : ℕ) := by
  induction fuel generalizing s with
  | zero => simp [Transient.takeStep_loop, Transient.takeStep_solveSteps]
  | succ n ih =>
    obtain ⟨p1, _, _⟩ := takeStep_pass_fields env input_dt s
    rw [takeStep_loop_succ, takeStep_solveSteps_succ]
    split_ifs with h1 h2
    · have h2' : (s.takeStep_restore.solveStep env input_dt).lastSolveConverged = false := by
        simpa using h2
      rw [solveStep_picard_it, (takeStep_restore_fields s).1]
      simp [List.countP_cons, h2']
    · have h2' : (s.takeStep_restore.solveStep env input_dt).lastSolveConverged = true := by
        simpa using h2
      rw [ih, p1]
      simp only [List.countP_cons, h2', if_true]
      push_cast
      ring
    · simp

/-- The loop ends before `_picard_max_its` passes only after a sub-iteration whose solve did
not converge or whose Picard test passed, or when `_picard_converged` holds on entry. -/
theorem takeStep_solveSteps_exit (env : Env) (input_dt : ℚ) (fuel : ℕ) (s : Transient)
    (k : ℕ) (hk : s._picard_it = k) (hkN : k ≤ s._picard_max_its)
    (hN : s._picard_max_its < 2 ^ 32) (hf : s._picard_max_its - k ≤ fuel) :
    (Transient.takeStep_solveSteps env input_dt fuel s).length = s._picard_max_its - k ∨
      (∃ e, (Transient.takeStep_solveSteps env input_dt fuel s).getLast? = some e ∧
        ((e.solveStep env input_dt).lastSolveConverged = false ∨
          (e.solveStep env input_dt)._picard_converged = true)) ∨
      (Transient.takeStep_solveSteps env input_dt fuel s = [] ∧ s._picard_converged = true) := by
  induction fuel generalizing s k with
  | zero => left; simp only [Transient.takeStep_solveSteps, List.length_nil]; omega
  | succ n ih =>
    have hc := takeStep_condition s k hk hkN hN
    obtain ⟨p1, p2, p3⟩ := takeStep_pass_fields env input_dt s
    rw [takeStep_solveSteps_succ]
    split_ifs with h1 h2
    · right; left
      exact ⟨_, rfl, Or.inl (by simpa using h2)⟩
    · have hlt := (hc.1 h1).1
      rcases ih (s.takeStep_restore.solveStep env input_dt).takeStep_increment (k + 1)
          (by rw [p1, hk]; push_cast; rfl) (by rw [p2]; omega) (by rw [p2]; exact hN)
          (by rw [p2]; omega) with h | ⟨e, he, h⟩ | ⟨h, hp⟩
      · left
        rw [p2] at h
        simp only [List.length_cons, h]
        omega
      · right; left
        refine ⟨e, ?_, h⟩
        rw [List.getLast?_cons, he]
        rfl
      · right; left
        refine ⟨s.takeStep_restore, by rw [h]; rfl, Or.inr ?_⟩
        rw [← p3]; exact hp
    · by_cases hp : s._picard_converged = true
      · right; right; exact ⟨rfl, hp⟩
      · left
        have : ¬ k < s._picard_max_its := fun hlt => h1 (hc.2 ⟨hlt, by simpa using hp⟩)
        simp only [List.length_nil]
        omega

/-- The state the loop of `takeStep` returns is that of its last call of `solveStep`, with
the index raised when that solve converged. -/
theorem takeStep_loop_last (env : Env) (input_dt : ℚ) (fuel : ℕ) (s : Transient) :
    (Transient.takeStep_solveSteps env input_dt fuel s = [] →
        Transient.takeStep_loop env input_dt fuel s = s) ∧
      (∀ e, (Transient.takeStep_solveSteps env input_dt fuel s).getLast? = some e →
        Transient.takeStep_loop env input_dt fuel s =
          if (e.solveStep env input_dt).lastSolveConverged then
            (e.solveStep env input_dt).takeStep_increment
          else e.solveStep env input_dt) := by
  induction fuel generalizing s with
  | zero => exact ⟨fun _ => rfl, fun e he => by simp [Transient.takeStep_solveSteps] at he⟩
  | succ n ih =>
    rw [takeStep_loop_succ, takeStep_solveSteps_succ]
    split_ifs with h1 h2
    · refine ⟨fun h => by simp at h, fun e he => ?_⟩
      have h2' : (s.takeStep_restore.solveStep env input_dt).lastSolveConverged = false := by
        simpa using h2
      simp only [List.getLast?_singleton, Option.some.injEq] at he
      subst he
      rw [h2']
      rfl
    · refine ⟨fun h => by simp at h, fun e he => ?_⟩
      have h2' : (s.takeStep_restore.solveStep env input_dt).lastSolveConverged = true := by
        simpa using h2
      obtain ⟨i1, i2⟩ := ih (s.takeStep_restore.solveStep env input_dt).takeStep_increment
      cases hl : Transient.takeStep_solveSteps env input_dt n
          (s.takeStep_restore.solveStep env input_dt).takeStep_increment with
      | nil =>
        rw [hl] at he
        simp only [List.getLast?_singleton, Option.some.injEq] at he
        subst he
        rw [i1 hl, h2']
        rfl
      | cons b l =>
        rw [hl, List.getLast?_cons_cons] at he
        exact i2 e (by rw [hl]; exact he)
    · exact ⟨fun _ => rfl, fun e he => by simp at he⟩

theorem takeStep_entries_ne_nil (env : Env) (s : Transient) (input_dt : ℚ)
    (hN : 1 ≤ s._picard_max_its) (hN32 : s._picard_max_its < 2 ^ 32)
    (hpc : s._picard_converged = false) : s.takeStep_entries env input_dt ≠ [] := by
  have hc := (takeStep_condition s.takeStep_begin 0 rfl (Nat.zero_le _) hN32).2
    ⟨hN, hpc⟩
  unfold Transient.takeStep_entries
  obtain ⟨n, hn⟩ : ∃ n, s._picard_max_its = n + 1 := ⟨s._picard_max_its - 1, by omega⟩
  rw [hn, takeStep_solveSteps_succ, if_pos hc]
  split_ifs <;> simp

/-- C19: for `_picard_max_its = N > 1`, when every sub-iteration of `takeStep` ends with
`lastSolveConverged()` true (the solve and the MultiApps converged), without XFEM repeat and
without passing the Picard test, all `N` sub-iterations are made and the exhausted iteration
is not a failure: `lastSolveConverged()` is true after `takeStep` and after `endStep`,
`endStep` sets `_time = _time_old + _dt`, and the following `incrementStepOrReject` accepts
the step: `_t_step` advances by one and `_time_old` becomes `_time`, the old `_time_old`
plus `_dt`. -/
theorem picard_exhausted_is_accepted (env : Env) (s : Transient) (input_dt : ℚ)
    (hN : 1 < s._picard_max_its) (hN32 : s._picard_max_its < 2 ^ 32)
    (hpc : s._picard_converged = false)
    (hall : ∀ e ∈ s.takeStep_entries env input_dt,
      (e.solveStep env input_dt).lastSolveConverged = true ∧
        (e.solveStep env input_dt)._xfem_repeat_step = false ∧
        (e.solveStep env input_dt)._picard_converged = false) :
    (s.takeStep_entries env input_dt).length = s._picard_max_its ∧
      (s.takeStep env input_dt)._picard_it = s._picard_max_its ∧
      (s.takeStep env input_dt).lastSolveConverged = true ∧
      ((s.takeStep env input_dt).endStep (-1)).lastSolveConverged = true ∧
      ((s.takeStep env input_dt).endStep (-1))._time =
        ((s.takeStep env input_dt).endStep (-1))._time_old +
          ((s.takeStep env input_dt).endStep (-1))._dt ∧
      (((s.takeStep env input_dt).endStep (-1)).incrementStepOrReject env)._t_step =
        s._t_step + 1 ∧
      (((s.takeStep env input_dt).endStep (-1)).incrementStepOrReject env)._time_old =
        (((s.takeStep env input_dt).endStep (-1)).incrementStepOrReject env)._time ∧
      (((s.takeStep env input_dt).endStep (-1)).incrementStepOrReject env)._time_old =
        s._time_old + (s.takeStep env input_dt)._dt := by
  have hN1 : 1 ≤ s._picard_max_its := le_of_lt hN
  have hne := takeStep_entries_ne_nil env s input_dt hN1 hN32 hpc
  have hlen : (s.takeStep_entries env input_dt).length = s._picard_max_its := by
    rcases takeStep_solveSteps_exit env input_dt s._picard_max_its s.takeStep_begin 0 rfl
        (Nat.zero_le _) hN32 (le_refl _) with h | ⟨e, he, h⟩ | ⟨h, _⟩
    · exact h
    · obtain ⟨a1, _, a3⟩ := hall e (List.mem_of_getLast?_eq_some he)
      rcases h with h | h
      · rw [a1] at h; cases h
      · rw [a3] at h; cases h
    · exact absurd h hne
  have hcount : (s.takeStep_entries env input_dt).countP
      (fun e => (e.solveStep env input_dt).lastSolveConverged) =
        (s.takeStep_entries env input_dt).length :=
    List.countP_eq_length.2 (fun e he => (hall e he).1)
  obtain ⟨e, he⟩ : ∃ e, (s.takeStep_entries env input_dt).getLast? = some e := by
    cases h : (s.takeStep_entries env input_dt).getLast? with
    | none => exact absurd (List.getLast?_eq_none_iff.1 h) hne
    | some e => exact ⟨e, rfl⟩
  obtain ⟨a1, a2, _⟩ := hall e (List.mem_of_getLast?_eq_some he)
  have hlast : s.takeStep env input_dt = (e.solveStep env input_dt).takeStep_increment := by
    rw [takeStep_eq_loop, (takeStep_loop_last env input_dt _ _).2 e he, a1]
    rfl
  have hconv : (s.takeStep env input_dt).lastSolveConverged = true := by rw [hlast]; exact a1
  have hx : (s.takeStep env input_dt)._xfem_repeat_step = false := by rw [hlast]; exact a2
  obtain ⟨f1, f2, f3, _, _⟩ := endStep_solveFrame (s.takeStep env input_dt) (-1)
  have hconv2 : ((s.takeStep env input_dt).endStep (-1)).lastSolveConverged = true := by
    simp only [Transient.lastSolveConverged, f1, f2] at hconv ⊢
    exact hconv
  have hx2 : ((s.takeStep env input_dt).endStep (-1))._xfem_repeat_step = false := by
    rw [f3]; exact hx
  obtain ⟨c1, c2, c3⟩ := endStep_clock (s.takeStep env input_dt)
  obtain ⟨i1, i2, i3⟩ := incrementStepOrReject_accepted env _ hconv2 hx2
  have ht := ((takeStep_frame env s input_dt).trans_step (endStep_frame _ (-1)))
  refine ⟨hlen, ?_, hconv, hconv2, ?_, ?_, ?_, ?_⟩
  · rw [takeStep_eq_loop, takeStep_loop_picard_it]
    show (0 : Int) + ((s.takeStep_entries env input_dt).countP _ : ℕ) = _
    rw [hcount, hlen, zero_add]
  · rw [c1, c2, c3]
  · rw [i1, ht.2.1]
  · rw [i2, i3]
  · rw [i2, c1, (takeStep_frame env s input_dt).1]

/-- Witness of C19: the cold start with three Picard iterations of the witness of C18; the
step of size 1 is accepted after the three sub-iterations. -/
theorem picard_exhausted_is_accepted_witness :
    1 < (coldStartFor picardParameters (exampleEnv true true 0))._picard_max_its ∧
      ((coldStartFor picardParameters (exampleEnv true true 0)).takeStep_entries
        (exampleEnv true true 0) (-1)).length = 3 ∧
      ((((coldStartFor picardParameters (exampleEnv true true 0)).takeStep
        (exampleEnv true true 0) (-1)).endStep (-1)).incrementStepOrReject
          (exampleEnv true true 0))._t_step = 1 + 1 ∧
      ((((coldStartFor picardParameters (exampleEnv true true 0)).takeStep
        (exampleEnv true true 0) (-1)).endStep (-1)).incrementStepOrReject
          (exampleEnv true true 0))._time_old = 1 :=
  ⟨by decide!,
    (picard_exhausted_is_accepted (exampleEnv true true 0)
      (coldStartFor picardParameters (exampleEnv true true 0)) (-1)
      (by decide!) (by decide!) (by decide!) (by decide!)).1,
    (picard_exhausted_is_accepted (exampleEnv true true 0)
      (coldStartFor picardParameters (exampleEnv true true 0)) (-1)
      (by decide!) (by decide!) (by decide!) (by decide!)).2.2.2.2.2.1.trans (by decide!),
    (picard_exhausted_is_accepted (exampleEnv true true 0)
      (coldStartFor picardParameters (exampleEnv true true 0)) (-1)
      (by decide!) (by decide!) (by decide!) (by decide!)).2.2.2.2.2.2.2.trans (by decide!)⟩

/-! ### The notifications of the time stepper -/

/-- Counterexample of C20: in a cold start with the default parameters (one Picard
iteration), a solve that converges and MultiApps executed on timestep end that do not
converge, the first attempt calls `acceptStep` once, and the next pass rejects it and calls
`rejectStep`: the attempt receives both, and `_t_step` does not advance.  In a cold start with
three Picard iterations whose solves converge and whose Picard test never passes, the first
attempt is accepted (`_t_step` advances by one), and `acceptStep` is not called in it. -/
theorem notifications_disagree :
    ((callsSince ((coldStart endFailEnv).execute_head endFailEnv).2
        ((((coldStart endFailEnv).execute_head endFailEnv).2.execute_body
          endFailEnv).execute_increment endFailEnv)).count Call.acceptStep = 1 ∧
      (callsSince ((coldStart endFailEnv).execute_head endFailEnv).2
        ((((coldStart endFailEnv).execute_head endFailEnv).2.execute_body
          endFailEnv).execute_increment endFailEnv)).count Call.rejectStep = 1 ∧
      ((((coldStart endFailEnv).execute_head endFailEnv).2.execute_body
          endFailEnv).execute_increment endFailEnv)._t_step =
        ((coldStart endFailEnv).execute_head endFailEnv).2._t_step) ∧
    (((((coldStartFor picardParameters (exampleEnv true true 0)).execute_head
        (exampleEnv true true 0)).2.execute_body (exampleEnv true true 0)).execute_increment
          (exampleEnv true true 0))._t_step =
        ((coldStartFor picardParameters (exampleEnv true true 0)).execute_head
          (exampleEnv true true 0)).2._t_step + 1 ∧
      (callsSince ((coldStartFor picardParameters (exampleEnv true true 0)).execute_head
          (exampleEnv true true 0)).2
        ((((coldStartFor picardParameters (exampleEnv true true 0)).execute_head
          (exampleEnv true true 0)).2.execute_body (exampleEnv true true 0)).execute_increment
            (exampleEnv true true 0))).count Call.acceptStep = 0) := by
  decide!

theorem solveStep_converged_acceptStep (env : Env) (s : Transient)
    (hN : s._picard_max_its ≤ 1)
    (hc : (s.solveStep_converged env).2.lastSolveConverged = true)
    (hx : (s.solveStep_converged env).2._xfem_repeat_step = false) :
    (s.solveStep_converged env).2.calls.count Call.acceptStep =
      s.calls.count Call.acceptStep + 1 := by
  unfold Transient.solveStep_converged at hc hx ⊢
  by_cases h1 : s.lastSolveConverged = true
  · rw [if_pos h1] at hc hx ⊢
    by_cases h2 : (env.haveXFEM s && decide (s._xfem_update_count < s._max_xfem_update) &&
        env.updateMeshXFEM s) = true
    · rw [if_pos h2] at hx
      exact absurd hx (by simp)
    · rw [if_neg h2]
      simp only [Transient.relativeSolutionDifferenceNorm, record, apply_ite Transient.calls,
        apply_ite Transient.toPicardParameters, apply_ite PicardParameters._picard_max_its,
        apply_ite (List.count _), List.count_cons, beq_iff_eq, reduceCtorEq, if_false,
        add_zero, ite_self, hN, if_true, beq_self_eq_true]
  · rw [if_neg h1] at hc
    exact absurd hc h1

theorem solveStep_picard_acceptStep (env : Env) (s : Transient) (current_dt : ℚ)
    (hN : s._picard_max_its ≤ 1) :
    (s.solveStep_picard env current_dt).calls.count Call.acceptStep =
      s.calls.count Call.acceptStep := by
  have h : ¬ (s._picard_max_its > 1) := not_lt.mpr hN
  simp [Transient.solveStep_picard, record, h, List.count_cons]

theorem lastSolveConverged_of_multiapps (s : Transient)
    (h : (!s._multiapps_converged) = true) : s.lastSolveConverged = false := by
  simp only [Bool.not_eq_true'] at h
  simp only [Transient.lastSolveConverged, h, Bool.false_and]

theorem solveStep_converged_returns (env : Env) (s : Transient)
    (h : (s.solveStep_converged env).1 = true) :
    (s.solveStep_converged env).2.lastSolveConverged = false := by
  unfold Transient.solveStep_converged at h ⊢
  by_cases h1 : s.lastSolveConverged = true
  · rw [if_pos h1] at h ⊢
    by_cases h2 : (env.haveXFEM s && decide (s._xfem_update_count < s._max_xfem_update) &&
        env.updateMeshXFEM s) = true
    · rw [if_pos h2] at h
      cases h
    · rw [if_neg h2] at h ⊢
      exact lastSolveConverged_of_multiapps _ h
  · rw [if_neg h1] at h
    cases h

/-- With a single Picard iteration, a `solveStep` that ends converged and without XFEM repeat
has called `acceptStep` once. -/
theorem solveStep_acceptStep (env : Env) (s : Transient) (input_dt : ℚ)
    (hN : s._picard_max_its ≤ 1)
    (hc : (s.solveStep env input_dt).lastSolveConverged = true)
    (hx : (s.solveStep env input_dt)._xfem_repeat_step = false) :
    (s.solveStep env input_dt).calls.count Call.acceptStep =
      s.calls.count Call.acceptStep + 1 := by
  have p1 := solveStep_setTime_parameters env s input_dt
  have p2 := p1.trans_parameters (solveStep_multiAppsBegin_parameters env _)
  have p3 := p2.trans_parameters (solveStep_setup_parameters env _)
  have p4 := p3.trans_parameters (solveStep_step_parameters env _)
  have p5 := p4.trans_parameters (solveStep_relax_parameters _)
  have p6 := p5.trans_parameters (solveStep_converged_parameters env _)
  have hN5 := hN
  rw [← congrArg PicardParameters._picard_max_its p5.2] at hN5
  have hN6 := hN
  rw [← congrArg PicardParameters._picard_max_its p6.2] at hN6
  have h1 := solveStep_setTime_count env s input_dt _ (Or.inr rfl)
  have h2 := (solveStep_multiAppsBegin_count env _ _ (Or.inr rfl)).trans h1
  have h3 := (solveStep_setup_count env _ _ (Or.inr rfl)).trans h2
  have h4 := (solveStep_step_count env _ _ (Or.inr rfl)).trans h3
  have h5 := (solveStep_relax_count _ _ (Or.inr rfl)).trans h4
  have f7 := solveStep_picard_solveFrame env
    (((((s.solveStep_setTime env input_dt).solveStep_multiAppsBegin env).solveStep_setup
      env).solveStep_step env).solveStep_relax.solveStep_converged env).2
    (s.solveStep_setTime env input_dt)._dt
  have h7 := solveStep_picard_acceptStep env
    (((((s.solveStep_setTime env input_dt).solveStep_multiAppsBegin env).solveStep_setup
      env).solveStep_step env).solveStep_relax.solveStep_converged env).2
    (s.solveStep_setTime env input_dt)._dt hN6
  unfold Transient.solveStep at hc hx ⊢
  dsimp only at hc hx ⊢
  split_ifs at hc hx ⊢ with g1 g2
  · simp only [Bool.not_eq_true'] at g1
    simp only [Transient.lastSolveConverged, g1, Bool.false_and] at hc
    cases hc
  · rw [solveStep_converged_returns env _ g2] at hc
    cases hc
  · obtain ⟨a1, a2, a3, _, _⟩ := f7
    have hc6 : (((((s.solveStep_setTime env input_dt).solveStep_multiAppsBegin env).solveStep_setup
        env).solveStep_step env).solveStep_relax.solveStep_converged env).2.lastSolveConverged =
          true := by
      simp only [Transient.lastSolveConverged, a1, a2] at hc ⊢
      exact hc
    rw [a3] at hx
    rw [h7, solveStep_converged_acceptStep env _ hN5 hc6 hx, h5]

theorem takeStep_restore_first (s : Transient) (h : s._picard_it = 0) :
    s.takeStep_restore = s := by
  unfold Transient.takeStep_restore
  rw [if_neg]
  rw [h]
  exact lt_irrefl _

/-- With a single Picard iteration, a `takeStep` that ends converged and without XFEM repeat
has called `acceptStep` once. -/
theorem takeStep_acceptStep (env : Env) (s : Transient) (input_dt : ℚ)
    (hN : s._picard_max_its = 1) (hpc : s._picard_converged = false)
    (hc : (s.takeStep env input_dt).lastSolveConverged = true)
    (hx : (s.takeStep env input_dt)._xfem_repeat_step = false) :
    (s.takeStep env input_dt).calls.count Call.acceptStep =
      s.calls.count Call.acceptStep + 1 := by
  have hb : s.takeStep_begin.calls.count Call.acceptStep = s.calls.count Call.acceptStep := by
    simp [Transient.takeStep_begin, record, List.count_cons]
  have hcond := (takeStep_condition s.takeStep_begin 0 rfl (Nat.zero_le _)
    (by show s._picard_max_its < 2 ^ 32; rw [hN]; norm_num)).2
    ⟨by show 0 < s._picard_max_its; rw [hN]; norm_num, hpc⟩
  have hloop : s.takeStep env input_dt =
      Transient.takeStep_loop env input_dt (0 + 1) s.takeStep_begin := by
    rw [takeStep_eq_loop, hN]
  rw [hloop, takeStep_loop_succ, if_pos hcond, takeStep_restore_first _ rfl] at hc hx ⊢
  have hN1 : s.takeStep_begin._picard_max_its ≤ 1 := le_of_eq hN
  split_ifs at hc hx ⊢ with h1
  · rw [solveStep_acceptStep env _ input_dt hN1 hc hx, hb]
  · exact (solveStep_acceptStep env _ input_dt hN1 hc hx).trans (by rw [hb])

theorem incrementStepOrReject_calls (env : Env) (s : Transient) :
    s.calls <:+ (s.incrementStepOrReject env).calls ∧
      (s.incrementStepOrReject env).calls.count Call.rejectStep =
        s.calls.count Call.rejectStep + (if s.lastSolveConverged then 0 else 1) ∧
      (s.incrementStepOrReject env).calls.count Call.acceptStep =
        s.calls.count Call.acceptStep := by
  cases hc : s.lastSolveConverged <;> cases hx : s._xfem_repeat_step <;>
    cases hamr : env.LIBMESH_ENABLE_AMR <;>
    by_cases hp : s._picard_max_its > 1 <;>
    simp [Transient.incrementStepOrReject, record, hc, hx, hamr, hp, List.count_cons,
      List.suffix_cons_iff]

theorem incrementStepOrReject_accepts (env : Env) (s : Transient) :
    (s.incrementStepOrReject env)._t_step = s._t_step + 1 ↔
      (s.lastSolveConverged = true ∧ s._xfem_repeat_step = false) := by
  cases hc : s.lastSolveConverged <;> cases hx : s._xfem_repeat_step <;>
    cases hamr : env.LIBMESH_ENABLE_AMR <;>
    by_cases hp : s._picard_max_its > 1 <;>
    simp [Transient.incrementStepOrReject, record, hc, hx, hamr, hp]

theorem execute_body_frame (env : Env) (s : Transient) : StepFrame s (s.execute_body env) := by
  have h1 : StepFrame s (((s.preStep.computeDT).takeStep env (-1)).endStep (-1)).postStep :=
    ((((record_frame Call.stepperPreStep (by simp) s).trans_step
      (record_frame Call.computeStep (by simp) _)).trans_step
        (takeStep_frame env _ _)).trans_step (endStep_frame _ _)).trans_step
          (record_frame Call.stepperPostStep (by simp) _)
  exact h1

/-- The outcome of the solve and the calls of `acceptStep` that a pass of the time loop
leaves are those of its `takeStep`. -/
theorem execute_body_solve (env : Env) (s : Transient) :
    (s.execute_body env).lastSolveConverged =
        ((s.preStep.computeDT).takeStep env (-1)).lastSolveConverged ∧
      (s.execute_body env)._xfem_repeat_step =
        ((s.preStep.computeDT).takeStep env (-1))._xfem_repeat_step ∧
      (s.execute_body env).calls.count Call.acceptStep =
        ((s.preStep.computeDT).takeStep env (-1)).calls.count Call.acceptStep := by
  obtain ⟨f1, f2, f3, _, _⟩ := endStep_solveFrame ((s.preStep.computeDT).takeStep env (-1)) (-1)
  have hc := endStep_count ((s.preStep.computeDT).takeStep env (-1)) (-1) _ (Or.inr rfl)
  refine ⟨?_, ?_, ?_⟩
  · show ((((s.preStep.computeDT).takeStep env (-1)).endStep (-1))._multiapps_converged &&
      (((s.preStep.computeDT).takeStep env (-1)).endStep (-1)).stepper_converged) = _
    rw [f1, f2]
    rfl
  · exact f3
  · show (record Call.stepperPostStep
      (((s.preStep.computeDT).takeStep env (-1)).endStep (-1))).calls.count Call.acceptStep = _
    rw [← hc]
    simp [record, List.count_cons]

/-- C20, amended: for every step attempt of the time loop of `execute` (a pass of the loop
and the `incrementStepOrReject` of the next), `rejectStep` is called in the attempt exactly
once if the attempt is rejected (`lastSolveConverged()` is false) and not at all otherwise;
the attempt is accepted (`_t_step` advances by one) if and only if the last solve converged
and there is no XFEM repeat; an accepted attempt receives no `rejectStep`; and with
`_picard_max_its = 1` (and `_picard_converged` false on entry) an accepted attempt has
received `acceptStep` exactly once. -/
theorem step_notifications (env : Env) (s : Transient) :
    ((callsSince s ((s.execute_body env).incrementStepOrReject env)).count Call.rejectStep =
        if (s.execute_body env).lastSolveConverged then 0 else 1) ∧
      (((s.execute_body env).incrementStepOrReject env)._t_step = s._t_step + 1 ↔
        ((s.execute_body env).lastSolveConverged = true ∧
          (s.execute_body env)._xfem_repeat_step = false)) ∧
      (((s.execute_body env).incrementStepOrReject env)._t_step = s._t_step + 1 →
        (callsSince s ((s.execute_body env).incrementStepOrReject env)).count
          Call.rejectStep = 0) ∧
      (s._picard_max_its = 1 → s._picard_converged = false →
        ((s.execute_body env).incrementStepOrReject env)._t_step = s._t_step + 1 →
        (callsSince s ((s.execute_body env).incrementStepOrReject env)).count
          Call.acceptStep = 1) := by
  obtain ⟨_, b2, b3, b4⟩ := execute_body_frame env s
  obtain ⟨i1, i2, i3⟩ := incrementStepOrReject_calls env (s.execute_body env)
  have hs : s.calls <:+ ((s.execute_body env).incrementStepOrReject env).calls :=
    b3.trans i1
  have hacc := incrementStepOrReject_accepts env (s.execute_body env)
  rw [b2] at hacc
  have hrej : (callsSince s ((s.execute_body env).incrementStepOrReject env)).count
      Call.rejectStep = if (s.execute_body env).lastSolveConverged then 0 else 1 := by
    rw [callsSince_count _ _ hs, i2, b4]
    omega
  refine ⟨hrej, hacc, ?_, ?_⟩
  · intro h
    rw [hrej, (hacc.1 h).1]
    rfl
  · intro hN hpc h
    obtain ⟨hc, hx⟩ := hacc.1 h
    obtain ⟨e1, e2, e3⟩ := execute_body_solve env s
    rw [e1] at hc
    rw [e2] at hx
    have ht := takeStep_acceptStep env (s.preStep.computeDT) (-1) hN hpc hc hx
    rw [callsSince_count _ _ hs, i3, e3, ht]
    have : (s.preStep.computeDT).calls.count Call.acceptStep = s.calls.count Call.acceptStep := by
      simp [Transient.preStep, Transient.computeDT, record, List.count_cons]
    rw [this]
    omega

/-! ### The penalty interface kernel -/

/-- C28: for every test value, shape value, penalty, `u` and neighbor value, each of the
four entries of `computeQpJacobian` is the exact derivative of the matching
`computeQpResidual`: replacing `u` by `u + h * phi` changes the Element residual by
`h * J(ElementElement)` and the Neighbor residual by `h * J(NeighborElement)`, replacing the
neighbor value by `n + h * phi_neighbor` changes them by `h * J(ElementNeighbor)` and
`h * J(NeighborNeighbor)`; and both residuals are zero when `u` equals the neighbor
value. -/
theorem penalty_jacobian_exact (k : PenaltyInterfaceDiffusion) (h : ℚ) :
    ((k.perturbU h).computeQpResidual DGResidualType.Element -
        k.computeQpResidual DGResidualType.Element =
      h * k.computeQpJacobian DGJacobianType.ElementElement) ∧
    ((k.perturbU h).computeQpResidual DGResidualType.Neighbor -
        k.computeQpResidual DGResidualType.Neighbor =
      h * k.computeQpJacobian DGJacobianType.NeighborElement) ∧
    ((k.perturbNeighbor h).computeQpResidual DGResidualType.Element -
        k.computeQpResidual DGResidualType.Element =
      h * k.computeQpJacobian DGJacobianType.ElementNeighbor) ∧
    ((k.perturbNeighbor h).computeQpResidual DGResidualType.Neighbor -
        k.computeQpResidual DGResidualType.Neighbor =
      h * k.computeQpJacobian DGJacobianType.NeighborNeighbor) ∧
    (k._u k._qp = k._neighbor_value k._qp →
      k.computeQpResidual DGResidualType.Element = 0 ∧
        k.computeQpResidual DGResidualType.Neighbor = 0) := by
  refine ⟨?_, ?_, ?_, ?_, ?_⟩
  · simp only [PenaltyInterfaceDiffusion.computeQpResidual,
      PenaltyInterfaceDiffusion.computeQpJacobian, PenaltyInterfaceDiffusion.perturbU,
      Function.update_same]
    ring
  · simp only [PenaltyInterfaceDiffusion.computeQpResidual,
      PenaltyInterfaceDiffusion.computeQpJacobian, PenaltyInterfaceDiffusion.perturbU,
      Function.update_same]
    ring
  · simp only [PenaltyInterfaceDiffusion.computeQpResidual,
      PenaltyInterfaceDiffusion.computeQpJacobian, PenaltyInterfaceDiffusion.perturbNeighbor,
      Function.update_same]
    ring
  · simp only [PenaltyInterfaceDiffusion.computeQpResidual,
      PenaltyInterfaceDiffusion.computeQpJacobian, PenaltyInterfaceDiffusion.perturbNeighbor,
      Function.update_same]
    ring
  · intro hu
    simp only [PenaltyInterfaceDiffusion.computeQpResidual, hu, sub_self, mul_zero, and_self]

/-! ### The bound on the stretch of the step -/

theorem computeConstrainedDT_trial_fields (env : Env) (s : Transient) :
    (s.computeConstrainedDT_trial env).2._time_interval = s._time_interval ∧
      (s.computeConstrainedDT_trial env).2._time = s._time ∧
      (s.computeConstrainedDT_trial env).2._timestep_tolerance = s._timestep_tolerance ∧
      (s.computeConstrainedDT_trial env).2._target_time = s._target_time ∧
      (s.computeConstrainedDT_trial env).2._use_multiapp_dt = s._use_multiapp_dt := by
  simp only [Transient.computeConstrainedDT_trial, record, and_self]

/-- With the time interval output disabled, the step of the master application is the step
that `constrainStep` returns, unless the test of line 732 holds: then it is the difference
`_target_time - _time` of line 734. -/
theorem computeConstrainedDT_master_with_cases (fl : ℚ → ℚ) (env : Env) (s : Transient)
    (hint : s._time_interval = false) :
    ((¬ (0 < s._target_time ∧
          fl (fl (s._time + (s.computeConstrainedDT_trial env).1) + s._timestep_tolerance) ≥
            s._target_time) ∧
        (s.computeConstrainedDT_master_with fl env).1 = (s.computeConstrainedDT_trial env).1) ∨
      ((0 < s._target_time ∧
          fl (fl (s._time + (s.computeConstrainedDT_trial env).1) + s._timestep_tolerance) ≥
            s._target_time) ∧
        (s.computeConstrainedDT_master_with fl env).1 = fl (s._target_time - s._time))) ∧
      (s.computeConstrainedDT_master_with fl env).2._use_multiapp_dt = s._use_multiapp_dt := by
  obtain ⟨h1, h2, h3, h4, h5⟩ := computeConstrainedDT_trial_fields env s
  rw [hint] at h1
  unfold Transient.computeConstrainedDT_master_with
  generalize s.computeConstrainedDT_trial env = r at h1 h2 h3 h4 h5 ⊢
  have hi : Transient.computeConstrainedDT_interval_with fl r = r := by
    unfold Transient.computeConstrainedDT_interval_with
    dsimp only
    rw [h1, Bool.false_and, if_neg (by simp)]
  rw [hi]
  unfold Transient.computeConstrainedDT_target_with
  dsimp only
  rw [h2, h3, h4]
  split_ifs with h
  · simp only [Bool.and_eq_true, decide_eq_true_eq] at h
    exact ⟨Or.inr ⟨h, rfl⟩, h5⟩
  · simp only [Bool.and_eq_true, decide_eq_true_eq] at h
    exact ⟨Or.inl ⟨h, rfl⟩, h5⟩

/-- The limits of the MultiApps only decrease the step when `_use_multiapp_dt` is false. -/
theorem computeConstrainedDT_multiApp_le (env : Env) (m : ℚ × Transient)
    (hp : m.2._use_multiapp_dt = false) :
    (Transient.computeConstrainedDT_multiAppEnd env
      (Transient.computeConstrainedDT_multiAppBegin env m)).1 ≤ m.1 := by
  have hb : (Transient.computeConstrainedDT_multiAppBegin env m).1 ≤ m.1 := by
    unfold Transient.computeConstrainedDT_multiAppBegin
    dsimp only
    split_ifs with h
    · have h2 : (m.2._use_multiapp_dt ||
          decide (env.computeMultiAppsDT m.2 ExecFlagType.EXEC_TIMESTEP_BEGIN < m.1)) = true := h
      rw [hp, Bool.false_or] at h2
      exact le_of_lt (of_decide_eq_true h2)
    · exact le_refl _
  have he : ∀ r : ℚ × Transient, (Transient.computeConstrainedDT_multiAppEnd env r).1 ≤ r.1 := by
    intro r
    unfold Transient.computeConstrainedDT_multiAppEnd
    dsimp only
    split_ifs with h
    · exact le_of_lt (of_decide_eq_true h)
    · exact le_refl _
  exact le_trans (he _) hb

/-- Counterexample of C27.  In the state of a cold start with `timestep_tolerance = -1`
(`use_multiapp_dt` false, no time interval output, no target time), `constrainStep` hands
back the step 1 and `computeConstrainedDT` returns 1, which is not `<= 1 + (-1)`.  And with
the tolerance 0, in `double` arithmetic: in the state of a cold start with the start time 0.1
and the trial step 0.2, with the target time `0.30000000000000004`, the `double` sum
`0.1 + 0.2 + 0` reaches the target time, and `computeConstrainedDT` returns the difference
`0.30000000000000004 - 0.1`, which is `0.20000000000000004`, more than `0.2 + 0`. -/
theorem computeConstrainedDT_exceeds_stretch :
    ((coldStartFor negativeToleranceParameters (exampleEnv true true 0))._use_multiapp_dt =
        false ∧
      (coldStartFor negativeToleranceParameters (exampleEnv true true 0))._time_interval =
        false ∧
      (coldStartFor negativeToleranceParameters (exampleEnv true true 0))._timestep_tolerance =
        -1 ∧
      ((coldStartFor negativeToleranceParameters
        (exampleEnv true true 0)).computeConstrainedDT_trial (exampleEnv true true 0)).1 = 1 ∧
      ((coldStartFor negativeToleranceParameters
        (exampleEnv true true 0)).computeConstrainedDT (exampleEnv true true 0)).1 = 1 ∧
      ((coldStartFor negativeToleranceParameters
        (exampleEnv true true 0)).computeConstrainedDT_with roundReal
          (exampleEnv true true 0)).1 = 1 ∧
      ¬ (((coldStartFor negativeToleranceParameters
          (exampleEnv true true 0)).computeConstrainedDT (exampleEnv true true 0)).1 ≤
        ((coldStartFor negativeToleranceParameters
          (exampleEnv true true 0)).computeConstrainedDT_trial (exampleEnv true true 0)).1 +
          (coldStartFor negativeToleranceParameters
            (exampleEnv true true 0))._timestep_tolerance)) ∧
    ((coldStartFor (startTimeParameters (roundReal (1 / 10)) 0)
        (constantStepEnv (roundReal (2 / 10))))._use_multiapp_dt = false ∧
      (coldStartFor (startTimeParameters (roundReal (1 / 10)) 0)
        (constantStepEnv (roundReal (2 / 10))))._time_interval = false ∧
      (coldStartFor (startTimeParameters (roundReal (1 / 10)) 0)
        (constantStepEnv (roundReal (2 / 10))))._timestep_tolerance = 0 ∧
      (coldStartFor (startTimeParameters (roundReal (1 / 10)) 0)
        (constantStepEnv (roundReal (2 / 10))))._time = roundReal (1 / 10) ∧
      (((coldStartFor (startTimeParameters (roundReal (1 / 10)) 0)
        (constantStepEnv (roundReal (2 / 10)))).setTargetTime
          (roundReal (roundReal (1 / 10) + roundReal (2 / 10)))).computeConstrainedDT_trial
            (constantStepEnv (roundReal (2 / 10)))).1 = roundReal (2 / 10) ∧
      (((coldStartFor (startTimeParameters (roundReal (1 / 10)) 0)
        (constantStepEnv (roundReal (2 / 10)))).setTargetTime
          (roundReal (roundReal (1 / 10) + roundReal (2 / 10)))).computeConstrainedDT_with
            roundReal (constantStepEnv (roundReal (2 / 10)))).1 = 7205759403792795 / 2 ^ 55 ∧
      roundReal (roundReal (2 / 10) + 0) = 7205759403792794 / 2 ^ 55 ∧
      ¬ ((((coldStartFor (startTimeParameters (roundReal (1 / 10)) 0)
        (constantStepEnv (roundReal (2 / 10)))).setTargetTime
          (roundReal (roundReal (1 / 10) + roundReal (2 / 10)))).computeConstrainedDT_with
            roundReal (constantStepEnv (roundReal (2 / 10)))).1 ≤
        roundReal (roundReal (2 / 10) + 0))) := by
  refine ⟨by decide!, by decide!⟩

/-- C27, amended: when `_use_multiapp_dt` is false and the time interval output is disabled,
the MultiApp limits only decrease the step of the master application, and that step is the
trial step `d` handed back by `constrainStep` unless the target time limit applies
(`_target_time > 0` and `_time + d + _timestep_tolerance >= _target_time`, the test of line
732), in which case it is the difference `_target_time - _time` of line 734.  So the step
returned by `computeConstrainedDT` does not exceed `d`, or the target time limit applies and
it does not exceed `_target_time - _time`.  This holds for every rounding `fl` of the sums and
differences: in exact arithmetic (`fl = id`) and in `double` arithmetic (`fl = roundReal`). -/
theorem computeConstrainedDT_stretch (fl : ℚ → ℚ) (env : Env) (s : Transient)
    (hu : s._use_multiapp_dt = false) (hint : s._time_interval = false) :
    (s.computeConstrainedDT_with fl env).1 ≤ (s.computeConstrainedDT_master_with fl env).1 ∧
      ((¬ (0 < s._target_time ∧
            fl (fl (s._time + (s.computeConstrainedDT_trial env).1) + s._timestep_tolerance) ≥
              s._target_time) ∧
          (s.computeConstrainedDT_master_with fl env).1 =
            (s.computeConstrainedDT_trial env).1) ∨
        ((0 < s._target_time ∧
            fl (fl (s._time + (s.computeConstrainedDT_trial env).1) + s._timestep_tolerance) ≥
              s._target_time) ∧
          (s.computeConstrainedDT_master_with fl env).1 = fl (s._target_time - s._time))) ∧
      ((s.computeConstrainedDT_with fl env).1 ≤ (s.computeConstrainedDT_trial env).1 ∨
        ((0 < s._target_time ∧
            fl (fl (s._time + (s.computeConstrainedDT_trial env).1) + s._timestep_tolerance) ≥
              s._target_time) ∧
          (s.computeConstrainedDT_with fl env).1 ≤ fl (s._target_time - s._time))) := by
  obtain ⟨h2, h3⟩ := computeConstrainedDT_master_with_cases fl env s hint
  have h1 : (s.computeConstrainedDT_with fl env).1 ≤
      (s.computeConstrainedDT_master_with fl env).1 :=
    computeConstrainedDT_multiApp_le env _ (h3.trans hu)
  refine ⟨h1, h2, ?_⟩
  rcases h2 with ⟨_, e⟩ | ⟨c, e⟩
  · exact Or.inl (e ▸ h1)
  · exact Or.inr ⟨c, e ▸ h1⟩

/-- Witness of C27: in `double` arithmetic, in the state of a cold start with the start time
0.1, the tolerance 0 and the trial step 0.2, with the target time `0.30000000000000004`, the
target time limit applies and stretches the step: `computeConstrainedDT` returns the
difference `0.30000000000000004 - 0.1`, which is `0.20000000000000004`, more than the trial
step. -/
theorem computeConstrainedDT_stretch_witness :
    ((coldStartFor (startTimeParameters (roundReal (1 / 10)) 0)
        (constantStepEnv (roundReal (2 / 10)))).setTargetTime
          (roundReal (roundReal (1 / 10) + roundReal (2 / 10))))._use_multiapp_dt = false ∧
      ((coldStartFor (startTimeParameters (roundReal (1 / 10)) 0)
        (constantStepEnv (roundReal (2 / 10)))).setTargetTime
          (roundReal (roundReal (1 / 10) + roundReal (2 / 10))))._time_interval = false ∧
      (((coldStartFor (startTimeParameters (roundReal (1 / 10)) 0)
        (constantStepEnv (roundReal (2 / 10)))).setTargetTime
          (roundReal (roundReal (1 / 10) + roundReal (2 / 10)))).computeConstrainedDT_trial
            (constantStepEnv (roundReal (2 / 10)))).1 <
        (((coldStartFor (startTimeParameters (roundReal (1 / 10)) 0)
          (constantStepEnv (roundReal (2 / 10)))).setTargetTime
            (roundReal (roundReal (1 / 10) + roundReal (2 / 10)))).computeConstrainedDT_with
              roundReal (constantStepEnv (roundReal (2 / 10)))).1 ∧
      (((coldStartFor (startTimeParameters (roundReal (1 / 10)) 0)
        (constantStepEnv (roundReal (2 / 10)))).setTargetTime
          (roundReal (roundReal (1 / 10) + roundReal (2 / 10)))).computeConstrainedDT_with
            roundReal (constantStepEnv (roundReal (2 / 10)))).1 ≤
        (((coldStartFor (startTimeParameters (roundReal (1 / 10)) 0)
          (constantStepEnv (roundReal (2 / 10)))).setTargetTime
            (roundReal (roundReal (1 / 10) +
              roundReal (2 / 10)))).computeConstrainedDT_master_with
                roundReal (constantStepEnv (roundReal (2 / 10)))).1 :=
  ⟨by decide!, by decide!, by decide!,
    (computeConstrainedDT_stretch roundReal (constantStepEnv (roundReal (2 / 10)))
      ((coldStartFor (startTimeParameters (roundReal (1 / 10)) 0)
        (constantStepEnv (roundReal (2 / 10)))).setTargetTime
          (roundReal (roundReal (1 / 10) + roundReal (2 / 10))))
      (by decide!) (by decide!)).1⟩

/-! ### The resume from a checkpoint -/

/-- Counterexample of C22: an application that recovers and does not restart, with the state
restored from a checkpoint with `_t_step = 3`, `_dt = 1` and `_dt_old = 2`: `init` succeeds
and leaves `_dt_old = 1`, not the restored 2. -/
theorem init_recover_overwrites_dt_old :
    recoverApp.isRecovering = true ∧ recoverApp.isRestarting = false ∧
      checkpointExample._t_step ≠ 0 ∧ checkpointExample._dt_old = 2 ∧
      ∃ s1, checkpointExample.init (exampleEnv true true 0) recoverApp = Except.ok s1 ∧
        s1._dt_old = 1 := by
  refine ⟨by decide!, by decide!, by decide!, by decide!,
    { (checkpointExample.init_setup recoverApp) with
      _dt_old := (checkpointExample.init_setup recoverApp)._dt }, ?_, ?_⟩
  · with_unfolding_all rfl
  · decide!

/-- C22, amended: on resume from a checkpoint (the application recovers and does not
restart, the restored `_t_step` is not 0), `init` succeeds without recomputing the step size
(its calls are `initialSetup`, the `init` of the time stepper and the initial output:
`computeStep` is not called) and leaves `_time`, `_time_old`, `_t_step` and `_dt` at their
restored values; `_dt_old` is set to the restored `_dt` (line 311). -/
theorem init_recover (env : Env) (app : App) (s : Transient)
    (hr : app.isRecovering = true) (hrs : app.isRestarting = false) (ht : s._t_step ≠ 0) :
    ∃ s1, s.init env app = Except.ok s1 ∧
      s1._time = s._time ∧ s1._time_old = s._time_old ∧ s1._t_step = s._t_step ∧
      s1._dt = s._dt ∧ s1._dt_old = s._dt ∧
      s1.calls =
        [Call.outputStep ExecFlagType.EXEC_INITIAL, Call.stepperInit, Call.initialSetup] ++
          s.calls ∧
      Call.computeStep ∉ callsSince s s1 := by
  have hsetup : s.init_setup app =
      record (Call.outputStep ExecFlagType.EXEC_INITIAL)
        (record Call.stepperInit (record Call.initialSetup s)) := by
    unfold Transient.init_setup
    dsimp only
    rw [hrs, if_neg (by simp)]
  have hstep : (s.init_setup app)._t_step = s._t_step := by rw [hsetup]; rfl
  refine ⟨{ (s.init_setup app) with _dt_old := (s.init_setup app)._dt }, ?_, ?_⟩
  · unfold Transient.init
    dsimp only
    rw [if_pos hr, if_neg (by rw [hstep]; exact ht)]
  · have hcalls : ({ (s.init_setup app) with _dt_old := (s.init_setup app)._dt } :
        Transient).calls =
        [Call.outputStep ExecFlagType.EXEC_INITIAL, Call.stepperInit, Call.initialSetup] ++
          s.calls := by
      rw [hsetup]; rfl
    refine ⟨?_, ?_, ?_, ?_, ?_, hcalls, ?_⟩
    · rw [hsetup]; rfl
    · rw [hsetup]; rfl
    · rw [hsetup]; rfl
    · rw [hsetup]; rfl
    · rw [hsetup]; rfl
    · rw [callsSince_append _ _ _ hcalls]
      decide

/-- Witness of C22: the checkpoint of the counterexample. -/
theorem init_recover_witness :
    recoverApp.isRecovering = true ∧ recoverApp.isRestarting = false ∧
      checkpointExample._t_step ≠ 0 ∧
      ∃ s1, checkpointExample.init (exampleEnv true true 0) recoverApp = Except.ok s1 ∧
        s1._time = checkpointExample._time ∧ s1._time_old = checkpointExample._time_old ∧
        s1._t_step = checkpointExample._t_step ∧ s1._dt = checkpointExample._dt ∧
        s1._dt_old = checkpointExample._dt :=
  ⟨by decide!, by decide!, by decide!,
    (init_recover (exampleEnv true true 0) recoverApp checkpointExample (by decide!)
      (by decide!) (by decide!)).imp
      (fun _ h => ⟨h.1, h.2.1, h.2.2.1, h.2.2.2.1, h.2.2.2.2.1, h.2.2.2.2.2.1⟩)⟩

/-! ### The MultiApps executed on timestep begin do not converge -/

theorem solveStep_setTime_untouched (env : Env) (s : Transient) (input_dt : ℚ) :
    (s.solveStep_setTime env input_dt).solution = s.solution ∧
      (s.solveStep_setTime env input_dt).calls.count Call.step = s.calls.count Call.step := by
  have h0 : ∀ t : Transient, (t.computeConstrainedDT env).2.solution = t.solution ∧
      (t.computeConstrainedDT env).2.calls.count Call.step = t.calls.count Call.step := by
    intro t
    simp only [Transient.computeConstrainedDT, Transient.computeConstrainedDT_multiAppEnd,
      Transient.computeConstrainedDT_multiAppBegin, Transient.computeConstrainedDT_target,
      Transient.computeConstrainedDT_interval, Transient.computeConstrainedDT_trial, record,
      apply_ite Prod.snd, apply_ite Transient.toSolutionData,
      apply_ite SolutionData.solution, apply_ite Transient.calls, apply_ite (List.count _),
      List.count_cons, beq_iff_eq, reduceCtorEq, if_false, add_zero, ite_self, and_self]
  have h := h0 { s with _dt_old := s._dt }
  simp only [Transient.solveStep_setTime]
  generalize Transient.computeConstrainedDT env { s with _dt_old := s._dt } = r at h ⊢
  simp only [h, record, apply_ite Transient.toSolutionData, apply_ite SolutionData.solution,
    apply_ite Transient.calls, apply_ite (List.count _), List.count_cons, beq_iff_eq,
    reduceCtorEq, if_false, add_zero, ite_self, and_self]

theorem solveStep_multiAppsBegin_untouched (env : Env) (s : Transient) :
    (s.solveStep_multiAppsBegin env).solution = s.solution ∧
      (s.solveStep_multiAppsBegin env).calls.count Call.step = s.calls.count Call.step := by
  simp only [Transient.solveStep_multiAppsBegin, record, apply_ite Transient.toSolutionData,
    apply_ite SolutionData.solution, apply_ite Transient.calls, apply_ite (List.count _),
    List.count_cons, beq_iff_eq, reduceCtorEq, if_false, add_zero, ite_self, and_self]

theorem getLast?_of_not_mem_dropLast {α : Type} (l : List α) (a : α) (h : a ∈ l)
    (hd : a ∉ l.dropLast) : l.getLast? = some a := by
  induction l with
  | nil => cases h
  | cons b t ih =>
    cases t with
    | nil =>
      rcases List.mem_singleton.1 h with rfl
      rfl
    | cons c u =>
      rw [List.dropLast_cons₂] at hd
      rw [List.getLast?_cons_cons]
      rcases List.mem_cons.1 h with rfl | h
      · exact absurd (List.mem_cons_self _ _) hd
      · exact ih h (fun hm => hd (List.mem_cons_of_mem _ hm))

/-- C26: when the MultiApps executed on timestep begin do not converge in a call of
`solveStep`, the call returns at line 516: the solve (`step`) is not called and the solution
is as it was, `lastSolveConverged()` is false afterwards; in a `takeStep` this call of
`solveStep` is the last one and `takeStep` returns its state; and the next
`incrementStepOrReject` (after `endStep`) rejects the attempt: `_t_step` and `_time_old` are
those of the start of the attempt and `rejectStep` is called once. -/
theorem begin_multiapps_failure (env : Env) (e : Transient) (input_dt : ℚ)
    (hb : ((e.solveStep_setTime env input_dt).solveStep_multiAppsBegin env)._multiapps_converged
      = false) :
    e.solveStep env input_dt =
        (e.solveStep_setTime env input_dt).solveStep_multiAppsBegin env ∧
      (callsSince e (e.solveStep env input_dt)).count Call.step = 0 ∧
      (e.solveStep env input_dt).solution = e.solution ∧
      (e.solveStep env input_dt).lastSolveConverged = false ∧
      (∀ s : Transient, e ∈ s.takeStep_entries env input_dt →
        (s.takeStep_entries env input_dt).getLast? = some e ∧
          s.takeStep env input_dt = e.solveStep env input_dt ∧
          (∀ input_time : ℚ,
            (((s.takeStep env input_dt).endStep input_time).incrementStepOrReject env)._t_step =
                s._t_step ∧
              (((s.takeStep env input_dt).endStep input_time).incrementStepOrReject
                  env)._time_old = s._time_old ∧
              (callsSince s
                (((s.takeStep env input_dt).endStep input_time).incrementStepOrReject
                  env)).count Call.rejectStep = 1)) := by
  have hret : e.solveStep env input_dt =
      (e.solveStep_setTime env input_dt).solveStep_multiAppsBegin env := by
    unfold Transient.solveStep
    dsimp only
    rw [if_pos (by rw [hb]; rfl)]
  have hconv : (e.solveStep env input_dt).lastSolveConverged = false := by
    rw [hret]
    simp only [Transient.lastSolveConverged, hb, Bool.false_and]
  obtain ⟨a1, a2⟩ := solveStep_setTime_untouched env e input_dt
  obtain ⟨b1, b2⟩ := solveStep_multiAppsBegin_untouched env (e.solveStep_setTime env input_dt)
  refine ⟨hret, ?_, ?_, hconv, ?_⟩
  · rw [callsSince_count _ _ (solveStep_frame env e input_dt).2.2.1, hret, b2, a2]
    omega
  · rw [hret, b1, a1]
  · intro s he
    have hnd : e ∉ (s.takeStep_entries env input_dt).dropLast := by
      intro hm
      have := (takeStep_solveSteps_dropLast env input_dt _ _ e hm).1
      rw [hconv] at this
      cases this
    have hlast := getLast?_of_not_mem_dropLast _ e he hnd
    have htake : s.takeStep env input_dt = e.solveStep env input_dt := by
      rw [takeStep_eq_loop, (takeStep_loop_last env input_dt _ _).2 e hlast, hconv]
      rfl
    refine ⟨hlast, htake, ?_⟩
    intro input_time
    obtain ⟨f1, f2, f3, f4⟩ :=
      (takeStep_frame env s input_dt).trans_step (endStep_frame _ input_time)
    obtain ⟨g1, g2, _, _, _⟩ := endStep_solveFrame (s.takeStep env input_dt) input_time
    have hc2 : ((s.takeStep env input_dt).endStep input_time).lastSolveConverged = false := by
      rw [htake] at g1 g2 ⊢
      simp only [Transient.lastSolveConverged, g1, g2] at hconv ⊢
      exact hconv
    obtain ⟨i1, i2, _⟩ := incrementStepOrReject_calls env
      ((s.takeStep env input_dt).endStep input_time)
    have hrej : (((s.takeStep env input_dt).endStep input_time).incrementStepOrReject
        env)._t_step = ((s.takeStep env input_dt).endStep input_time)._t_step ∧
        (((s.takeStep env input_dt).endStep input_time).incrementStepOrReject
          env)._time_old = ((s.takeStep env input_dt).endStep input_time)._time_old := by
      simp [Transient.incrementStepOrReject, record, hc2]
    refine ⟨hrej.1.trans f2, hrej.2.trans f1, ?_⟩
    rw [callsSince_count _ _ (f3.trans i1), i2, hc2, f4]
    simp

/-- The first call of `solveStep` in `takeStep` is made in the state that the reset of
`_picard_it` and the backup of the MultiApps leave. -/
theorem takeStep_begin_mem_entries (env : Env) (s : Transient) (input_dt : ℚ)
    (hN : 1 ≤ s._picard_max_its) (hN32 : s._picard_max_its < 2 ^ 32)
    (hpc : s._picard_converged = false) :
    s.takeStep_begin ∈ s.takeStep_entries env input_dt := by
  have hc := (takeStep_condition s.takeStep_begin 0 rfl (Nat.zero_le _) hN32).2 ⟨hN, hpc⟩
  unfold Transient.takeStep_entries
  obtain ⟨n, hn⟩ : ∃ n, s._picard_max_its = n + 1 := ⟨s._picard_max_its - 1, by omega⟩
  rw [hn, takeStep_solveSteps_succ, if_pos hc, takeStep_restore_first _ rfl]
  split_ifs
  · exact List.mem_singleton.2 rfl
  · exact List.mem_cons_self _ _

/-- Witness of C26: the first attempt of a cold start whose MultiApps do not converge. -/
theorem begin_multiapps_failure_witness :
    (((coldStart (exampleEnv false true 0)).takeStep_begin.solveStep_setTime
        (exampleEnv false true 0) (-1)).solveStep_multiAppsBegin
          (exampleEnv false true 0))._multiapps_converged = false ∧
      (callsSince (coldStart (exampleEnv false true 0)).takeStep_begin
        ((coldStart (exampleEnv false true 0)).takeStep_begin.solveStep
          (exampleEnv false true 0) (-1))).count Call.step = 0 ∧
      (coldStart (exampleEnv false true 0)).takeStep (exampleEnv false true 0) (-1) =
        (coldStart (exampleEnv false true 0)).takeStep_begin.solveStep
          (exampleEnv false true 0) (-1) :=
  ⟨by decide!,
    (begin_multiapps_failure (exampleEnv false true 0)
      (coldStart (exampleEnv false true 0)).takeStep_begin (-1) (by decide!)).2.1,
    ((begin_multiapps_failure (exampleEnv false true 0)
      (coldStart (exampleEnv false true 0)).takeStep_begin (-1) (by decide!)).2.2.2.2
        (coldStart (exampleEnv false true 0))
        (takeStep_begin_mem_entries _ _ _ (by decide!) (by decide!) (by decide!))).2.1⟩

/-! ### The XFEM repeat counter -/

theorem ControlFrame.refl_control (s : Transient) : ControlFrame s s :=
  ⟨rfl, rfl, rfl, rfl, rfl⟩

theorem ControlFrame.trans_control {s1 s2 s3 : Transient} (h12 : ControlFrame s1 s2)
    (h23 : ControlFrame s2 s3) : ControlFrame s1 s3 := by
  obtain ⟨a1, a2, a3, a4, a5⟩ := h12
  obtain ⟨b1, b2, b3, b4, b5⟩ := h23
  exact ⟨b1.trans a1, b2.trans a2, b3.trans a3, b4.trans a4, b5.trans a5⟩

theorem XfemInvariant.of_control {s t : Transient} (h : ControlFrame s t)
    (hs : XfemInvariant s) : XfemInvariant t := by
  obtain ⟨h1, h2, h3, _, _⟩ := h
  simp only [XfemInvariant, h1, h2, h3] at hs ⊢
  exact hs

theorem computeConstrainedDT_control (env : Env) (s : Transient) :
    ControlFrame s (s.computeConstrainedDT env).2 := by
  simp only [ControlFrame, Transient.computeConstrainedDT,
    Transient.computeConstrainedDT_multiAppEnd,
    Transient.computeConstrainedDT_multiAppBegin, Transient.computeConstrainedDT_target,
    Transient.computeConstrainedDT_interval, Transient.computeConstrainedDT_trial, record,
    apply_ite Prod.snd, apply_ite Transient.toSolveStatus,
    apply_ite Transient.toTimeParameters, ite_self, and_self]

theorem solveStep_setTime_control (env : Env) (s : Transient) (input_dt : ℚ) :
    ControlFrame s (s.solveStep_setTime env input_dt) := by
  have h := computeConstrainedDT_control env { s with _dt_old := s._dt }
  simp only [Transient.solveStep_setTime]
  generalize Transient.computeConstrainedDT env { s with _dt_old := s._dt } = r at h ⊢
  simp only [ControlFrame] at h
  simp only [ControlFrame, h, record, apply_ite Transient.toSolveStatus,
    apply_ite Transient.toTimeParameters, apply_ite SolveStatus._xfem_repeat_step,
    apply_ite SolveStatus._xfem_update_count, apply_ite SolveStatus._first,
    apply_ite SolveStatus._steps_taken, apply_ite TimeParameters._max_xfem_update,
    ite_self, and_self]

theorem solveStep_multiAppsBegin_control (env : Env) (s : Transient) :
    ControlFrame s (s.solveStep_multiAppsBegin env) := by
  simp only [ControlFrame, Transient.solveStep_multiAppsBegin, record,
    apply_ite Transient.toSolveStatus,
    apply_ite Transient.toTimeParameters, apply_ite SolveStatus._xfem_repeat_step,
    apply_ite SolveStatus._xfem_update_count, apply_ite SolveStatus._first,
    apply_ite SolveStatus._steps_taken, apply_ite TimeParameters._max_xfem_update,
    ite_self, and_self]

theorem solveStep_setup_control (env : Env) (s : Transient) :
    ControlFrame s (s.solveStep_setup env) := by
  simp only [ControlFrame, Transient.solveStep_setup, record,
    apply_ite Transient.toSolveStatus,
    apply_ite Transient.toTimeParameters, apply_ite SolveStatus._xfem_repeat_step,
    apply_ite SolveStatus._xfem_update_count, apply_ite SolveStatus._first,
    apply_ite SolveStatus._steps_taken, apply_ite TimeParameters._max_xfem_update,
    ite_self, and_self]

theorem solveStep_step_control (env : Env) (s : Transient) :
    ControlFrame s (s.solveStep_step env) := by
  simp only [ControlFrame, Transient.solveStep_step, record, and_self]

theorem solveStep_relax_control (s : Transient) : ControlFrame s s.solveStep_relax := by
  simp only [ControlFrame, Transient.solveStep_relax, record,
    apply_ite Transient.toSolveStatus,
    apply_ite Transient.toTimeParameters, apply_ite SolveStatus._xfem_repeat_step,
    apply_ite SolveStatus._xfem_update_count, apply_ite SolveStatus._first,
    apply_ite SolveStatus._steps_taken, apply_ite TimeParameters._max_xfem_update,
    ite_self, and_self]

theorem solveStep_picard_control (env : Env) (s : Transient) (current_dt : ℚ) :
    ControlFrame s (s.solveStep_picard env current_dt) := by
  simp only [ControlFrame, Transient.solveStep_picard, record,
    apply_ite Transient.toSolveStatus,
    apply_ite Transient.toTimeParameters, apply_ite SolveStatus._xfem_repeat_step,
    apply_ite SolveStatus._xfem_update_count, apply_ite SolveStatus._first,
    apply_ite SolveStatus._steps_taken, apply_ite TimeParameters._max_xfem_update,
    ite_self, and_self]

theorem endStep_control (s : Transient) (input_time : ℚ) :
    ControlFrame s (s.endStep input_time) := by
  simp only [ControlFrame, Transient.endStep, record,
    apply_ite Transient.toSolveStatus,
    apply_ite Transient.toTimeParameters, apply_ite SolveStatus._xfem_repeat_step,
    apply_ite SolveStatus._xfem_update_count, apply_ite SolveStatus._first,
    apply_ite SolveStatus._steps_taken, apply_ite TimeParameters._max_xfem_update,
    ite_self, and_self]

theorem keepGoing_control (env : Env) (s : Transient) :
    ControlFrame s (s.keepGoing env).2 := by
  simp only [ControlFrame, Transient.keepGoing, apply_ite Prod.snd,
    apply_ite Transient.toSolveStatus,
    apply_ite Transient.toTimeParameters, apply_ite SolveStatus._xfem_repeat_step,
    apply_ite SolveStatus._xfem_update_count, apply_ite SolveStatus._first,
    apply_ite SolveStatus._steps_taken, apply_ite TimeParameters._max_xfem_update,
    ite_self, and_self]

/-- What `solveStep` does to the XFEM members after a solve (lines 585-598). -/
theorem solveStep_converged_xfem (env : Env) (s : Transient) :
    (s.solveStep_converged env).2._max_xfem_update = s._max_xfem_update ∧
      (s.solveStep_converged env).2._first = s._first ∧
      (s.solveStep_converged env).2._steps_taken = s._steps_taken ∧
      (((s.solveStep_converged env).2._xfem_repeat_step = true ∧
          (s.solveStep_converged env).2._xfem_update_count =
            (s._xfem_update_count + 1) % 2 ^ 32 ∧
          s._xfem_update_count < s._max_xfem_update ∧ s.lastSolveConverged = true ∧
          env.haveXFEM s = true ∧ env.updateMeshXFEM s = true) ∨
        ((s.solveStep_converged env).2._xfem_repeat_step = false ∧
          (s.solveStep_converged env).2._xfem_update_count = 0 ∧
          s.lastSolveConverged = true ∧
          ¬ (env.haveXFEM s = true ∧ s._xfem_update_count < s._max_xfem_update ∧
            env.updateMeshXFEM s = true)) ∨
        ((s.solveStep_converged env).2._xfem_repeat_step = s._xfem_repeat_step ∧
          (s.solveStep_converged env).2._xfem_update_count = s._xfem_update_count ∧
          ¬ (s.lastSolveConverged = true ∧ env.haveXFEM s = true ∧
            s._xfem_update_count < s._max_xfem_update ∧ env.updateMeshXFEM s = true))) := by
  unfold Transient.solveStep_converged
  by_cases h1 : s.lastSolveConverged = true
  · rw [if_pos h1]
    by_cases h2 : (env.haveXFEM s && decide (s._xfem_update_count < s._max_xfem_update) &&
        env.updateMeshXFEM s) = true
    · rw [if_pos h2]
      simp only [Bool.and_eq_true, decide_eq_true_eq] at h2
      exact ⟨rfl, rfl, rfl, Or.inl ⟨rfl, rfl, h2.1.2, h1, h2.1.1, h2.2⟩⟩
    · rw [if_neg h2]
      simp only [Bool.and_eq_true, decide_eq_true_eq] at h2
      have h2' : ¬ (env.haveXFEM s = true ∧ s._xfem_update_count < s._max_xfem_update ∧
          env.updateMeshXFEM s = true) := fun h => h2 ⟨⟨h.1, h.2.1⟩, h.2.2⟩
      simp only [Transient.relativeSolutionDifferenceNorm, record,
        apply_ite Transient.toSolveStatus,
        apply_ite Transient.toTimeParameters, apply_ite SolveStatus._xfem_repeat_step,
        apply_ite SolveStatus._xfem_update_count, apply_ite SolveStatus._first,
        apply_ite SolveStatus._steps_taken, apply_ite TimeParameters._max_xfem_update,
        ite_self, true_and]
      split_ifs
      all_goals first
        | exact Or.inr (Or.inl ⟨rfl, rfl, h1, h2'⟩)
        | exact Or.inr (Or.inr ⟨rfl, rfl, fun h => h2' h.2⟩)
  · rw [if_neg h1]
    exact ⟨rfl, rfl, rfl, Or.inr (Or.inr ⟨rfl, rfl, fun h => h1 h.1⟩)⟩

theorem solveStep_converged_invariant (env : Env) (s : Transient) (hs : XfemInvariant s) :
    XfemInvariant (s.solveStep_converged env).2 := by
  obtain ⟨h1, _, _, h⟩ := solveStep_converged_xfem env s
  obtain ⟨i1, i2, i3⟩ := hs
  unfold XfemInvariant
  rw [h1]
  rcases h with ⟨a1, a2, a3, _⟩ | ⟨a1, a2, _⟩ | ⟨a1, a2, _⟩
  · rw [a1, a2]
    refine ⟨le_trans (Nat.mod_le _ _) a3, fun h => (by cases h), fun h => ?_⟩
    omega
  · rw [a1, a2]
    exact ⟨Nat.zero_le _, fun _ => rfl, fun _ => rfl⟩
  · rw [a1, a2]
    exact ⟨i1, i2, i3⟩

/-- The members `_first`, `_steps_taken` and `_max_xfem_update` after `solveStep`, and the
invariant of the XFEM repeat counter. -/
theorem solveStep_control (env : Env) (s : Transient) (input_dt : ℚ) :
    (s.solveStep env input_dt)._max_xfem_update = s._max_xfem_update ∧
      (s.solveStep env input_dt)._first = s._first ∧
      (s.solveStep env input_dt)._steps_taken = s._steps_taken ∧
      (XfemInvariant s → XfemInvariant (s.solveStep env input_dt)) := by
  have h1 := solveStep_setTime_control env s input_dt
  have h2 := h1.trans_control (solveStep_multiAppsBegin_control env _)
  have h3 := h2.trans_control (solveStep_setup_control env _)
  have h4 := h3.trans_control (solveStep_step_control env _)
  have h5 := h4.trans_control (solveStep_relax_control _)
  obtain ⟨c1, c2, c3, _⟩ := solveStep_converged_xfem env
    ((((s.solveStep_setTime env input_dt).solveStep_multiAppsBegin env).solveStep_setup
      env).solveStep_step env).solveStep_relax
  have c4 := solveStep_converged_invariant env
    ((((s.solveStep_setTime env input_dt).solveStep_multiAppsBegin env).solveStep_setup
      env).solveStep_step env).solveStep_relax
  have h7 := solveStep_picard_control env
    (((((s.solveStep_setTime env input_dt).solveStep_multiAppsBegin env).solveStep_setup
      env).solveStep_step env).solveStep_relax.solveStep_converged env).2
    (s.solveStep_setTime env input_dt)._dt
  unfold Transient.solveStep
  dsimp only
  split_ifs
  · exact ⟨h2.2.2.1, h2.2.2.2.1, h2.2.2.2.2, fun hs => XfemInvariant.of_control h2 hs⟩
  · exact ⟨c1.trans h5.2.2.1, c2.trans h5.2.2.2.1, c3.trans h5.2.2.2.2,
      fun hs => c4 (XfemInvariant.of_control h5 hs)⟩
  · exact ⟨h7.2.2.1.trans (c1.trans h5.2.2.1), h7.2.2.2.1.trans (c2.trans h5.2.2.2.1),
      h7.2.2.2.2.trans (c3.trans h5.2.2.2.2),
      fun hs => XfemInvariant.of_control h7 (c4 (XfemInvariant.of_control h5 hs))⟩

theorem takeStep_loop_control (env : Env) (input_dt : ℚ) (fuel : ℕ) (s : Transient) :
    (Transient.takeStep_loop env input_dt fuel s)._max_xfem_update = s._max_xfem_update ∧
      (Transient.takeStep_loop env input_dt fuel s)._first = s._first ∧
      (Transient.takeStep_loop env input_dt fuel s)._steps_taken = s._steps_taken ∧
      (XfemInvariant s → XfemInvariant (Transient.takeStep_loop env input_dt fuel s)) := by
  induction fuel generalizing s with
  | zero => exact ⟨rfl, rfl, rfl, fun h => h⟩
  | succ n ih =>
    have hr : ControlFrame s s.takeStep_restore := by
      simp only [ControlFrame, Transient.takeStep_restore, record,
        apply_ite Transient.toSolveStatus,
        apply_ite Transient.toTimeParameters, apply_ite SolveStatus._xfem_repeat_step,
        apply_ite SolveStatus._xfem_update_count, apply_ite SolveStatus._first,
        apply_ite SolveStatus._steps_taken, apply_ite TimeParameters._max_xfem_update,
        ite_self, and_self]
    obtain ⟨a1, a2, a3, a4⟩ := solveStep_control env s.takeStep_restore input_dt
    have hi : ControlFrame (s.takeStep_restore.solveStep env input_dt)
        (s.takeStep_restore.solveStep env input_dt).takeStep_increment :=
      ⟨rfl, rfl, rfl, rfl, rfl⟩
    obtain ⟨b1, b2, b3, b4⟩ := ih (s.takeStep_restore.solveStep env input_dt).takeStep_increment
    rw [takeStep_loop_succ]
    split_ifs
    · exact ⟨a1.trans hr.2.2.1, a2.trans hr.2.2.2.1, a3.trans hr.2.2.2.2,
        fun hs => a4 (XfemInvariant.of_control hr hs)⟩
    · exact ⟨b1.trans (hi.2.2.1.trans (a1.trans hr.2.2.1)),
        b2.trans (hi.2.2.2.1.trans (a2.trans hr.2.2.2.1)),
        b3.trans (hi.2.2.2.2.trans (a3.trans hr.2.2.2.2)),
        fun hs => b4 (XfemInvariant.of_control hi (a4 (XfemInvariant.of_control hr hs)))⟩
    · exact ⟨rfl, rfl, rfl, fun h => h⟩

theorem takeStep_control (env : Env) (s : Transient) (input_dt : ℚ) :
    (s.takeStep env input_dt)._max_xfem_update = s._max_xfem_update ∧
      (s.takeStep env input_dt)._first = s._first ∧
      (s.takeStep env input_dt)._steps_taken = s._steps_taken ∧
      (XfemInvariant s → XfemInvariant (s.takeStep env input_dt)) := by
  have hb : ControlFrame s s.takeStep_begin := ⟨rfl, rfl, rfl, rfl, rfl⟩
  obtain ⟨a1, a2, a3, a4⟩ := takeStep_loop_control env input_dt s._picard_max_its s.takeStep_begin
  rw [takeStep_eq_loop]
  exact ⟨a1.trans hb.2.2.1, a2.trans hb.2.2.2.1, a3.trans hb.2.2.2.2,
    fun hs => a4 (XfemInvariant.of_control hb hs)⟩

theorem incrementStepOrReject_control (env : Env) (s : Transient) :
    (s.incrementStepOrReject env)._xfem_repeat_step = s._xfem_repeat_step ∧
      (s.incrementStepOrReject env)._xfem_update_count = s._xfem_update_count ∧
      (s.incrementStepOrReject env)._max_xfem_update = s._max_xfem_update ∧
      (s.incrementStepOrReject env)._first = false ∧
      (s.incrementStepOrReject env)._steps_taken = s._steps_taken := by
  simp only [Transient.incrementStepOrReject, record,
    apply_ite Transient.toSolveStatus,
    apply_ite Transient.toTimeParameters, apply_ite SolveStatus._xfem_repeat_step,
    apply_ite SolveStatus._xfem_update_count, apply_ite SolveStatus._first,
    apply_ite SolveStatus._steps_taken, apply_ite TimeParameters._max_xfem_update,
    ite_self, and_self]

theorem incrementStepOrReject_invariant (env : Env) (s : Transient) (hs : XfemInvariant s) :
    XfemInvariant (s.incrementStepOrReject env) := by
  obtain ⟨h1, h2, h3, _, _⟩ := incrementStepOrReject_control env s
  simp only [XfemInvariant, h1, h2, h3] at hs ⊢
  exact hs

theorem execute_head_invariant (env : Env) (s : Transient) (hs : XfemInvariant s) :
    XfemInvariant (s.execute_head env).2 := by
  have hk := keepGoing_control env (s.execute_increment env)
  refine XfemInvariant.of_control hk ?_
  unfold Transient.execute_increment
  dsimp only
  split_ifs
  · have := incrementStepOrReject_invariant env s hs
    exact this
  · exact hs

theorem construct_invariant (parameters : InputParameters) (app : App) (s : Transient)
    (h : Transient.construct parameters app = Except.ok s) : XfemInvariant s := by
  unfold Transient.construct at h
  dsimp only at h
  split at h
  · cases h
  · have hx := ok_of_ite_error h
    subst hx
    simp only [XfemInvariant, apply_ite Transient.toSolveStatus,
      apply_ite Transient.toTimeParameters, apply_ite SolveStatus._xfem_repeat_step,
      apply_ite SolveStatus._xfem_update_count, apply_ite TimeParameters._max_xfem_update,
      ite_self, Transient.initializers, Nat.zero_le, implies_true, and_self]

theorem init_invariant (env : Env) (app : App) (s s1 : Transient)
    (h : s.init env app = Except.ok s1) (hs : XfemInvariant s) : XfemInvariant s1 := by
  have h0 : XfemInvariant (s.init_setup app) := by
    have : ControlFrame s (s.init_setup app) := by
      simp only [ControlFrame, Transient.init_setup, record,
        apply_ite Transient.toSolveStatus,
        apply_ite Transient.toTimeParameters, apply_ite SolveStatus._xfem_repeat_step,
        apply_ite SolveStatus._xfem_update_count, apply_ite SolveStatus._first,
        apply_ite SolveStatus._steps_taken, apply_ite TimeParameters._max_xfem_update,
        ite_self, and_self]
    exact XfemInvariant.of_control this hs
  unfold Transient.init at h
  dsimp only at h
  split_ifs at h
  all_goals (have hx := Except.ok.inj h; subst hx; exact h0)

theorem reachable_invariant (env : Env) (p : ℚ → Prop) (s : Transient)
    (h : Reachable env p s) : XfemInvariant s := by
  induction h with
  | start parameters app s0 s hc hi =>
    exact init_invariant env app s0 s hi (construct_invariant parameters app s0 hc)
  | restored app s s1 _ hi ih => exact init_invariant env app s s1 hi ih
  | preExecute s _ ih => exact ih
  | advanceState s _ ih => exact ih
  | incrementStepOrReject s _ ih => exact incrementStepOrReject_invariant env s ih
  | execute_head s _ ih => exact execute_head_invariant env s ih
  | preStep s _ ih => exact ih
  | computeDT s _ ih => exact ih
  | takeStep s input_dt _ _ ih => exact (takeStep_control env s input_dt).2.2.2 ih
  | endStep s _ _ ih => exact XfemInvariant.of_control (endStep_control s (-1)) ih
  | postStep s _ ih => exact ih
  | stepsTaken s _ ih => exact ih

/-- Within the budget, a converged solve whose `updateMeshXFEM` modifies the mesh requests a
repeat and counts it. -/
theorem solveStep_converged_repeat (env : Env) (t : Transient)
    (hm : t._max_xfem_update < 2 ^ 32)
    (hc : t.lastSolveConverged = true) (hx : env.haveXFEM t = true)
    (hlt : t._xfem_update_count < t._max_xfem_update) (hu : env.updateMeshXFEM t = true) :
    (t.solveStep_converged env).2._xfem_repeat_step = true ∧
      (t.solveStep_converged env).2._xfem_update_count = t._xfem_update_count + 1 := by
  obtain ⟨_, _, _, h⟩ := solveStep_converged_xfem env t
  rcases h with ⟨a1, a2, _⟩ | ⟨_, _, _, a4⟩ | ⟨_, _, a3⟩
  · refine ⟨a1, ?_⟩
    rw [a2]
    exact Nat.mod_eq_of_lt (by omega)
  · exact absurd ⟨hx, hlt, hu⟩ a4
  · exact absurd ⟨hc, hx, hlt, hu⟩ a3

/-- With the budget used up, a converged solve does not request a repeat: it resets the
flag and the counter. -/
theorem solveStep_converged_exhausted (env : Env) (t : Transient)
    (hc : t.lastSolveConverged = true) (hx : env.haveXFEM t = true)
    (hge : t._max_xfem_update ≤ t._xfem_update_count) :
    (t.solveStep_converged env).2._xfem_repeat_step = false ∧
      (t.solveStep_converged env).2._xfem_update_count = 0 := by
  have hd : decide (t._xfem_update_count < t._max_xfem_update) = false :=
    decide_eq_false (not_lt.mpr hge)
  unfold Transient.solveStep_converged
  rw [if_pos hc, hx, hd]
  simp only [Bool.and_false, Bool.false_and, Bool.false_eq_true, if_false, hx, if_true,
    Transient.relativeSolutionDifferenceNorm, record,
    apply_ite Transient.toSolveStatus, apply_ite SolveStatus._xfem_repeat_step,
    apply_ite SolveStatus._xfem_update_count, ite_self, and_self]

/-- C21: in every state reached by a run, `0 <= _xfem_update_count <= _max_xfem_update`,
and `_xfem_repeat_step` false implies `_xfem_update_count = 0`, so that the counter is 0
after every acceptance; with `_max_xfem_update = 0` the flag is false, also after
`incrementStepOrReject`: no step is repeated.  For every solve: the flag is set and the
counter moved only when the counter is below `_max_xfem_update`; a converged solve with XFEM
within the budget whose `updateMeshXFEM` modifies the mesh sets the flag and adds one to the
counter; and with the counter at `_max_xfem_update` a converged solve with XFEM does not
repeat: it resets the flag and the counter.  The counter thus counts the consecutive
repeats, of which there are at most `_max_xfem_update`. -/
theorem xfem_repeat_counter (env : Env) (p : ℚ → Prop) (s : Transient)
    (h : Reachable env p s) :
    (0 ≤ s._xfem_update_count ∧ s._xfem_update_count ≤ s._max_xfem_update) ∧
      (s._xfem_repeat_step = false → s._xfem_update_count = 0) ∧
      ((s.incrementStepOrReject env)._t_step = s._t_step + 1 →
        (s.incrementStepOrReject env)._xfem_update_count = 0) ∧
      (s._max_xfem_update = 0 →
        s._xfem_repeat_step = false ∧
          (s.incrementStepOrReject env)._xfem_repeat_step = false) ∧
      (∀ t : Transient,
        ((t.solveStep_converged env).2._xfem_repeat_step = true ∧
            (t.solveStep_converged env).2._xfem_update_count ≠ t._xfem_update_count →
          t._xfem_update_count < t._max_xfem_update) ∧
        (t._max_xfem_update < 2 ^ 32 → t.lastSolveConverged = true →
          env.haveXFEM t = true → t._xfem_update_count < t._max_xfem_update →
          env.updateMeshXFEM t = true →
          (t.solveStep_converged env).2._xfem_repeat_step = true ∧
            (t.solveStep_converged env).2._xfem_update_count = t._xfem_update_count + 1) ∧
        (t.lastSolveConverged = true → env.haveXFEM t = true →
          t._xfem_update_count = t._max_xfem_update →
          (t.solveStep_converged env).2._xfem_repeat_step = false ∧
            (t.solveStep_converged env).2._xfem_update_count = 0)) := by
  obtain ⟨i1, i2, i3⟩ := reachable_invariant env p s h
  obtain ⟨c1, c2, _, _, _⟩ := incrementStepOrReject_control env s
  refine ⟨⟨Nat.zero_le _, i1⟩, i2, ?_, ?_, ?_⟩
  · intro hacc
    rw [c2]
    exact i2 ((incrementStepOrReject_accepts env s).1 hacc).2
  · intro hz
    exact ⟨i3 hz, c1.trans (i3 hz)⟩
  · intro t
    refine ⟨?_, solveStep_converged_repeat env t, ?_⟩
    · rintro ⟨a1, a2⟩
      obtain ⟨_, _, _, hx⟩ := solveStep_converged_xfem env t
      rcases hx with ⟨_, _, b3, _⟩ | ⟨b1, _⟩ | ⟨_, b2, _⟩
      · exact b3
      · rw [b1] at a1; cases a1
      · exact absurd b2 a2
    · intro hc hx he
      exact solveStep_converged_exhausted env t hc hx (le_of_eq he.symm)

theorem xfemStart_reachable :
    Reachable xfemEnv (fun _ => True) (coldStartFor xfemParameters xfemEnv) :=
  Reachable.start xfemParameters exampleApp (constructedFor xfemParameters) _
    (by with_unfolding_all rfl) (by with_unfolding_all rfl)

/-- Witness of C21: a cold start with `max_xfem_update = 1` and an XFEM that always
modifies the mesh; after the first `takeStep` the flag is set and the counter is 1. -/
theorem xfem_repeat_counter_witness :
    Reachable xfemEnv (fun _ => True)
        ((coldStartFor xfemParameters xfemEnv).takeStep xfemEnv (-1)) ∧
      ((coldStartFor xfemParameters xfemEnv).takeStep xfemEnv (-1))._xfem_repeat_step = true ∧
      ((coldStartFor xfemParameters xfemEnv).takeStep xfemEnv (-1))._xfem_update_count = 1 ∧
      ((coldStartFor xfemParameters xfemEnv).takeStep xfemEnv (-1))._xfem_update_count ≤
        ((coldStartFor xfemParameters xfemEnv).takeStep xfemEnv (-1))._max_xfem_update :=
  ⟨Reachable.takeStep _ _ xfemStart_reachable (fun _ _ => trivial), by decide!, by decide!,
    (xfem_repeat_counter xfemEnv (fun _ => True) _
      (Reachable.takeStep _ _ xfemStart_reachable (fun _ _ => trivial))).1.2⟩

/-! ### The exhaustion of the step count -/

theorem keepGoing_of_not_otherStop (env : Env) (s : Transient) (h : ¬ OtherStop env s) :
    (s.keepGoing env).1 = true ↔ ¬ (toUnsigned s._t_step > s._num_steps) := by
  unfold OtherStop at h
  cases hc : s.lastSolveConverged <;> cases hx : s._xfem_repeat_step <;>
    cases hd : s._steady_state_detection <;> cases ha : s._abort <;>
    cases hl : s._sln_diff_norm.lt s._steady_state_tolerance <;>
    cases hr : env.isSolveTerminationRequested s <;>
    by_cases ht : s._time > s._steady_state_start_time <;>
    simp [hc, hx, hd, ha, hl, hr, ht] at h <;>
    simp [Transient.keepGoing, hc, hx, hd, ha, hl, hr, ht] <;> tauto

theorem keepGoing_false_of_num_steps (env : Env) (s : Transient)
    (h : toUnsigned s._t_step > s._num_steps) : (s.keepGoing env).1 = false := by
  simp only [Transient.keepGoing, apply_ite Prod.snd, apply_ite Prod.fst,
    apply_ite Transient.toClock, apply_ite Transient.toTimeParameters, ite_self, h, if_true]

theorem keepGoing_t_step (env : Env) (s : Transient) :
    (s.keepGoing env).2._t_step = s._t_step := by
  simp only [Transient.keepGoing, apply_ite Prod.snd, apply_ite Transient.toClock,
    apply_ite Clock._t_step, ite_self]

/-- What a step of the time loop leaves of the members that count the steps. -/
theorem execute_body_count (env : Env) (s : Transient) :
    (s.execute_body env)._t_step = s._t_step ∧
      (s.execute_body env)._steps_taken = (s._steps_taken + 1) % 2 ^ 32 ∧
      (s.execute_body env)._first = s._first ∧
      (s.execute_body env)._num_steps = s._num_steps := by
  have h1 := takeStep_control env (s.preStep.computeDT) (-1)
  have h2 := endStep_control ((s.preStep.computeDT).takeStep env (-1)) (-1)
  have h3 := takeStep_parameters env (s.preStep.computeDT) (-1)
  have h4 := endStep_parameters ((s.preStep.computeDT).takeStep env (-1)) (-1)
  refine ⟨(execute_body_clock env s).2.2, ?_, ?_, ?_⟩
  · show ((((s.preStep.computeDT).takeStep env (-1)).endStep (-1))._steps_taken + 1) % 2 ^ 32 = _
    rw [h2.2.2.2.2, h1.2.2.1]
    rfl
  · show (((s.preStep.computeDT).takeStep env (-1)).endStep (-1))._first = _
    rw [h2.2.2.2.1, h1.2.1]
    rfl
  · show (((s.preStep.computeDT).takeStep env (-1)).endStep (-1))._num_steps = _
    have e4 := congrArg TimeParameters._num_steps h4.1
    have e3 := congrArg TimeParameters._num_steps h3.1
    exact e4.trans e3

/-- The head of the first pass of the time loop leaves the step index as it is. -/
theorem execute_increment_first (env : Env) (s : Transient) (hf : s._first = true) :
    (s.execute_increment env)._t_step = s._t_step ∧
      (s.execute_increment env)._steps_taken = s._steps_taken ∧
      (s.execute_increment env)._first = false ∧
      (s.execute_increment env)._num_steps = s._num_steps := by
  simp only [Transient.execute_increment, hf, bne_self_eq_false, Bool.false_eq_true, if_false,
    and_self]

/-- The head of a later pass of the time loop that accepts the step increments the step
index. -/
theorem execute_increment_accepted (env : Env) (s : Transient) (hf : s._first = false)
    (hc : s.lastSolveConverged = true) (hx : s._xfem_repeat_step = false) :
    (s.execute_increment env)._t_step = s._t_step + 1 ∧
      (s.execute_increment env)._steps_taken = s._steps_taken ∧
      (s.execute_increment env)._first = false ∧
      (s.execute_increment env)._num_steps = s._num_steps := by
  have h1 := incrementStepOrReject_accepted env s hc hx
  have h2 := incrementStepOrReject_control env s
  have h3 := congrArg TimeParameters._num_steps (incrementStepOrReject_parameters env s).1
  have e : s.execute_increment env =
      { s.incrementStepOrReject env with _first := false } := by
    simp only [Transient.execute_increment, hf, Bool.bne_true, Bool.not_false, if_true]
  rw [e]
  exact ⟨h1.1, h2.2.2.2.2, rfl, h3⟩

/-- The members that count the steps at the head of pass `k` of a run that starts with the
step index 1 and accepts every step. -/
theorem execute_passes_count (env : Env) (s : Transient) (N : ℕ)
    (h1 : s._t_step = 1) (hf : s._first = true) (h0 : s._steps_taken = 0)
    (hn : s._num_steps = N) (hN : N < 2 ^ 31 - 1)
    (hacc : ∀ k, k < N →
      (Transient.execute_passes env (k + 1) s).lastSolveConverged = true ∧
        (Transient.execute_passes env (k + 1) s)._xfem_repeat_step = false) :
    ∀ k, k ≤ N →
      ((Transient.execute_passes env k s).execute_increment env)._t_step = (k : Int) + 1 ∧
        ((Transient.execute_passes env k s).execute_increment env)._steps_taken = k ∧
        ((Transient.execute_passes env k s).execute_increment env)._first = false ∧
        ((Transient.execute_passes env k s).execute_increment env)._num_steps = N := by
  intro k
  induction k with
  | zero =>
    intro _
    obtain ⟨a1, a2, a3, a4⟩ := execute_increment_first env s hf
    refine ⟨?_, ?_, a3, ?_⟩
    · show (s.execute_increment env)._t_step = _
      rw [a1, h1]; rfl
    · show (s.execute_increment env)._steps_taken = _
      rw [a2, h0]
    · show (s.execute_increment env)._num_steps = _
      rw [a4, hn]
  | succ k ih =>
    intro hk
    obtain ⟨i1, i2, i3, i4⟩ := ih (by omega)
    obtain ⟨c1, c2⟩ := hacc k (by omega)
    have hT : Transient.execute_passes env (k + 1) s =
        (((Transient.execute_passes env k s).execute_increment env).keepGoing env).2.execute_body
          env := rfl
    generalize Transient.execute_passes env (k + 1) s = T at hT c1 c2 ⊢
    generalize (Transient.execute_passes env k s).execute_increment env = I at hT i1 i2 i3 i4
    obtain ⟨b1, b2, b3, b4⟩ := execute_body_count env (I.keepGoing env).2
    rw [← hT] at b1 b2 b3 b4
    have k1 := keepGoing_t_step env I
    have k2 := keepGoing_control env I
    have k3 := congrArg TimeParameters._num_steps (keepGoing_parameters env I).1
    have t1 : T._t_step = (k : Int) + 1 := by rw [b1, k1, i1]
    have t2 : T._steps_taken = k + 1 := by
      rw [b2, k2.2.2.2.2, i2]
      exact Nat.mod_eq_of_lt (by omega)
    have t3 : T._first = false := by rw [b3, k2.2.2.2.1, i3]
    have t4 : T._num_steps = N := by rw [b4]; exact k3.trans i4
    obtain ⟨a1, a2, a3, a4⟩ := execute_increment_accepted env T t3 c1 c2
    refine ⟨?_, ?_, a3, ?_⟩
    · rw [a1, t1]; push_cast; ring
    · rw [a2, t2]
    · rw [a4, t4]

theorem execute_loop_passes (env : Env) (s : Transient) (fuel : ℕ) :
    ∀ k, (∀ j, j < k → ((Transient.execute_passes env j s).execute_head env).1 = true) →
      Transient.execute_loop env (fuel + k) s =
        Transient.execute_loop env fuel (Transient.execute_passes env k s) := by
  intro k
  induction k generalizing fuel with
  | zero => intro _; rfl
  | succ k ih =>
    intro h
    have e : fuel + (k + 1) = (fuel + 1) + k := by omega
    rw [e, ih (fuel + 1) (fun j hj => h j (by omega))]
    have hk := h k (by omega)
    show (if !((Transient.execute_passes env k s).execute_head env).1 then _ else _) = _
    rw [hk]
    rfl

/-- The members that count the steps as the constructor leaves them; outside the
half-transient mode `_num_steps` is the parameter `num_steps`. -/
theorem construct_count (parameters : InputParameters) (app : App) (s : Transient)
    (h : Transient.construct parameters app = Except.ok s) :
    s._t_step = 0 ∧ s._first = true ∧ s._steps_taken = 0 ∧
      (app.halfTransient = false → s._num_steps = parameters.num_steps) := by
  unfold Transient.construct at h
  dsimp only at h
  split at h
  · cases h
  · have hx := ok_of_ite_error h
    subst hx
    refine ⟨?_, ?_, ?_, fun hh => ?_⟩
    · simp only [apply_ite Transient.toClock, apply_ite Clock._t_step, ite_self]
    · simp only [apply_ite Transient.toSolveStatus, apply_ite SolveStatus._first, ite_self,
        Transient.initializers]
    · simp only [apply_ite Transient.toSolveStatus, apply_ite SolveStatus._steps_taken,
        ite_self, Transient.initializers]
    · simp only [hh, Bool.false_eq_true, if_false, apply_ite Transient.toTimeParameters,
        apply_ite TimeParameters._num_steps, ite_self, Transient.initializers]

/-- What `init` leaves of the members that count the steps. -/
theorem init_count (env : Env) (app : App) (s s1 : Transient)
    (h : s.init env app = Except.ok s1) :
    s1._first = s._first ∧ s1._steps_taken = s._steps_taken ∧
      s1._num_steps = s._num_steps := by
  unfold Transient.init at h
  dsimp only at h
  split_ifs at h
  all_goals
    have hx := Except.ok.inj h
    subst hx
    simp only [Transient.init_computeDT, Transient.computeDT, Transient.init_setup, record,
      apply_ite Transient.toSolveStatus, apply_ite Transient.toTimeParameters,
      apply_ite SolveStatus._first, apply_ite SolveStatus._steps_taken,
      apply_ite TimeParameters._num_steps, ite_self, and_self]

/-- Counterexample of C24: in the half-transient mode the constructor halves `_num_steps`
and replaces the result 0 by 1 (lines 245-252).  With `num_steps = 0`, a solve that converges
and no other stopping condition, the cold start runs the loop body once: the first pass
continues, the step is accepted, and `execute` ends with `_steps_taken = 1` and
`_t_step = 2`. -/
theorem half_transient_takes_a_step :
    noStepsParameters.num_steps = 0 ∧
    Transient.construct noStepsParameters halfTransientApp =
      Except.ok halfTransientConstructed ∧
    halfTransientConstructed.init (exampleEnv true true 0) halfTransientApp =
      Except.ok halfTransientStart ∧
    ¬ OtherStop (exampleEnv true true 0)
      (halfTransientStart.execute_entry.execute_increment (exampleEnv true true 0)) ∧
    (halfTransientStart.execute_entry.execute_head (exampleEnv true true 0)).1 = true ∧
    (Transient.execute_passes (exampleEnv true true 0) 1
      halfTransientStart.execute_entry).lastSolveConverged = true ∧
    (Transient.execute_passes (exampleEnv true true 0) 1
      halfTransientStart.execute_entry)._xfem_repeat_step = false ∧
    ¬ OtherStop (exampleEnv true true 0)
      ((Transient.execute_passes (exampleEnv true true 0) 1
        halfTransientStart.execute_entry).execute_increment (exampleEnv true true 0)) ∧
    (halfTransientStart.execute (exampleEnv true true 0) halfTransientApp 2).map
      (fun s => (s._steps_taken, s._t_step)) = some (1, 2) := by
  refine ⟨rfl, by with_unfolding_all rfl, by with_unfolding_all rfl, ?_, by decide!, by decide!,
    by decide!, ?_, by decide!⟩
  · unfold OtherStop; decide!
  · unfold OtherStop; decide!

/-- C24, amended: for every `num_steps` N below 2^31 - 1, in a cold start (the executioner
is constructed and `init` succeeds) of an application that is not in the half-transient mode,
in which every step attempt is accepted (the solve has converged and no XFEM repeat is
requested when the next pass starts) and no stopping condition of `keepGoing` other than the
step count holds at the head of a pass, the time loop of `execute` runs its body exactly N
times: the passes 0 .. N-1 continue, the pass N leaves at the test of `keepGoing`, and
`execute` returns (with any bound on the passes above N) with `_steps_taken = N` and
`_t_step = N + 1`.  With N = 0 the first pass leaves and no step is taken. -/
theorem num_steps_attempts (env : Env) (app : App) (parameters : InputParameters)
    (s0 s1 : Transient)
    (hc : Transient.construct parameters app = Except.ok s0)
    (hi : s0.init env app = Except.ok s1)
    (hh : app.halfTransient = false)
    (hN : parameters.num_steps < 2 ^ 31 - 1)
    (hacc : ∀ k, k < parameters.num_steps →
      (Transient.execute_passes env (k + 1) s1.execute_entry).lastSolveConverged = true ∧
        (Transient.execute_passes env (k + 1) s1.execute_entry)._xfem_repeat_step = false)
    (hother : ∀ k, k < parameters.num_steps →
      ¬ OtherStop env
        ((Transient.execute_passes env k s1.execute_entry).execute_increment env)) :
    (∀ k, k < parameters.num_steps →
      ((Transient.execute_passes env k s1.execute_entry).execute_head env).1 = true) ∧
    ((Transient.execute_passes env parameters.num_steps s1.execute_entry).execute_head
      env).1 = false ∧
    ((Transient.execute_passes env parameters.num_steps s1.execute_entry).execute_head
      env).2._steps_taken = parameters.num_steps ∧
    ((Transient.execute_passes env parameters.num_steps s1.execute_entry).execute_head
      env).2._t_step = (parameters.num_steps : Int) + 1 ∧
    (∀ fuel, parameters.num_steps < fuel →
      Transient.execute_loop env fuel s1.execute_entry =
          some ((Transient.execute_passes env parameters.num_steps
            s1.execute_entry).execute_head env).2 ∧
        ∃ s2, s1.execute env app fuel = some s2 ∧
          s2._steps_taken = parameters.num_steps ∧
          s2._t_step = (parameters.num_steps : Int) + 1) := by
  obtain ⟨c1, c2, c3, c4⟩ := construct_count parameters app s0 hc
  obtain ⟨i1, i2, i3⟩ := init_count env app s0 s1 hi
  have hr : app.isRecovering = false ∧ s1._t_step = 1 := by
    rcases (init_incrementTStep env app s0 s1 hi).2 with ⟨_, a, _⟩ | ⟨a, _, b⟩
    · exact absurd c1 a
    · exact ⟨a, b⟩
  have inv := execute_passes_count env s1.execute_entry parameters.num_steps hr.2
    (i1.trans c2) (i2.trans c3) (i3.trans (c4 hh)) hN hacc
  have hcont : ∀ k, k < parameters.num_steps →
      ((Transient.execute_passes env k s1.execute_entry).execute_head env).1 = true := by
    intro k hk
    obtain ⟨a1, _, _, a4⟩ := inv k (by omega)
    refine (keepGoing_of_not_otherStop env _ (hother k hk)).2 ?_
    rw [a1, a4]
    have e : ((k : Int) + 1) = ((k + 1 : ℕ) : Int) := by push_cast; ring
    rw [e, toUnsigned_natCast (k + 1) (by omega)]
    omega
  obtain ⟨n1, n2, _, n4⟩ := inv parameters.num_steps (le_refl _)
  have hstop : ((Transient.execute_passes env parameters.num_steps
      s1.execute_entry).execute_head env).1 = false := by
    refine keepGoing_false_of_num_steps env _ ?_
    rw [n1, n4]
    have e : ((parameters.num_steps : Int) + 1) = ((parameters.num_steps + 1 : ℕ) : Int) := by
      push_cast; ring
    rw [e, toUnsigned_natCast (parameters.num_steps + 1) (by omega)]
    omega
  have hs : ((Transient.execute_passes env parameters.num_steps
      s1.execute_entry).execute_head env).2._steps_taken = parameters.num_steps :=
    ((keepGoing_control env _).2.2.2.2).trans n2
  have ht : ((Transient.execute_passes env parameters.num_steps
      s1.execute_entry).execute_head env).2._t_step = (parameters.num_steps : Int) + 1 :=
    (keepGoing_t_step env _).trans n1
  refine ⟨hcont, hstop, hs, ht, fun fuel hfuel => ?_⟩
  have hloop : Transient.execute_loop env fuel s1.execute_entry =
      some ((Transient.execute_passes env parameters.num_steps
        s1.execute_entry).execute_head env).2 := by
    obtain ⟨f, rfl⟩ : ∃ f, fuel = (f + 1) + parameters.num_steps := ⟨fuel - 1 - parameters.num_steps, by omega⟩
    rw [execute_loop_passes env s1.execute_entry (f + 1) parameters.num_steps hcont]
    show (if !((Transient.execute_passes env parameters.num_steps
      s1.execute_entry).execute_head env).1 then _ else _) = _
    rw [hstop]
    rfl
  refine ⟨hloop, ?_⟩
  have he : s1.execute env app fuel =
      match Transient.execute_loop env fuel s1.execute_entry with
      | none => none
      | some s =>
        some (Transient.postExecute (record Call.problemPostExecute
          (if !app.halfTransient then
            record (Call.problemExecute ExecFlagType.EXEC_FINAL)
              (record (Call.outputStep ExecFlagType.EXEC_FINAL) s)
          else s))) := by
    simp only [Transient.execute, Transient.execute_entry, hr.1, Bool.not_false, if_true]
  rw [he, hloop]
  refine ⟨_, rfl, ?_, ?_⟩
  · simp only [Transient.postExecute, record, apply_ite Transient.toSolveStatus,
      apply_ite SolveStatus._steps_taken, ite_self]
    exact hs
  · simp only [Transient.postExecute, record, apply_ite Transient.toClock,
      apply_ite Clock._t_step, ite_self]
    exact ht

/-- Witness of C24: the cold start with `num_steps = 2`, a solve that converges and the
default end time; the loop body runs twice and `execute` ends with `_steps_taken = 2` and
`_t_step = 3`. -/
theorem num_steps_attempts_witness :
    twoStepsParameters.num_steps = 2 ∧
      ∃ s2, (coldStartFor twoStepsParameters (exampleEnv true true 0)).execute
          (exampleEnv true true 0) exampleApp 3 = some s2 ∧
        s2._steps_taken = 2 ∧ s2._t_step = 2 + 1 :=
  ⟨rfl,
    ((num_steps_attempts (exampleEnv true true 0) exampleApp twoStepsParameters
      (constructedFor twoStepsParameters)
      (coldStartFor twoStepsParameters (exampleEnv true true 0))
      (by with_unfolding_all rfl) (by with_unfolding_all rfl) rfl (by decide)
      (fun k hk => by
        have hk2 : k < 2 := hk
        interval_cases k <;> decide!)
      (fun k hk => by
        have hk2 : k < 2 := hk
        interval_cases k <;> (unfold OtherStop; decide!))).2.2.2.2 3 (by decide)).2⟩

/-! ### The relaxation in the first sub-iteration of a repeated step -/

/-- Evaluation for C25: a cold start with two start-up steps, the relaxation factor 1/2 and a
solve that never converges.  The first sub-iteration of the first attempt (`_picard_it = 0`,
`_prev_time = _time - 1`) is not relaxed.  The attempt fails, the next pass rejects it, and
the retry uses the step size that failed, so that its first sub-iteration (`_picard_it = 0`)
is at the time of the rejected attempt, `_prev_time = _time`: lines 544-577 collect the
degrees of freedom, call `_nl.update()` and leave the blend of the solution before the solve
with the result of the solve instead of that result.  The same holds for the first
sub-iteration of the repeat of a step that XFEM requests. -/
theorem retry_relaxes_first_sub_iteration :
    (relaxRetryParameters.relaxation_factor ≠ 1) ∧
    ((Transient.execute_firstSolve relaxRetryEnv 0
        (coldStartFor relaxRetryParameters relaxRetryEnv).execute_entry)._picard_it = 0 ∧
      (callsSince
        (Transient.execute_firstSolve relaxRetryEnv 0
          (coldStartFor relaxRetryParameters relaxRetryEnv).execute_entry)
        ((Transient.execute_firstSolve relaxRetryEnv 0
          (coldStartFor relaxRetryParameters relaxRetryEnv).execute_entry).solveStep
            relaxRetryEnv (-1))).count Call.nlUpdate = 0) ∧
    ((Transient.execute_passes relaxRetryEnv 1
        (coldStartFor relaxRetryParameters relaxRetryEnv).execute_entry).lastSolveConverged
          = false ∧
      ((Transient.execute_passes relaxRetryEnv 1
        (coldStartFor relaxRetryParameters relaxRetryEnv).execute_entry).execute_head
          relaxRetryEnv).1 = true ∧
      ((Transient.execute_passes relaxRetryEnv 1
        (coldStartFor relaxRetryParameters relaxRetryEnv).execute_entry).execute_head
          relaxRetryEnv).2.calls.count Call.rejectStep = 1) ∧
    ((Transient.execute_firstSolve relaxRetryEnv 1
        (coldStartFor relaxRetryParameters relaxRetryEnv).execute_entry)._picard_it = 0 ∧
      (callsSince
        (Transient.execute_firstSolve relaxRetryEnv 1
          (coldStartFor relaxRetryParameters relaxRetryEnv).execute_entry)
        ((Transient.execute_firstSolve relaxRetryEnv 1
          (coldStartFor relaxRetryParameters relaxRetryEnv).execute_entry).solveStep
            relaxRetryEnv (-1))).count Call.allLocalDofIndices = 1 ∧
      (callsSince
        (Transient.execute_firstSolve relaxRetryEnv 1
          (coldStartFor relaxRetryParameters relaxRetryEnv).execute_entry)
        ((Transient.execute_firstSolve relaxRetryEnv 1
          (coldStartFor relaxRetryParameters relaxRetryEnv).execute_entry).solveStep
            relaxRetryEnv (-1))).count Call.nlUpdate = 1 ∧
      (relaxRetryEnv.step
        ((Transient.execute_firstSolve relaxRetryEnv 1
          (coldStartFor relaxRetryParameters relaxRetryEnv).execute_entry).solveStep_beforeSolve
            relaxRetryEnv (-1))).2.1 0 = 40 ∧
      ((Transient.execute_firstSolve relaxRetryEnv 1
        (coldStartFor relaxRetryParameters relaxRetryEnv).execute_entry).solveStep
          relaxRetryEnv (-1)).solution 0 = 30) ∧
    ((Transient.execute_passes relaxXfemEnv 1
        (coldStartFor relaxXfemParameters relaxXfemEnv).execute_entry).lastSolveConverged
          = true ∧
      (Transient.execute_passes relaxXfemEnv 1
        (coldStartFor relaxXfemParameters relaxXfemEnv).execute_entry)._xfem_repeat_step
          = true ∧
      (Transient.execute_firstSolve relaxXfemEnv 1
        (coldStartFor relaxXfemParameters relaxXfemEnv).execute_entry)._picard_it = 0 ∧
      (callsSince
        (Transient.execute_firstSolve relaxXfemEnv 1
          (coldStartFor relaxXfemParameters relaxXfemEnv).execute_entry)
        ((Transient.execute_firstSolve relaxXfemEnv 1
          (coldStartFor relaxXfemParameters relaxXfemEnv).execute_entry).solveStep
            relaxXfemEnv (-1))).count Call.nlUpdate = 1 ∧
      ((Transient.execute_firstSolve relaxXfemEnv 1
        (coldStartFor relaxXfemParameters relaxXfemEnv).execute_entry).solveStep
          relaxXfemEnv (-1)).solution 0 = 30) := by
  refine ⟨by decide!, ⟨by decide!, by decide!⟩, ⟨by decide!, by decide!, by decide!⟩,
    ⟨by decide!, by decide!, by decide!, by decide!, by decide!⟩,
    ⟨by decide!, by decide!, by decide!, by decide!, by decide!⟩⟩

end Moose
